import Mathlib

/-! FSIHandler: interface numbering, monolithic map and Newton callbacks

A shallow embedding of `lifev/fsi_blocks/solver/FSIHandler.cpp`.

Conventions of the embedding

* A C++ `int` / `UInt` that holds a count, an identifier or an index is a `Nat`
  or an `Int` without wrap-around: the quantities are numbers of mesh entities.
* A `std::map<ID, ID>` is the list of its pairs in iteration order (ascending
  key); a `std::vector` filled with `push_back` is the list of pushed values.
* Objects of the linear-algebra backend (Epetra maps and vectors, operators,
  the linear solver) are not part of the file under study; they enter as
  parameters or as small models that are marked as such.
-/

namespace FSIHandler

/-- Identifier of a degree of freedom (`ID` in the sources). -/
abbrev ID := Nat

/-! ## constructInterfaceMap: the offset array -/

/-- The loop `for (j = numtasks - 1; j > 0; --j) numInterfaceDof[j] = numInterfaceDof[j - 1];`
the first argument is the current value of `j`. -/
def shiftLoop : Nat → List Int → List Int
  | 0, a => a
  | j + 1, a => shiftLoop j (a.set (j + 1) (a.getD j 0))

/-- The loop `for (j = 1; j < numtasks; ++j) numInterfaceDof[j] += numInterfaceDof[j - 1];`
the first argument is the number of iterations still to run, the second is `j`. -/
def accumLoop : Nat → Nat → List Int → List Int
  | 0, _, a => a
  | n + 1, j, a => accumLoop n (j + 1) (a.set j (a.getD j 0 + a.getD (j - 1) 0))

/-- Lines 376-384: shift loop, `numInterfaceDof[0] = 0`, accumulation loop, run on the
array of broadcast counts (`numtasks` is its length). -/
def offsetArray (numInterfaceDof : List Int) : List Int :=
  let numtasks := numInterfaceDof.length
  let shifted := shiftLoop (numtasks - 1) numInterfaceDof
  let zeroed := shifted.set 0 0
  accumLoop (numtasks - 1) 1 zeroed

/-! ## Epetra maps, as far as the numbering reads them

`M_structureInterfaceMap->map (Unique)` is a distributed one-to-one map. It is given by the
list, rank by rank, of the global identifiers each rank holds (`uniqueMaps`, entry `pid` is
the part of rank `pid`). -/

/-- `Epetra_BlockMap::NumMyElements` of one rank's part of a map. -/
def NumMyElements (myGlobalElements : List ID) : Nat := myGlobalElements.length

/-- `Epetra_BlockMap::LID`: the local index of a global identifier, `-1` when this rank does
not hold it. -/
def LID (myGlobalElements : List ID) (gid : ID) : Int :=
  if gid ∈ myGlobalElements then (myGlobalElements.indexOf gid : Int) else -1

/-- `Epetra_BlockMap::NumGlobalElements` of a one-to-one map: the number of elements over
all ranks. -/
def NumGlobalElements (uniqueMaps : List (List ID)) : Nat :=
  (uniqueMaps.map NumMyElements).sum

/-- A pointer to the integers handed to the `MapEpetra` constructor. -/
inductive IntPtr where
  | null
  | to (data : List Nat)
  deriving DecidableEq, Repr

/-- Modelled from the spec: the constructor
`MapEpetra (-1, numMyElements, myGlobalElements, comm)` is declared outside the files under
study; it is the collective construction from index lists of §6. Seen from one rank it
gives the rank's list of global identifiers, the first `numMyElements` integers behind the
pointer. It is called with a null pointer only together with `numMyElements = 0`. -/
def newMapEpetra (numMyElements : Nat) (myGlobalElements : IntPtr) : List Nat :=
  match myGlobalElements with
  | IntPtr.null => []
  | IntPtr.to data => data.take numMyElements

/-- The expression `&v[0]` on a `std::vector<int>`: the language gives it no meaning when the
vector is empty (`none`). -/
def firstElementAddress (v : List Nat) : Option IntPtr :=
  if v.isEmpty then none else some (IntPtr.to v)

/-! ## createInterfaceMaps -/

/-- What `createInterfaceMaps` leaves behind on one rank. -/
structure InterfaceMaps where
  dofInterfaceFluid : List Nat
  M_fluidInterfaceMap : List Nat
  dofInterfaceSolid : List Nat
  M_structureInterfaceMap : List Nat
  deriving DecidableEq, Repr

/-- The double loop of lines 323-327 and 342-346: for every dimension, for every pair of the
local map in iteration order, `push_back (component + dim * numTotalDof)`. -/
def dofInterfaceLoop (nDimensions numTotalDof : Nat) (component : ID × ID → ID)
    (locDofMap : List (ID × ID)) : List Nat :=
  (List.range nDimensions).foldl
    (fun acc dim => locDofMap.foldl (fun acc2 i => acc2 ++ [component i + dim * numTotalDof]) acc)
    []

/-- Lines 329-333 and 348-352: the pointer stays null unless the vector has an element. -/
def pointerToDofs (v : List Nat) : IntPtr :=
  if v.length > 0 then IntPtr.to v else IntPtr.null

/-- `FSIHandler::createInterfaceMaps`. `fluidTotalDof` is
`M_fluid->uFESpace()->dof().numTotalDof()` and `structureTotalDof` is
`M_displacementFESpace->dof().numTotalDof()`. -/
def createInterfaceMaps (nDimensions fluidTotalDof structureTotalDof : Nat)
    (locDofMap : List (ID × ID)) : InterfaceMaps :=
  let dofInterfaceFluid := dofInterfaceLoop nDimensions fluidTotalDof Prod.fst locDofMap
  let fluidMap := newMapEpetra dofInterfaceFluid.length (pointerToDofs dofInterfaceFluid)
  let dofInterfaceSolid := dofInterfaceLoop nDimensions structureTotalDof Prod.snd locDofMap
  let solidMap := newMapEpetra dofInterfaceSolid.length (pointerToDofs dofInterfaceSolid)
  { dofInterfaceFluid := dofInterfaceFluid
    M_fluidInterfaceMap := fluidMap
    dofInterfaceSolid := dofInterfaceSolid
    M_structureInterfaceMap := solidMap }

/-! ## constructInterfaceMap: numbering and multiplier map -/

/-- The two operations of `VectorEpetra` (declared outside this file) that
`constructInterfaceMap` applies to `M_numerationInterface`: the element assignment
`(*v)[id] = x` and the element read `(*v)(id)`. The entries are reals in the sources; the
values stored here are integers well inside the exactly representable range. -/
structure NumerationVector (V : Type) where
  assign : V → ID → Nat → V
  read : V → ID → Nat

/-- Modelled from the spec: `VectorEpetra` is declared outside the files under study; the
numbering vector holds one id per interface point (§3). It keeps what is assigned: the
table of the assignments made, the latest one first; an identifier never assigned reads as
zero. -/
def tableVector : NumerationVector (List (ID × Nat)) where
  assign v gid x := (gid, x) :: v
  read v gid := (v.lookup gid).getD 0

/-- The message of line 396. -/
def errorLine : String := "ERROR! the numeration of the coupling map is not correct"

/-- The right-hand side of the test of line 394:
`floor (l + numInterfaceDof[pid] / nDimensions + 0.2)`; the quotient is an integer division
and the sum is taken over the rationals. -/
def expectedId (l : Nat) (offset : Int) (nDimensions : Nat) : Int :=
  Int.floor ((((l + offset.toNat / nDimensions : Nat) : ℚ)) + 2 / 10)

/-- The variables the numbering loop of lines 389-400 changes; `cout` collects the lines
written to standard output. -/
structure NumerationState (V : Type) where
  M_numerationInterface : V
  l : Nat
  cout : List String

/-- One turn of the loop of lines 389-400 on the pair `ITrow`; `owned gid` is the test
`M_structureInterfaceMap->map (Unique)->LID (gid) >= 0` and `offset` is
`numInterfaceDof[pid]`. -/
def numerationStep {V : Type} (vec : NumerationVector V) (owned : ID → Bool) (offset : Int)
    (nDimensions : Nat) (s : NumerationState V) (ITrow : ID × ID) : NumerationState V :=
  if owned ITrow.2 then
    let v1 := vec.assign s.M_numerationInterface ITrow.2 (s.l + offset.toNat / nDimensions)
    let out :=
      if ((vec.read v1 ITrow.2 : Nat) : Int) ≠ expectedId s.l offset nDimensions then
        s.cout ++ [errorLine]
      else s.cout
    { M_numerationInterface := v1, l := s.l + 1, cout := out }
  else s

/-- The double loop of lines 405-414: for every dimension, for every owned pair of the local
map, `push_back (numeration (second) + dim * M_interface)`. -/
def couplingLoop {V : Type} (vec : NumerationVector V) (owned : ID → Bool) (numeration : V)
    (nDimensions M_interface : Nat) (locDofMap : List (ID × ID)) : List Nat :=
  (List.range nDimensions).foldl
    (fun acc dim => locDofMap.foldl
      (fun acc2 ITrow =>
        if owned ITrow.2 then acc2 ++ [vec.read numeration ITrow.2 + dim * M_interface]
        else acc2) acc)
    []

/-- What `constructInterfaceMap` leaves behind on one rank. `M_lagrangeMap` is `none` when
the pointer expression of line 416 has no meaning. -/
structure InterfaceNumbering (V : Type) where
  numInterfaceDof : List Int
  M_numerationInterface : V
  l : Nat
  cout : List String
  M_interface : Nat
  couplingVector : List Nat
  M_lagrangeMap : Option (List Nat)

/-- The ownership test of lines 391 and 409 on rank `pid`. -/
def ownedOn (uniqueMaps : List (List ID)) (pid : Nat) (gid : ID) : Bool :=
  decide (0 ≤ LID (uniqueMaps.getD pid []) gid)

/-- `FSIHandler::constructInterfaceMap` on rank `pid`. `uniqueMaps` is the unique structure
interface map (one list per rank, so `numtasks` is its length), `fresh` is the vector
`M_numerationInterface` as created on line 369 (the argument `subdomainMaxId` only bounds
the index space of that vector). After the broadcast loop of lines 371-374 entry `j` of
`numInterfaceDof` is the `NumMyElements` of rank `j`. -/
def constructInterfaceMap {V : Type} (vec : NumerationVector V) (fresh : V)
    (nDimensions : Nat) (uniqueMaps : List (List ID)) (pid : Nat)
    (locDofMap : List (ID × ID)) : InterfaceNumbering V :=
  let broadcast : List Int := uniqueMaps.map (fun m => (NumMyElements m : Int))
  let numInterfaceDof := offsetArray broadcast
  let M_interface := NumGlobalElements uniqueMaps / nDimensions
  let owned := ownedOn uniqueMaps pid
  let s := locDofMap.foldl (numerationStep vec owned (numInterfaceDof.getD pid 0) nDimensions)
    { M_numerationInterface := fresh, l := 0, cout := [] }
  let couplingVector :=
    couplingLoop vec owned s.M_numerationInterface nDimensions M_interface locDofMap
  { numInterfaceDof := numInterfaceDof
    M_numerationInterface := s.M_numerationInterface
    l := s.l
    cout := s.cout
    M_interface := M_interface
    couplingVector := couplingVector
    M_lagrangeMap :=
      (firstElementAddress couplingVector).map (newMapEpetra couplingVector.length) }

/-- The pairs of rank `pid` that pass the ownership test, in iteration order. -/
def ownedPairs (uniqueMaps : List (List ID)) (locDofMaps : List (List (ID × ID)))
    (pid : Nat) : List (ID × ID) :=
  (locDofMaps.getD pid []).filter (fun e => ownedOn uniqueMaps pid e.2)

/-- Modelled from the spec: `MapEpetra` and its operator `+=` are declared outside the files
under study. A map is the list of the global identifiers this rank holds together with the
number of identifiers over all ranks (`mapSize`); `+=` is the block composition of §6, an
ordered concatenation (§4.4): the identifiers of the right operand follow those of the
left one, moved by the size of the left one. -/
structure MapEpetra where
  myGlobalElements : List Nat
  mapSize : Nat
  deriving DecidableEq, Repr

/-- Modelled from the spec: `MapEpetra::operator+=`, see `MapEpetra`. -/
def MapEpetra.plusAssign (a b : MapEpetra) : MapEpetra :=
  { myGlobalElements := a.myGlobalElements ++ b.myGlobalElements.map (fun g => g + a.mapSize)
    mapSize := a.mapSize + b.mapSize }

/-- Modelled from the spec: the map of a field with `n` unknowns when one rank holds them
all; the indices are contiguous (§3, Field Map). -/
def MapEpetra.linear (n : Nat) : MapEpetra :=
  { myGlobalElements := List.range n, mapSize := n }

/-- `FSIHandler::buildMonolithicMap`: a copy of the velocity map, to which the pressure map,
the structure displacement map, the multiplier map and the ALE map are added in this order. -/
def buildMonolithicMap (uMap pMap displacementMap lagrangeMap aleMap : MapEpetra) : MapEpetra :=
  let m0 := uMap
  let m1 := m0.plusAssign pMap
  let m2 := m1.plusAssign displacementMap
  let m3 := m2.plusAssign lagrangeMap
  m3.plusAssign aleMap

/-! ## The Newton callbacks evalResidual and solveJac

Scalars are of a type `R` with a zero and a subtraction, matrices of a type `Mat`, the
parameter list of the linear solver of a type `PList`; the fluid mesh together with the
fluid solver is a value of a type `W` on which the outside operations act. -/

/-- Modelled from the spec: `VectorEpetra::subset (vector, map, offset1, offset2)` is
declared outside the files under study; it is the block extraction and insertion of §4.5
and §6. For every identifier `g` of `map` (the identifiers `0 .. mapSize - 1`) the entry
`g + offset2` of the receiver becomes the entry `g + offset1` of `vector`; the other
entries of the receiver stay. -/
def subset {R : Type} [Zero R] (receiver vector : List R) (mapSize offset1 offset2 : Nat) :
    List R :=
  (List.range receiver.length).map (fun g =>
    if offset2 ≤ g ∧ g < offset2 + mapSize then vector.getD (g - offset2 + offset1) 0
    else receiver.getD g 0)

/-- The calls `FSIHandler` makes on the preconditioner `M_prec`. -/
inductive PrecCall (Mat : Type) where
  | setOptions
  | setComm
  | setStructureBlock (matrix : Mat)
  | updateApproximatedStructureMomentumOperator
  | setGeometryBlock (matrix : Mat)
  | updateApproximatedGeometryOperator
  | setCouplingBlocks (lambdaToFluidMomentum lambdaToStructureMomentum
      structureDisplacementToLambda fluidVelocityToLambda
      structureDisplacementToFluidDisplacement : Mat)
  | setMonolithicMap
  | setFluidBlocks (F Btranspose B : Mat)
  | setDomainMap
  | setRangeMap
  | updateApproximatedFluidOperator
  deriving DecidableEq, Repr

/-- The 5 x 5 table of blocks handed to `FSIApplyOperator::setUp`; `none` is a block that
was not assigned. -/
abbrev OperData (Mat : Type) := Nat → Nat → Option Mat

/-- The linear solver `M_invOper` as `FSIHandler` configures it: the parameter list given
at setup (it holds the tolerance and the iteration budget of the Krylov method), the
operator and the preconditioner (the calls made on `M_prec` so far). -/
structure InvOper (Mat PList : Type) where
  parameterList : Option PList
  operator : Option (OperData Mat)
  preconditioner : Option (List (PrecCall Mat))

/-- The collaborators outside `FSIHandler.cpp`. -/
structure External (R Mat W PList : Type) where
  /-- `M_fluidLocalMesh->meshTransformer().moveMesh (displacement, numTotalDof)`. -/
  moveMesh : W → List R → W
  /-- `M_fluid->buildSystem()`. -/
  buildSystem : W → W
  /-- `M_fluid->updateSystem (M_beta_star, M_rhs_velocity)`. -/
  updateSystem : W → List R → List R → W
  /-- `M_fluid->applyBoundaryConditions (M_fluidBC, M_time)`. -/
  applyBoundaryConditions : W → R → W
  /-- `M_fluid->getRhs()`. -/
  getRhs : W → List R
  /-- `M_fluid->getF()`. -/
  getF : W → Mat
  /-- `M_fluid->getBtranspose()`. -/
  getBtranspose : W → Mat
  /-- `M_fluid->getB()`. -/
  getB : W → Mat
  /-- `M_applyOperator->Apply (X, Y)` for an operator set up with the given blocks: the
  content of `Y` after the call, from `X` and the content of `Y` before the call. -/
  apply : OperData Mat → List R → List R → List R
  /-- `M_invOper->ApplyInverse (residual, increment)`: the content of `increment` after the
  call and the returned code (zero for success). -/
  applyInverse : InvOper Mat PList → List R → List R → List R × Int

/-- The members of `FSIHandler` the two callbacks read or write. `nu`, `np`, `ns`, `nl`, `na`
are the `mapSize ()` of the velocity, pressure, structure displacement, multiplier and ALE
maps. -/
structure FSIState (R Mat W PList : Type) where
  nu : Nat
  np : Nat
  ns : Nat
  nl : Nat
  na : Nat
  world : W
  M_time : R
  M_beta_star : List R
  M_rhs_velocity : List R
  M_rhsFluid : List R
  M_rhsStructure : List R
  M_rhsCouplingVelocities : List R
  M_matrixStructure : Mat
  aleMatrix : Mat
  lambdaToFluidMomentum : Mat
  lambdaToStructureMomentum : Mat
  structureDisplacementToLambda : Mat
  fluidVelocityToLambda : Mat
  structureDisplacementToFluidDisplacement : Mat
  M_applyOperator : OperData Mat
  M_prec : List (PrecCall Mat)
  M_invOper : InvOper Mat PList

/-- The table of `FSIHandler::initializeApplyOperator` (lines 814-824): ten assignments on a
table of 5 x 5 unset blocks. -/
def operData {R Mat W PList : Type} (E : External R Mat W PList)
    (h : FSIState R Mat W PList) : OperData Mat :=
  fun i j =>
    match i, j with
    | 0, 0 => some (E.getF h.world)
    | 0, 1 => some (E.getBtranspose h.world)
    | 0, 3 => some h.lambdaToFluidMomentum
    | 1, 0 => some (E.getB h.world)
    | 2, 2 => some h.M_matrixStructure
    | 2, 3 => some h.lambdaToStructureMomentum
    | 3, 0 => some h.fluidVelocityToLambda
    | 3, 2 => some h.structureDisplacementToLambda
    | 4, 2 => some h.structureDisplacementToFluidDisplacement
    | 4, 4 => some h.aleMatrix
    | _, _ => none

/-- `FSIHandler::initializeApplyOperator`: `M_applyOperator->setUp (operData, M_comm)`. -/
def initializeApplyOperator {R Mat W PList : Type} (E : External R Mat W PList)
    (h : FSIState R Mat W PList) : FSIState R Mat W PList :=
  { h with M_applyOperator := operData E h }

/-- The vector `rightHandSide` of lines 711-718: a zero vector on the monolithic map, into
which the fluid, the structure and the coupling right-hand sides are inserted. -/
def rightHandSide {R Mat W PList : Type} [Zero R] (h : FSIState R Mat W PList) : List R :=
  let zeroed : List R := List.replicate (h.nu + h.np + h.ns + h.nl + h.na) 0
  let withFluid := subset zeroed h.M_rhsFluid h.nu 0 0
  let withStructure := subset withFluid h.M_rhsStructure h.ns 0 (h.nu + h.np)
  subset withStructure h.M_rhsCouplingVelocities h.nl 0 (h.nu + h.np + h.ns)

/-- The vector handed to `moveMesh` on lines 681-689: the entries of `solution` from
`offset` on, on the ALE map; the copy with a repeated map has the same entries. -/
def meshDisplacement {R Mat W PList : Type} [Zero R] (h : FSIState R Mat W PList)
    (solution : List R) : List R :=
  let offset := h.nu + h.np + h.ns + h.nl
  subset (List.replicate h.na 0) solution h.na offset 0

set_option linter.unusedVariables false in
/-- `FSIHandler::evalResidual`: the state after the call and the content of `residual`
after the call. -/
def evalResidual {R Mat W PList : Type} [Zero R] [Sub R] (E : External R Mat W PList)
    (h : FSIState R Mat W PList) (residual solution : List R) (iter_newton : Nat) :
    FSIState R Mat W PList × List R :=
  let residual0 : List R := residual.map (fun _ => 0)
  let mmRep := meshDisplacement h solution
  let w1 := E.moveMesh h.world mmRep
  let w2 := E.buildSystem w1
  let w3 := E.updateSystem w2 h.M_beta_star h.M_rhs_velocity
  let w4 := E.applyBoundaryConditions w3 h.M_time
  let h1 := { h with world := w4, M_rhsFluid := E.getRhs w4 }
  let h2 := initializeApplyOperator E h1
  let rhs := rightHandSide h2
  let residual1 := E.apply h2.M_applyOperator solution residual0
  (h2, List.zipWith (fun a b => a - b) residual1 rhs)

set_option linter.unusedVariables false in
/-- `FSIHandler::solveJac`: the state after the call and the content of `increment` after
the call. The value returned by `ApplyInverse` is dropped. -/
def solveJac {R Mat W PList : Type} (E : External R Mat W PList)
    (h : FSIState R Mat W PList) (increment residual : List R) (linearRelTol : R) :
    FSIState R Mat W PList × List R :=
  let prec1 := h.M_prec ++
    [PrecCall.setFluidBlocks (E.getF h.world) (E.getBtranspose h.world) (E.getB h.world),
      PrecCall.setDomainMap, PrecCall.setRangeMap]
  let prec2 := prec1 ++ [PrecCall.updateApproximatedFluidOperator]
  let inv1 : InvOper Mat PList :=
    { h.M_invOper with operator := some h.M_applyOperator, preconditioner := some prec2 }
  let solved := E.applyInverse inv1 residual increment
  ({ h with M_prec := prec2, M_invOper := inv1 }, solved.1)

/-! ## A small instance of the callbacks

Rational scalars; matrices and the outside state are numbers standing for the objects; the
parameter list of the linear solver is reduced to its tolerance. -/

/-- Collaborators of the small instance: the mesh state counts the calls made on it, the
operator is the identity, the linear solver gives back the residual and reports success. -/
def sampleExternal : External ℚ Nat Nat ℚ where
  moveMesh w _ := w + 1
  buildSystem w := w + 1
  updateSystem w _ _ := w + 1
  applyBoundaryConditions w _ := w + 1
  getRhs _ := [5]
  getF w := w
  getBtranspose w := w + 100
  getB w := w + 200
  apply _ x _ := x
  applyInverse _ residual _ := (residual, 0)

/-- State of the small instance: one unknown per block, a linear solver configured at setup
with the tolerance 1/1000000. -/
def sampleState : FSIState ℚ Nat Nat ℚ where
  nu := 1
  np := 1
  ns := 1
  nl := 1
  na := 1
  world := 0
  M_time := 0
  M_beta_star := [0]
  M_rhs_velocity := [0]
  M_rhsFluid := [0]
  M_rhsStructure := [7]
  M_rhsCouplingVelocities := [9]
  M_matrixStructure := 1
  aleMatrix := 2
  lambdaToFluidMomentum := 3
  lambdaToStructureMomentum := 4
  structureDisplacementToLambda := 5
  fluidVelocityToLambda := 6
  structureDisplacementToFluidDisplacement := 7
  M_applyOperator := fun _ _ => none
  M_prec := []
  M_invOper := { parameterList := some (1 / 1000000), operator := none, preconditioner := none }

/-! ## A scenario with two ranks

Two ranks, three dimensions, ten structure nodes; each rank holds two interface pairs and
owns the three components of its two structure nodes. -/

/-- The unique structure interface map of the scenario, rank by rank. -/
def scenarioUniqueMaps : List (List ID) :=
  [[0, 1, 10, 11, 20, 21], [2, 3, 12, 13, 22, 23]]

/-- The local interface maps of the scenario, rank by rank. -/
def scenarioLocDofMaps : List (List (ID × ID)) :=
  [[(0, 0), (1, 1)], [(2, 2), (3, 3)]]

/-- The collaborators of the small instance with a linear solver that leaves the same
increment but reports a failure (a code different from zero). -/
def sampleFailingExternal : External ℚ Nat Nat ℚ :=
  { sampleExternal with applyInverse := fun _ residual _ => (residual, -1) }

/-! ## structureToInterface -/

/-- The two distribution modes of a vector (`MapEpetraType` in the sources). -/
inductive MapEpetraType where
  | Unique
  | Repeated
  deriving DecidableEq, Repr

/-- Modelled from the spec: `VectorEpetra` is declared outside the files under study. Of
the two distribution modes of §6 (uniquely owned, replicated) a vector keeps the tag; in
both it holds one value for every global identifier `0 .. mapSize - 1` of its map. -/
structure VectorEpetra (R : Type) where
  mapType : MapEpetraType
  values : List R
  deriving DecidableEq, Repr

/-- Modelled from the spec: the copy `VectorEpetra (vector, mapType)` of a vector with
another distribution mode; the value of every identifier is kept (§8: transmission is a
pointwise injection, not an averaging). -/
def VectorEpetra.withMapType {R : Type} (v : VectorEpetra R) (mapType : MapEpetraType) :
    VectorEpetra R :=
  { mapType := mapType, values := v.values }

/-- Modelled from the spec: the vector `VectorEpetra (map, mapType)` created on a map with
`mapSize` identifiers; its entries are zero. -/
def VectorEpetra.onMap {R : Type} [Zero R] (mapSize : Nat) (mapType : MapEpetraType) :
    VectorEpetra R :=
  { mapType := mapType, values := List.replicate mapSize 0 }

/-- Modelled from the spec: the assignment `receiver = other` between vectors on different
maps. The receiver keeps its map and its mode; every identifier of its map takes the value
`other` has for that identifier, zero when `other` has none. -/
def VectorEpetra.assign {R : Type} [Zero R] (receiver other : VectorEpetra R) :
    VectorEpetra R :=
  { mapType := receiver.mapType
    values := (List.range receiver.values.length).map (fun g => other.values.getD g 0) }

/-- `FSIHandler::structureToInterface (VectorOnGamma, VectorOnStructure)`: the content of
`VectorOnGamma` after the call. The first argument bounds the number of nested calls;
`none` means the bound was reached. -/
def structureToInterface {R : Type} [Zero R] :
    Nat → VectorEpetra R → VectorEpetra R → Option (VectorEpetra R)
  | 0, _, _ => none
  | fuel + 1, VectorOnGamma, VectorOnStructure =>
    if VectorOnStructure.mapType = MapEpetraType.Repeated then
      let VectorOnStructureUnique := VectorOnStructure.withMapType MapEpetraType.Unique
      structureToInterface fuel VectorOnGamma VectorOnStructureUnique
    else if VectorOnGamma.mapType = MapEpetraType.Repeated then
      let VectorOnGammaUn : VectorEpetra R :=
        VectorEpetra.onMap VectorOnGamma.values.length MapEpetraType.Unique
      match structureToInterface fuel VectorOnGammaUn VectorOnStructure with
      | none => none
      | some filled => some (VectorOnGamma.assign filled)
    else
      let numGlobalElements := VectorOnStructure.values.length
      let subVectorOnStructure : VectorEpetra R :=
        VectorEpetra.onMap numGlobalElements MapEpetraType.Unique
      let subVectorFilled : VectorEpetra R :=
        { subVectorOnStructure with
          values := subset subVectorOnStructure.values VectorOnStructure.values
            numGlobalElements 0 0 }
      some (VectorOnGamma.assign subVectorFilled)

/-! ## buildInterfaceMaps -/

/-- Modelled from the spec: the search of `DOFInterface3Dto3D::update`, which is not in the
files under study (§4.1): among the structure-side interface nodes within the tolerance of
the point `p`, the nearest one; `none` when no node is within the tolerance. Of several
nearest nodes the first in the list is taken. -/
def nearestWithin {P D : Type} [LinearOrder D] (dist : P → P → D) (tolerance : D) (p : P) :
    List (ID × P) → Option (ID × P)
  | [] => none
  | c :: cs =>
    match nearestWithin dist tolerance p cs with
    | none => if dist p c.2 ≤ tolerance then some c else none
    | some b =>
      if dist p c.2 ≤ tolerance ∧ dist p c.2 ≤ dist p b.2 then some c else some b

/-- The report of the matcher when a fluid-side node has no partner. -/
def noPartnerMessage : String := "no structure node within the tolerance"

/-- Modelled from the spec: the matching of `DOFInterface3Dto3D::update` followed by
`localDofMap ()` (§4.1). Every fluid-side interface node of the partition, taken in
ascending identifier, is paired with the nearest structure-side interface node within the
tolerance; the matching fails with a report when a fluid-side node has no such partner. -/
def matchInterface {P D : Type} [LinearOrder D] (dist : P → P → D) (tolerance : D)
    (structureNodes : List (ID × P)) : List (ID × P) → Except String (List (ID × ID))
  | [] => Except.ok []
  | f :: fs =>
    match nearestWithin dist tolerance f.2 structureNodes with
    | none => Except.error noPartnerMessage
    | some s =>
      match matchInterface dist tolerance structureNodes fs with
      | Except.error e => Except.error e
      | Except.ok m => Except.ok ((f.1, s.1) :: m)

/-- `FSIHandler::buildInterfaceMaps` on rank `pid`: the matching with the tolerance read
from the data file, then `createInterfaceMaps` and `constructInterfaceMap` on the local
map. `uniqueMaps` is the unique structure interface map that results over the ranks. -/
def buildInterfaceMaps {P D : Type} [LinearOrder D] (dist : P → P → D) (tolerance : D)
    (fluidNodes structureNodes : List (ID × P)) (nDimensions fluidTotalDof structureTotalDof : Nat)
    (uniqueMaps : List (List ID)) (pid : Nat) :
    Except String (List (ID × ID) × InterfaceMaps × InterfaceNumbering (List (ID × Nat))) :=
  match matchInterface dist tolerance structureNodes fluidNodes with
  | Except.error e => Except.error e
  | Except.ok localDofMap =>
    Except.ok (localDofMap,
      createInterfaceMaps nDimensions fluidTotalDof structureTotalDof localDofMap,
      constructInterfaceMap tableVector [] nDimensions uniqueMaps pid localDofMap)

/-- The distance of two points of space with rational coordinates, as the sum of the
absolute differences of the coordinates. -/
def distance1 (p q : ℚ × ℚ × ℚ) : ℚ :=
  |p.1 - q.1| + |p.2.1 - q.2.1| + |p.2.2 - q.2.2|

/-! ## The time loop of solveFSIproblem

The time-advance objects, the exporters and the preconditioner are objects outside the
file; each is given by the list of the calls made on it so far, and what such an object
answers is a function of that list. -/

/-- The fields whose mesh, table of unknowns, boundary conditions and boundary element are
handed to the boundary-condition routine (`solid` is the structure). -/
inductive Field where
  | fluid
  | solid
  | ale
  deriving DecidableEq, Repr

/-- The calls `FSIHandler` makes on a time-advance object after `setup`. -/
inductive TACall (R : Type) where
  | updateRHSContribution (dt : R)
  | updateRHSFirstDerivative (dt : R)
  | shift (snapshot : List R)
  | shiftRight (snapshot : List R)
  deriving DecidableEq, Repr

/-- The calls `solveFSIproblem` makes on an exporter. -/
inductive ExporterCall (R : Type) where
  | postProcess (time : R)
  | closeFile
  deriving DecidableEq, Repr

/-- A call of the Newton driver on one of the two callbacks of the handler. -/
inductive NewtonCall (R : Type) where
  | evalResidual (residual solution : List R) (iter_newton : Nat)
  | solveJac (increment residual : List R) (linearRelTol : R)
  deriving DecidableEq, Repr

/-- Modelled from the spec: one run of the Newton driver `NonLinearRichardson`, which is not
in the files under study (§4.5, §6): the calls it makes on the two callbacks, in order,
the solution it leaves in the vector passed by reference, and the status code it returns
(zero for converged). -/
structure NewtonRun (R : Type) where
  calls : List (NewtonCall R)
  solution : List R
  status : Nat
  deriving DecidableEq, Repr

/-- The collaborators of the time loop outside `FSIHandler.cpp`. The first argument of the
functions on a time-advance object is the list of calls made on it. -/
structure TimeExternal (R Mat W PList : Type) where
  /-- `M_fluidTimeAdvance->extrapolate (M_orderBDF, *M_u_star)`. -/
  extrapolate : List (TACall R) → Nat → List R
  /-- `M_fluidTimeAdvance->rhsContribution (*M_rhs_velocity)`. -/
  rhsContribution : List (TACall R) → List R
  /-- `M_aleTimeAdvance->extrapolationFirstDerivative (*M_w_star)`. -/
  extrapolationFirstDerivative : List (TACall R) → List R
  /-- `M_structureTimeAdvance->rhsContributionSecondDerivative ()`. -/
  rhsContributionSecondDerivative : List (TACall R) → List R
  /-- `M_structureTimeAdvance->rhsContributionFirstDerivative ()`. -/
  rhsContributionFirstDerivative : List (TACall R) → List R
  /-- `M_structureTimeAdvance->coefficientSecondDerivative (0)`. -/
  coefficientSecondDerivative : List (TACall R) → R
  /-- The product `*M_structure->massMatrix () * vector`. -/
  massMatrixTimes : List R → List R
  /-- `bcManageRhs (vector, mesh, dof, bcHandler, feBd, coefficient, time)`: the vector after
  the call; the four fields say whose mesh, table of unknowns, boundary conditions and
  boundary element are passed. -/
  bcManageRhs : List R → Field → Field → Field → Field → R → R → List R
  /-- The matrix left in `M_matrixStructure` by `getMatrixStructure ()` at the given time. -/
  matrixStructure : R → Mat
  /-- `M_ale->applyBoundaryConditions (*M_aleBC)`: the ALE matrix after the call. -/
  aleApplyBoundaryConditions : Mat → Mat
  /-- `NonLinearRichardson (solution, *this, abstol, reltol, maxiter, etamax, linesearch, 0, 2,
  out_res, time)` on the handler in the given state. -/
  newton : FSIState R Mat W PList → List R → R → R → Nat → R → Int → R → NewtonRun R

/-- The members of `FSIHandler` that `solveFSIproblem` reads or writes; `core` holds the
members the two callbacks use. -/
structure TimeLoopState (R Mat W PList : Type) where
  core : FSIState R Mat W PList
  uMap : MapEpetra
  pMap : MapEpetra
  displacementMap : MapEpetra
  lagrangeMap : MapEpetra
  aleMap : MapEpetra
  M_monolithicMap : Option MapEpetra
  M_solution : List R
  M_dt : R
  M_t_zero : R
  M_t_end : R
  M_orderBDF : Nat
  M_absoluteTolerance : R
  M_relativeTolerance : R
  M_etaMax : R
  M_maxiterNonlinear : Nat
  M_nonLinearLineSearch : Int
  M_fluidTimeAdvance : List (TACall R)
  M_structureTimeAdvance : List (TACall R)
  M_aleTimeAdvance : List (TACall R)
  M_u_star : List R
  M_w_star : List R
  M_fluidVelocity : List R
  M_fluidPressure : List R
  M_fluidDisplacement : List R
  M_structureDisplacement : List R
  M_exporterFluid : List (ExporterCall R)
  M_exporterStructure : List (ExporterCall R)

/-- Modelled from the spec: `VectorEpetra::operator+=` with a vector that may live on
another map (§6, block composition): every entry of the receiver grows by the entry of
`other` with the same identifier, by nothing when `other` has none. -/
def vectorPlusAssign {R : Type} [Zero R] [Add R] (receiver other : List R) : List R :=
  (List.range receiver.length).map (fun g => receiver.getD g 0 + other.getD g 0)

/-- Modelled from the spec: `VectorEpetra::operator-=`, see `vectorPlusAssign`. -/
def vectorMinusAssign {R : Type} [Zero R] [Sub R] (receiver other : List R) : List R :=
  (List.range receiver.length).map (fun g => receiver.getD g 0 - other.getD g 0)

/-- `FSIHandler::getRhsStructure`: the structure time advance and `M_rhsStructure` after the
call. -/
def getRhsStructure {R Mat W PList : Type} [LinearOrderedField R]
    (X : TimeExternal R Mat W PList) (s : TimeLoopState R Mat W PList) :
    TimeLoopState R Mat W PList :=
  let timeAdvanceCoefficient :=
    X.coefficientSecondDerivative s.M_structureTimeAdvance / (s.M_dt * s.M_dt)
  let structureTA := s.M_structureTimeAdvance ++ [TACall.updateRHSContribution s.M_dt]
  let zeroed : List R := List.replicate s.core.ns 0
  let contribution :=
    (X.massMatrixTimes (X.rhsContributionSecondDerivative structureTA)).map
      (fun x => x / timeAdvanceCoefficient)
  let rhs := vectorPlusAssign zeroed contribution
  let rhsBC := X.bcManageRhs rhs Field.solid Field.solid Field.solid
    Field.solid 1 s.core.M_time
  { s with M_structureTimeAdvance := structureTA
           core := { s.core with M_rhsStructure := rhsBC } }

/-- `FSIHandler::updateRhsCouplingVelocities`: `M_rhsCouplingVelocities` after the call.
Both vectors handed to `structureToInterface` are uniquely owned, so three nested calls
are more than it needs. -/
def updateRhsCouplingVelocities {R Mat W PList : Type} [LinearOrderedField R]
    (X : TimeExternal R Mat W PList) (s : TimeLoopState R Mat W PList) :
    TimeLoopState R Mat W PList :=
  let rhsStructureVelocity : VectorEpetra R :=
    { mapType := MapEpetraType.Unique
      values := X.rhsContributionFirstDerivative s.M_structureTimeAdvance }
  let lambda0 : VectorEpetra R := VectorEpetra.onMap s.core.nl MapEpetraType.Unique
  let lambda := (structureToInterface 3 lambda0 rhsStructureVelocity).getD lambda0
  let zeroed : List R := List.replicate s.core.na 0
  let summed := vectorPlusAssign zeroed lambda.values
  let negated := summed.map (fun x => x * (-1))
  { s with core := { s.core with M_rhsCouplingVelocities := negated } }

/-- `FSIHandler::updateSystem`. -/
def updateSystem {R Mat W PList : Type} [LinearOrderedField R]
    (X : TimeExternal R Mat W PList) (s : TimeLoopState R Mat W PList) :
    TimeLoopState R Mat W PList :=
  let structureTA := s.M_structureTimeAdvance ++ [TACall.updateRHSContribution s.M_dt]
  let aleTA := s.M_aleTimeAdvance ++
    [TACall.updateRHSContribution s.M_dt, TACall.updateRHSFirstDerivative s.M_dt]
  let u_star := X.extrapolate s.M_fluidTimeAdvance s.M_orderBDF
  let rhs_velocity := X.rhsContribution s.M_fluidTimeAdvance
  let w_star := X.extrapolationFirstDerivative aleTA
  let beta0 : List R := List.replicate s.core.nu 0
  let beta_star := vectorMinusAssign (vectorPlusAssign beta0 u_star) w_star
  let s1 : TimeLoopState R Mat W PList :=
    { s with M_structureTimeAdvance := structureTA
             M_aleTimeAdvance := aleTA
             M_u_star := u_star
             M_w_star := w_star
             core := { s.core with M_beta_star := beta_star, M_rhs_velocity := rhs_velocity } }
  let s2 := getRhsStructure X s1
  updateRhsCouplingVelocities X s2

/-- `FSIHandler::applyBCsolution`: the content of the solution vector after the call. The
three blocks are taken out, the boundary conditions of each field are applied to its block
with the coefficient 1, and the blocks are put back. -/
def applyBCsolution {R Mat W PList : Type} [LinearOrderedField R]
    (X : TimeExternal R Mat W PList) (h : FSIState R Mat W PList) (solution : List R) :
    List R :=
  let velocity := subset (List.replicate h.nu 0) solution h.nu 0 0
  let displacement := subset (List.replicate h.ns 0) solution h.ns (h.nu + h.np) 0
  let geometry := subset (List.replicate h.na 0) solution h.na (h.nu + h.np + h.ns + h.nl) 0
  let velocityBC := X.bcManageRhs velocity Field.fluid Field.fluid Field.fluid Field.fluid
    1 h.M_time
  let displacementBC := X.bcManageRhs displacement Field.solid Field.solid
    Field.solid Field.solid 1 h.M_time
  let geometryBC := X.bcManageRhs geometry Field.ale Field.ale Field.ale Field.ale 1 h.M_time
  let solution1 := subset solution velocityBC h.nu 0 0
  let solution2 := subset solution1 displacementBC h.ns 0 (h.nu + h.np)
  subset solution2 geometryBC h.na 0 (h.nu + h.np + h.ns + h.nl)

/-- The effect on the handler of the calls the Newton driver makes on the callbacks. -/
def runCallbacks {R Mat W PList : Type} [Zero R] [Sub R] (E : External R Mat W PList)
    (h : FSIState R Mat W PList) (calls : List (NewtonCall R)) : FSIState R Mat W PList :=
  calls.foldl
    (fun state call =>
      match call with
      | NewtonCall.evalResidual residual solution iter_newton =>
        (evalResidual E state residual solution iter_newton).1
      | NewtonCall.solveJac increment residual linearRelTol =>
        (solveJac E state increment residual linearRelTol).1)
    h

set_option linter.unusedVariables false in
/-- The body of the time loop (lines 557-591), without the increment of the time. -/
def timeStep {R Mat W PList : Type} [LinearOrderedField R]
    (X : TimeExternal R Mat W PList) (E : External R Mat W PList)
    (s : TimeLoopState R Mat W PList) : TimeLoopState R Mat W PList :=
  let s1 := updateSystem X s
  let guess := applyBCsolution X s1.core s1.M_solution
  let run := X.newton s1.core guess s1.M_absoluteTolerance s1.M_relativeTolerance
    s1.M_maxiterNonlinear s1.M_etaMax s1.M_nonLinearLineSearch s1.core.M_time
  let status := run.status
  let core := runCallbacks E s1.core run.calls
  let solution := run.solution
  let velocity := subset s1.M_fluidVelocity solution core.nu 0 0
  let pressure := subset s1.M_fluidPressure solution core.np core.nu 0
  let fluidDisplacement := subset s1.M_fluidDisplacement solution core.na
    (core.nu + core.np + core.ns + core.nl) 0
  let structureDisplacement := subset s1.M_structureDisplacement solution core.ns
    (core.nu + core.np) 0
  { s1 with
    core := core
    M_solution := solution
    M_fluidVelocity := velocity
    M_fluidPressure := pressure
    M_fluidDisplacement := fluidDisplacement
    M_structureDisplacement := structureDisplacement
    M_fluidTimeAdvance := s1.M_fluidTimeAdvance ++ [TACall.shift velocity]
    M_structureTimeAdvance :=
      s1.M_structureTimeAdvance ++ [TACall.shiftRight structureDisplacement]
    M_aleTimeAdvance := s1.M_aleTimeAdvance ++ [TACall.shiftRight fluidDisplacement]
    M_exporterFluid := s1.M_exporterFluid ++ [ExporterCall.postProcess core.M_time]
    M_exporterStructure := s1.M_exporterStructure ++ [ExporterCall.postProcess core.M_time] }

/-- One turn of the loop of line 555: the body, then `M_time += M_dt`. -/
def timeLoopBody {R Mat W PList : Type} [LinearOrderedField R]
    (X : TimeExternal R Mat W PList) (E : External R Mat W PList)
    (s : TimeLoopState R Mat W PList) : TimeLoopState R Mat W PList :=
  let s1 := timeStep X E s
  { s1 with core := { s1.core with M_time := s1.core.M_time + s1.M_dt } }

/-- The state after a given number of turns of the loop. -/
def timeSteps {R Mat W PList : Type} [LinearOrderedField R]
    (X : TimeExternal R Mat W PList) (E : External R Mat W PList) :
    Nat → TimeLoopState R Mat W PList → TimeLoopState R Mat W PList
  | 0, s => s
  | n + 1, s => timeSteps X E n (timeLoopBody X E s)

/-- The loop `for ( ; M_time <= M_t_end + M_dt / 2.; M_time += M_dt)`. The first argument
bounds the number of turns; `none` means the bound was reached with the condition of the
loop still true. -/
def timeLoop {R Mat W PList : Type} [LinearOrderedField R]
    (X : TimeExternal R Mat W PList) (E : External R Mat W PList) :
    Nat → TimeLoopState R Mat W PList → Option (TimeLoopState R Mat W PList)
  | 0, s => if s.core.M_time ≤ s.M_t_end + s.M_dt / 2 then none else some s
  | fuel + 1, s =>
    if s.core.M_time ≤ s.M_t_end + s.M_dt / 2 then timeLoop X E fuel (timeLoopBody X E s)
    else some s

/-- The part of `solveFSIproblem` before the time loop (lines 518-553). -/
def solveFSIproblemStart {R Mat W PList : Type} [LinearOrderedField R]
    (X : TimeExternal R Mat W PList) (s : TimeLoopState R Mat W PList) :
    TimeLoopState R Mat W PList :=
  let time := s.M_t_zero + s.M_dt
  let monolithicMap :=
    buildMonolithicMap s.uMap s.pMap s.displacementMap s.lagrangeMap s.aleMap
  let solution : List R := List.replicate monolithicMap.mapSize 0
  let aleMatrix := X.aleApplyBoundaryConditions s.core.aleMatrix
  let matrixStructure := X.matrixStructure time
  let prec := s.core.M_prec ++
    [PrecCall.setStructureBlock matrixStructure,
      PrecCall.updateApproximatedStructureMomentumOperator,
      PrecCall.setGeometryBlock aleMatrix,
      PrecCall.updateApproximatedGeometryOperator,
      PrecCall.setCouplingBlocks s.core.lambdaToFluidMomentum s.core.lambdaToStructureMomentum
        s.core.structureDisplacementToLambda s.core.fluidVelocityToLambda
        s.core.structureDisplacementToFluidDisplacement,
      PrecCall.setMonolithicMap]
  { s with
    M_monolithicMap := some monolithicMap
    M_solution := solution
    core := { s.core with M_time := time, aleMatrix := aleMatrix,
                          M_matrixStructure := matrixStructure, M_prec := prec } }

/-- `FSIHandler::solveFSIproblem`: the start, the time loop, and the closing of the two
exporters. -/
def solveFSIproblem {R Mat W PList : Type} [LinearOrderedField R]
    (X : TimeExternal R Mat W PList) (E : External R Mat W PList) (fuel : Nat)
    (s : TimeLoopState R Mat W PList) : Option (TimeLoopState R Mat W PList) :=
  (timeLoop X E fuel (solveFSIproblemStart X s)).map (fun s1 =>
    { s1 with
      M_exporterFluid := s1.M_exporterFluid ++ [ExporterCall.closeFile]
      M_exporterStructure := s1.M_exporterStructure ++ [ExporterCall.closeFile] })

/-- The calls on the preconditioner that set or approximate the structure block, the
geometry block, the coupling blocks or the monolithic map. -/
def PrecCall.isFixedBlock {Mat : Type} : PrecCall Mat → Bool
  | PrecCall.setStructureBlock _ => true
  | PrecCall.updateApproximatedStructureMomentumOperator => true
  | PrecCall.setGeometryBlock _ => true
  | PrecCall.updateApproximatedGeometryOperator => true
  | PrecCall.setCouplingBlocks _ _ _ _ _ => true
  | PrecCall.setMonolithicMap => true
  | _ => false

/-- The calls on the preconditioner that a call of `solveJac` makes, given the fluid state. -/
def solveJacPrecCalls {R Mat W PList : Type} (E : External R Mat W PList) (w : W) :
    List (PrecCall Mat) :=
  [PrecCall.setFluidBlocks (E.getF w) (E.getBtranspose w) (E.getB w),
    PrecCall.setDomainMap, PrecCall.setRangeMap, PrecCall.updateApproximatedFluidOperator]

/-! ## A small instance of the time loop -/

/-- Collaborators of the time loop for the small instance. Every answer of a time-advance
object is one value, the number of calls made on it; the mass matrix and the
boundary-condition routine leave a vector as it is. The Newton driver makes one call of
each callback, leaves the solution 1, 2, 3, 4, 5 and returns the status 1: not converged. -/
def sampleTimeExternal : TimeExternal ℚ Nat Nat ℚ where
  extrapolate calls _ := [(calls.length : ℚ)]
  rhsContribution calls := [(calls.length : ℚ)]
  extrapolationFirstDerivative calls := [(calls.length : ℚ)]
  rhsContributionSecondDerivative calls := [(calls.length : ℚ)]
  rhsContributionFirstDerivative calls := [(calls.length : ℚ)]
  coefficientSecondDerivative _ := 1
  massMatrixTimes v := v
  bcManageRhs v _ _ _ _ _ _ := v
  matrixStructure _ := 11
  aleApplyBoundaryConditions m := m + 10
  newton _ guess _ _ _ _ _ _ :=
    { calls := [NewtonCall.evalResidual [0, 0, 0, 0, 0] guess 0,
                NewtonCall.solveJac [0, 0, 0, 0, 0] [1, 1, 1, 1, 1] (1 / 10)]
      solution := [1, 2, 3, 4, 5]
      status := 1 }

/-- State of the small instance before `solveFSIproblem`: the callbacks' members of
`sampleState`, five maps with one unknown, time step 1 from time 0 to time 2, no call made
yet on the time-advance objects and on the exporters. -/
def sampleTimeState : TimeLoopState ℚ Nat Nat ℚ where
  core := sampleState
  uMap := MapEpetra.linear 1
  pMap := MapEpetra.linear 1
  displacementMap := MapEpetra.linear 1
  lagrangeMap := MapEpetra.linear 1
  aleMap := MapEpetra.linear 1
  M_monolithicMap := none
  M_solution := [0, 0, 0, 0, 0]
  M_dt := 1
  M_t_zero := 0
  M_t_end := 2
  M_orderBDF := 2
  M_absoluteTolerance := 1 / 10000
  M_relativeTolerance := 1 / 10000
  M_etaMax := 1 / 10000
  M_maxiterNonlinear := 10
  M_nonLinearLineSearch := 0
  M_fluidTimeAdvance := []
  M_structureTimeAdvance := []
  M_aleTimeAdvance := []
  M_u_star := [0]
  M_w_star := [0]
  M_fluidVelocity := [0]
  M_fluidPressure := [0]
  M_fluidDisplacement := [0]
  M_structureDisplacement := [0]
  M_exporterFluid := []
  M_exporterStructure := []

/-! ## The residual counterpart of `applyBCsolution`, the Newton data and the exporters -/

/-- `FSIHandler::applyBCresidual` (lines 635-670): the content of the residual after the
call. The routine for the velocity block is called with the mesh and the table of unknowns
of the structure space (line 653), with the boundary conditions and the boundary element of
the fluid; every call has the coefficient 0. -/
def applyBCresidual {R Mat W PList : Type} [LinearOrderedField R]
    (X : TimeExternal R Mat W PList) (h : FSIState R Mat W PList) (residual : List R) :
    List R :=
  let velocity := subset (List.replicate h.nu 0) residual h.nu 0 0
  let displacement := subset (List.replicate h.ns 0) residual h.ns (h.nu + h.np) 0
  let geometry := subset (List.replicate h.na 0) residual h.na (h.nu + h.np + h.ns + h.nl) 0
  let velocityBC := X.bcManageRhs velocity Field.solid Field.solid Field.fluid Field.fluid
    0 h.M_time
  let displacementBC := X.bcManageRhs displacement Field.solid Field.solid
    Field.solid Field.solid 0 h.M_time
  let geometryBC := X.bcManageRhs geometry Field.ale Field.ale Field.ale Field.ale 0 h.M_time
  let residual1 := subset residual velocityBC h.nu 0 0
  let residual2 := subset residual1 displacementBC h.ns 0 (h.nu + h.np)
  subset residual2 geometryBC h.na 0 (h.nu + h.np + h.ns + h.nl)

/-- The treatment of a monolithic vector that the specification describes for both
routines: each of the three blocks goes through the boundary-condition routine with the
mesh, the table of unknowns, the boundary conditions and the boundary element of its own
field, and with the given coefficient. -/
def applyBC_spec {R Mat W PList : Type} [LinearOrderedField R]
    (X : TimeExternal R Mat W PList) (h : FSIState R Mat W PList) (coefficient : R)
    (vector : List R) : List R :=
  let ownBlock (field : Field) (mapSize offset : Nat) (receiver : List R) : List R :=
    subset receiver
      (X.bcManageRhs (subset (List.replicate mapSize 0) vector mapSize offset 0)
        field field field field coefficient h.M_time)
      mapSize 0 offset
  ownBlock Field.ale h.na (h.nu + h.np + h.ns + h.nl)
    (ownBlock Field.solid h.ns (h.nu + h.np) (ownBlock Field.fluid h.nu 0 vector))

/-- A boundary-condition routine that tells which mesh it was given: every entry of the
vector becomes 1 with the fluid mesh, 2 with the structure mesh, 3 with the ALE mesh. The
other collaborators are those of `sampleTimeExternal`. -/
def meshProbeTimeExternal : TimeExternal ℚ Nat Nat ℚ :=
  { sampleTimeExternal with
    bcManageRhs := fun v mesh _ _ _ _ _ =>
      v.map (fun _ =>
        match mesh with
        | Field.fluid => 1
        | Field.solid => 2
        | Field.ale => 3) }

/-- The data file `M_datafile`, an object of the class `GetPot` outside the files under
study: for a key, the value the file holds under it, if any, as a number, as an integer
and as a string. -/
structure GetPot (R : Type) where
  real : String → Option R
  integer : String → Option Int
  text : String → Option String

/-- The call `M_datafile (key, default)` with a real default. -/
def GetPot.getReal {R : Type} (datafile : GetPot R) (key : String) (default : R) : R :=
  (datafile.real key).getD default

/-- The call `M_datafile (key, default)` with an integer default. -/
def GetPot.getInt {R : Type} (datafile : GetPot R) (key : String) (default : Int) : Int :=
  (datafile.integer key).getD default

/-- The call `M_datafile (key, default)` with a string default. -/
def GetPot.getString {R : Type} (datafile : GetPot R) (key : String) (default : String) :
    String :=
  (datafile.text key).getD default

/-- The lines 148-152 of `FSIHandler::setup`: the data needed by the Newton algorithm.
`M_relativeTolerance` is read under the key `newton/abstol` and `M_absoluteTolerance` under
the key `newton/reltol`. `M_maxiterNonlinear` is an unsigned integer of 32 bits. -/
def setupNewtonData {R Mat W PList : Type} [LinearOrderedField R] (datafile : GetPot R)
    (s : TimeLoopState R Mat W PList) : TimeLoopState R Mat W PList :=
  { s with
    M_relativeTolerance := datafile.getReal "newton/abstol" (1 / 10000)
    M_absoluteTolerance := datafile.getReal "newton/reltol" (1 / 10000)
    M_etaMax := datafile.getReal "newton/etamax" (1 / 10000)
    M_maxiterNonlinear := (datafile.getInt "newton/maxiter" 10 % 2 ^ 32).toNat
    M_nonLinearLineSearch := datafile.getInt "newton/NonLinearLineSearch" 0 }

/-- A data file that holds 1/1000000 under `newton/abstol`, 1/1000 under `newton/reltol`
and nothing else. -/
def sampleDatafile : GetPot ℚ where
  real key :=
    if key = "newton/abstol" then some (1 / 1000000)
    else if key = "newton/reltol" then some (1 / 1000)
    else none
  integer _ := none
  text _ := none

/-- A Newton driver that makes no call and leaves in the solution the absolute and the
relative tolerance it was handed, in this order. The other collaborators are those of
`sampleTimeExternal`. -/
def toleranceProbeTimeExternal : TimeExternal ℚ Nat Nat ℚ :=
  { sampleTimeExternal with
    newton := fun _ _ abstol reltol _ _ _ _ =>
      { calls := [], solution := [abstol, reltol], status := 0 } }

/-- The exporters `instantiateExporter` can create. -/
inductive Exporter where
  | ExporterHDF5
  | ExporterVTK
  deriving DecidableEq, Repr

/-- `FSIHandler::instantiateExporter` (lines 192-212): the pointer `exporter` after the
call, `none` for a pointer that holds no object. `HAVE_HDF5` says whether the macro of this
name is defined: when it is not, the lines between `#ifdef` and `#endif` are absent and the
block that creates the VTK exporter is unconditional. -/
def instantiateExporter {R : Type} (HAVE_HDF5 : Bool) (datafile : GetPot R)
    (exporter : Option Exporter) : Option Exporter :=
  let exporterType := datafile.getString "exporter/type" "ensight"
  if HAVE_HDF5 then
    if exporterType = "hdf5" then some Exporter.ExporterHDF5
    else if exporterType = "vtk" then some Exporter.ExporterVTK
    else exporter
  else some Exporter.ExporterVTK

/-- The members that `setupExporters` leaves: the two exporters and the calls of
`postProcess` made on them. -/
structure ExportersSetup (R : Type) where
  exporterFluid : Exporter
  exporterStructure : Exporter
  M_exporterFluid : List (ExporterCall R)
  M_exporterStructure : List (ExporterCall R)
  deriving DecidableEq, Repr

/-- `FSIHandler::setupExporters` (lines 165-190), from the two pointers as they are before
the call: both exporters are instantiated, then `M_exporterFluid->mapType ()` and the later
calls go through the pointers. The result is `none` when a pointer that holds no object is
dereferenced. -/
def setupExporters {R : Type} (HAVE_HDF5 : Bool) (datafile : GetPot R)
    (M_exporterFluid M_exporterStructure : Option Exporter) (M_t_zero : R) :
    Option (ExportersSetup R) :=
  match instantiateExporter HAVE_HDF5 datafile M_exporterFluid,
      instantiateExporter HAVE_HDF5 datafile M_exporterStructure with
  | some fluid, some solid =>
    some { exporterFluid := fluid
           exporterStructure := solid
           M_exporterFluid := [ExporterCall.postProcess M_t_zero]
           M_exporterStructure := [ExporterCall.postProcess M_t_zero] }
  | _, _ => none

/-- A data file with the given exporter type under `exporter/type`, if any, and nothing
else. -/
def exporterDatafile (exporterType : Option String) : GetPot ℚ where
  real _ := none
  integer _ := none
  text key := if key = "exporter/type" then exporterType else none

/-! ## The header of the time loops, the calls of `structureToInterface`, the inflow -/

/-- The header `for ( ; time <= tFinal + dt / 2.; time += dt)` of the time loop of
`solveFSIproblem` (line 555) and of `NavierStokes::run` (navierStokes.hpp, line 480): the
number of turns made from the given time. The first argument bounds the number of turns;
`none` means the bound was reached with the condition of the loop still true. -/
def loopTurns {R : Type} [LinearOrderedField R] (tFinal dt : R) : Nat → R → Option Nat
  | 0, time => if time ≤ tFinal + dt / 2 then none else some 0
  | fuel + 1, time =>
    if time ≤ tFinal + dt / 2 then (loopTurns tFinal dt fuel (time + dt)).map (fun n => n + 1)
    else some 0

/-- The calls of `structureToInterface` that one call leads to, itself first: for each, the
map type of the interface vector and of the structure vector it runs with. The branches are
those of `structureToInterface`. -/
def structureToInterfaceCalls {R : Type} [Zero R] :
    Nat → VectorEpetra R → VectorEpetra R → List (MapEpetraType × MapEpetraType)
  | 0, _, _ => []
  | fuel + 1, VectorOnGamma, VectorOnStructure =>
    (VectorOnGamma.mapType, VectorOnStructure.mapType) ::
      (if VectorOnStructure.mapType = MapEpetraType.Repeated then
        let VectorOnStructureUnique := VectorOnStructure.withMapType MapEpetraType.Unique
        structureToInterfaceCalls fuel VectorOnGamma VectorOnStructureUnique
      else if VectorOnGamma.mapType = MapEpetraType.Repeated then
        let VectorOnGammaUn : VectorEpetra R :=
          VectorEpetra.onMap VectorOnGamma.values.length MapEpetraType.Unique
        structureToInterfaceCalls fuel VectorOnGammaUn VectorOnStructure
      else [])

set_option linter.unusedVariables false in
/-- `inflowFunction` (navierStokes.hpp, lines 131-145) over an ordered field; a comparison
counts 1 when it holds and 0 when it does not. -/
def inflowFunction {R : Type} [LinearOrderedField R] (t x y z : R) (i : ID) : R :=
  if i = 0 then
    let ux : R := 0.1
    1 * ux * t / 0.15 * (if t < 0.15 then 1 else 0) + 1 * ux * (if t ≥ 0.15 then 1 else 0)
  else
    0

/-! # Theorems -/

/-! ### Lemmas on the two loops -/

theorem getD_set_int (a : List Int) (i j : Nat) (x : Int) :
    (a.set i x).getD j 0 = if i = j ∧ i < a.length then x else a.getD j 0 := by
  simp only [List.getD_eq_getElem?_getD, List.getElem?_set]
  by_cases h : i = j
  · subst h
    by_cases h2 : i < a.length
    · simp [h2]
    · simp [h2, List.getElem?_eq_none (Nat.le_of_not_lt h2)]
  · simp [h]

theorem shiftLoop_length (j : Nat) (a : List Int) : (shiftLoop j a).length = a.length := by
  induction j generalizing a with
  | zero => rfl
  | succ j ih => simp [shiftLoop, ih]

theorem accumLoop_length (n j : Nat) (a : List Int) : (accumLoop n j a).length = a.length := by
  induction n generalizing j a with
  | zero => rfl
  | succ n ih => simp [accumLoop, ih]

theorem shiftLoop_getD (j : Nat) (a : List Int) (i : Nat) (hj : j < a.length) :
    (shiftLoop j a).getD i 0 = if 0 < i ∧ i ≤ j then a.getD (i - 1) 0 else a.getD i 0 := by
  induction j generalizing a with
  | zero =>
    have : ¬ (0 < i ∧ i ≤ 0) := by omega
    rw [shiftLoop, if_neg this]
  | succ j ih =>
    have hlen : j < (a.set (j + 1) (a.getD j 0)).length := by simp; omega
    rw [shiftLoop, ih _ hlen]
    by_cases h1 : 0 < i ∧ i ≤ j
    · have h2 : 0 < i ∧ i ≤ j + 1 := by omega
      have h3 : ¬ (j + 1 = i - 1 ∧ j + 1 < a.length) := by omega
      rw [if_pos h1, if_pos h2, getD_set_int, if_neg h3]
    · rw [if_neg h1, getD_set_int]
      by_cases h4 : i = j + 1
      · subst h4
        have h5 : 0 < j + 1 ∧ j + 1 ≤ j + 1 := by omega
        rw [if_pos ⟨rfl, hj⟩, if_pos h5]
        simp
      · have h6 : ¬ (j + 1 = i ∧ j + 1 < a.length) := by omega
        have h7 : ¬ (0 < i ∧ i ≤ j + 1) := by omega
        rw [if_neg h6, if_neg h7]

theorem accumLoop_getD (n j : Nat) (a : List Int) (i : Nat) (hj : 0 < j)
    (hlen : j + n ≤ a.length) :
    (accumLoop n j a).getD i 0 =
      if j ≤ i ∧ i < j + n then a.getD (j - 1) 0 + ∑ t ∈ Finset.Ico j (i + 1), a.getD t 0
      else a.getD i 0 := by
  induction n generalizing j a with
  | zero =>
    have : ¬ (j ≤ i ∧ i < j + 0) := by omega
    rw [accumLoop, if_neg this]
  | succ n ih =>
    have hlen2 : j + 1 + n ≤ (a.set j (a.getD j 0 + a.getD (j - 1) 0)).length := by
      simp; omega
    rw [accumLoop, ih (j + 1) _ (by omega) hlen2]
    have hjlt : j < a.length := by omega
    by_cases h1 : j + 1 ≤ i ∧ i < j + 1 + n
    · have h2 : j ≤ i ∧ i < j + (n + 1) := by omega
      rw [if_pos h1, if_pos h2]
      have hsum : ∑ t ∈ Finset.Ico (j + 1) (i + 1),
            (a.set j (a.getD j 0 + a.getD (j - 1) 0)).getD t 0
          = ∑ t ∈ Finset.Ico (j + 1) (i + 1), a.getD t 0 := by
        apply Finset.sum_congr rfl
        intro t ht
        have ht2 := Finset.mem_Ico.mp ht
        have : ¬ (j = t ∧ j < a.length) := by omega
        rw [getD_set_int, if_neg this]
      have hbot : ∑ t ∈ Finset.Ico j (i + 1), a.getD t 0
          = a.getD j 0 + ∑ t ∈ Finset.Ico (j + 1) (i + 1), a.getD t 0 :=
        Finset.sum_eq_sum_Ico_succ_bot (by omega) _
      rw [hsum, hbot]
      have hj1 : j + 1 - 1 = j := by omega
      rw [hj1, getD_set_int, if_pos ⟨rfl, hjlt⟩]
      ring
    · rw [if_neg h1, getD_set_int]
      by_cases h3 : j = i
      · subst h3
        have h4 : j ≤ j ∧ j < j + (n + 1) := by omega
        rw [if_pos ⟨rfl, hjlt⟩, if_pos h4]
        simp
        ring
      · have h5 : ¬ (j = i ∧ j < a.length) := by omega
        have h6 : ¬ (j ≤ i ∧ i < j + (n + 1)) := by omega
        rw [if_neg h5, if_neg h6]

/-- Closed form of the offset array: entry `k` is the sum of the first `k` counts. -/
theorem offsetArray_getD (c : List Int) (k : Nat) (hk : k < c.length) :
    (offsetArray c).getD k 0 = ∑ i ∈ Finset.range k, c.getD i 0 := by
  unfold offsetArray
  simp only
  have hlenS : (shiftLoop (c.length - 1) c).length = c.length := shiftLoop_length _ _
  have hlenZ : ((shiftLoop (c.length - 1) c).set 0 0).length = c.length := by simp [hlenS]
  have hz : ∀ i, ((shiftLoop (c.length - 1) c).set 0 0).getD i 0
      = if 0 < i ∧ i ≤ c.length - 1 then c.getD (i - 1) 0 else if i = 0 then 0 else c.getD i 0 := by
    intro i
    rw [getD_set_int, shiftLoop_getD _ _ _ (by omega)]
    by_cases hi : i = 0
    · subst hi
      have : (0 : Nat) = 0 ∧ 0 < (shiftLoop (c.length - 1) c).length := ⟨rfl, by omega⟩
      simp [this]
    · have h1 : ¬ (0 = i ∧ 0 < (shiftLoop (c.length - 1) c).length) := by omega
      rw [if_neg h1, if_neg hi]
  rw [accumLoop_getD _ _ _ _ (by omega) (by rw [hlenZ]; omega)]
  by_cases hk0 : k = 0
  · subst hk0
    have : ¬ (1 ≤ 0 ∧ 0 < 1 + (c.length - 1)) := by omega
    rw [if_neg this, hz]
    simp
  · have h1 : 1 ≤ k ∧ k < 1 + (c.length - 1) := by omega
    rw [if_pos h1, hz]
    have h0 : ¬ (0 < 1 - 1 ∧ 1 - 1 ≤ c.length - 1) := by omega
    rw [if_neg h0]
    simp only [Nat.sub_self, if_true, zero_add]
    rw [Finset.sum_Ico_eq_sum_range]
    have hk1 : k + 1 - 1 = k := by omega
    rw [hk1]
    apply Finset.sum_congr rfl
    intro t ht
    have ht2 := Finset.mem_range.mp ht
    rw [hz]
    have h2 : 0 < 1 + t ∧ 1 + t ≤ c.length - 1 := by omega
    rw [if_pos h2]
    congr 1
    omega

theorem offsetArray_length (c : List Int) : (offsetArray c).length = c.length := by
  unfold offsetArray
  simp [accumLoop_length, shiftLoop_length]

/-- The last count plays no part in the offsets. -/
theorem offsetArray_last_count (c : List Int) (x : Int) (hP : 1 ≤ c.length) :
    offsetArray (c.dropLast ++ [x]) = offsetArray c := by
  have hl : (c.dropLast ++ [x]).length = c.length := by
    simp
    omega
  apply List.ext_getElem
  · rw [offsetArray_length, offsetArray_length, hl]
  · intro k h1 h2
    rw [offsetArray_length] at h1 h2
    have e1 := offsetArray_getD (c.dropLast ++ [x]) k h1
    have e2 := offsetArray_getD c k h2
    rw [List.getD_eq_getElem _ _ (by rw [offsetArray_length]; exact h1)] at e1
    rw [List.getD_eq_getElem _ _ (by rw [offsetArray_length]; exact h2)] at e2
    rw [e1, e2]
    apply Finset.sum_congr rfl
    intro i hi
    have hi2 := Finset.mem_range.mp hi
    have hi3 : i < c.dropLast.length := by
      simp
      omega
    simp only [List.getD_eq_getElem?_getD]
    rw [List.getElem?_append_left hi3, List.getElem?_dropLast]
    have hi4 : i < c.length - 1 := by simpa using hi3
    rw [if_pos hi4]

/-! ### Lists filled by nested loops -/

theorem foldl_pushBack {α β : Type} (f : α → β) (l : List α) (acc : List β) :
    l.foldl (fun a x => a ++ [f x]) acc = acc ++ l.map f := by
  induction l generalizing acc with
  | nil => simp
  | cons x xs ih => simp [ih]

theorem foldl_pushBack_if {α β : Type} (p : α → Bool) (f : α → β) (l : List α)
    (acc : List β) :
    l.foldl (fun a x => if p x then a ++ [f x] else a) acc = acc ++ (l.filter p).map f := by
  induction l generalizing acc with
  | nil => simp
  | cons x xs ih =>
    by_cases hp : p x = true
    · simp [hp, ih]
    · simp [hp, ih]

theorem foldl_blocks {α β : Type} (g : α → List β) (l : List α) (acc : List β) :
    l.foldl (fun a d => a ++ g d) acc = acc ++ l.flatMap g := by
  induction l generalizing acc with
  | nil => simp
  | cons x xs ih => simp [ih]

theorem length_flatMap_blocks {β : Type} (g : Nat → List β) (m n : Nat)
    (hg : ∀ d, d < n → (g d).length = m) :
    ((List.range n).flatMap g).length = n * m := by
  induction n with
  | zero => simp
  | succ n ih =>
    rw [List.range_succ, List.flatMap_append, List.length_append,
      ih (fun d hd => hg d (Nat.lt_succ_of_lt hd))]
    simp [hg n (Nat.lt_succ_self n)]
    ring

theorem getElem?_flatMap_blocks {β : Type} (g : Nat → List β) (m n d j : Nat)
    (hg : ∀ e, e < n → (g e).length = m) (hd : d < n) (hj : j < m) :
    ((List.range n).flatMap g)[d * m + j]? = (g d)[j]? := by
  induction n with
  | zero => omega
  | succ n ih =>
    have hlen : ((List.range n).flatMap g).length = n * m :=
      length_flatMap_blocks g m n (fun e he => hg e (Nat.lt_succ_of_lt he))
    rw [List.range_succ, List.flatMap_append]
    by_cases hdn : d < n
    · have hlt : d * m + j < ((List.range n).flatMap g).length := by
        rw [hlen]
        calc d * m + j < d * m + m := by omega
          _ = (d + 1) * m := by ring
          _ ≤ n * m := Nat.mul_le_mul_right m hdn
      rw [List.getElem?_append_left hlt]
      exact ih (fun e he => hg e (Nat.lt_succ_of_lt he)) hdn
    · have hdeq : d = n := by omega
      subst hdeq
      have hge : ((List.range d).flatMap g).length ≤ d * m + j := by rw [hlen]; omega
      rw [List.getElem?_append_right hge, hlen]
      simp

theorem dofInterfaceLoop_eq (nDimensions numTotalDof : Nat) (component : ID × ID → ID)
    (locDofMap : List (ID × ID)) :
    dofInterfaceLoop nDimensions numTotalDof component locDofMap =
      (List.range nDimensions).flatMap
        (fun dim => locDofMap.map (fun i => component i + dim * numTotalDof)) := by
  unfold dofInterfaceLoop
  simp only [foldl_pushBack]
  rw [foldl_blocks]
  simp

theorem couplingLoop_eq {V : Type} (vec : NumerationVector V) (owned : ID → Bool)
    (numeration : V) (nDimensions M_interface : Nat) (locDofMap : List (ID × ID)) :
    couplingLoop vec owned numeration nDimensions M_interface locDofMap =
      (List.range nDimensions).flatMap
        (fun dim => (locDofMap.filter (fun e => owned e.2)).map
          (fun e => vec.read numeration e.2 + dim * M_interface)) := by
  unfold couplingLoop
  simp only [foldl_pushBack_if (fun e : ID × ID => owned e.2)]
  rw [foldl_blocks]
  simp

theorem newMapEpetra_pointerToDofs (v : List Nat) :
    newMapEpetra v.length (pointerToDofs v) = v := by
  unfold pointerToDofs
  by_cases h : v.length > 0
  · simp [h, newMapEpetra]
  · have : v = [] := List.length_eq_zero.mp (by omega)
    subst this
    simp [newMapEpetra]

/-! ### The numbering loop -/

theorem expectedId_eq (l : Nat) (offset : Int) (nDimensions : Nat) :
    expectedId l offset nDimensions = ((l + offset.toNat / nDimensions : Nat) : Int) := by
  unfold expectedId
  generalize l + offset.toNat / nDimensions = n
  rw [Int.floor_eq_iff, Int.cast_natCast]
  constructor <;> linarith

theorem numeration_counter {V : Type} (vec : NumerationVector V) (owned : ID → Bool)
    (offset : Int) (nd : Nat) (es : List (ID × ID)) (s : NumerationState V) :
    (es.foldl (numerationStep vec owned offset nd) s).l
      = s.l + (es.filter (fun e => owned e.2)).length := by
  induction es generalizing s with
  | nil => simp
  | cons e es ih =>
    rw [List.foldl_cons, ih]
    by_cases h : owned e.2 = true
    · simp [numerationStep, h]
      omega
    · simp [numerationStep, h]

theorem numeration_cout_lines {V : Type} (vec : NumerationVector V) (owned : ID → Bool)
    (offset : Int) (nd : Nat) (es : List (ID × ID)) (s : NumerationState V)
    (hs : ∀ line ∈ s.cout, line = errorLine) :
    ∀ line ∈ (es.foldl (numerationStep vec owned offset nd) s).cout, line = errorLine := by
  induction es generalizing s with
  | nil => simpa using hs
  | cons e es ih =>
    rw [List.foldl_cons]
    apply ih
    intro line hline
    unfold numerationStep at hline
    by_cases h : owned e.2 = true
    · simp only [h, if_true] at hline
      split at hline
      · rcases List.mem_append.mp hline with h1 | h1
        · exact hs line h1
        · simpa using h1
      · exact hs line hline
    · simp only [h] at hline
      exact hs line hline

theorem numeration_none_owned {V : Type} (vec : NumerationVector V) (owned : ID → Bool)
    (offset : Int) (nd : Nat) (es : List (ID × ID)) (s : NumerationState V)
    (hnone : es.filter (fun e => owned e.2) = []) :
    es.foldl (numerationStep vec owned offset nd) s = s := by
  induction es generalizing s with
  | nil => rfl
  | cons e es ih =>
    have he : owned e.2 = false := by
      by_contra hc
      have : owned e.2 = true := by simpa using hc
      simp [List.filter_cons, this] at hnone
    have hrest : es.filter (fun e => owned e.2) = [] := by
      simpa [List.filter_cons, he] using hnone
    rw [List.foldl_cons]
    have hstep : numerationStep vec owned offset nd s e = s := by
      simp [numerationStep, he]
    rw [hstep]
    exact ih s hrest

theorem tableVector_read_assign (v : List (ID × Nat)) (g h : ID) (x : Nat) :
    tableVector.read (tableVector.assign v g x) h
      = if h = g then x else tableVector.read v h := by
  simp only [tableVector, List.lookup_cons]
  by_cases hg : h = g
  · subst hg
    simp
  · have : (h == g) = false := by simpa using hg
    simp [this, hg]

/-- The table after the loop: the assignments in the order they were made are the owned
structure identifiers paired with `l + offset / dim`, `l` counting from its initial value. -/
theorem numeration_table (owned : ID → Bool) (offset : Int) (nd : Nat)
    (es : List (ID × ID)) (s : NumerationState (List (ID × Nat))) :
    (es.foldl (numerationStep tableVector owned offset nd) s).M_numerationInterface
      = (((es.filter (fun e => owned e.2)).map Prod.snd).zip
          ((List.range' s.l (es.filter (fun e => owned e.2)).length).map
            (fun l => l + offset.toNat / nd))).reverse ++ s.M_numerationInterface := by
  induction es generalizing s with
  | nil => simp
  | cons e es ih =>
    rw [List.foldl_cons, ih]
    by_cases h : owned e.2 = true
    · simp [numerationStep, h, tableVector, List.range'_succ]
    · simp [numerationStep, h]

theorem numeration_cout_table (owned : ID → Bool) (offset : Int) (nd : Nat)
    (es : List (ID × ID)) (s : NumerationState (List (ID × Nat))) :
    (es.foldl (numerationStep tableVector owned offset nd) s).cout = s.cout := by
  induction es generalizing s with
  | nil => rfl
  | cons e es ih =>
    rw [List.foldl_cons, ih]
    by_cases h : owned e.2 = true
    · simp [numerationStep, h, tableVector_read_assign, expectedId_eq]
    · simp [numerationStep, h]

theorem numeration_frame (owned : ID → Bool) (offset : Int) (nd : Nat)
    (es : List (ID × ID)) (s : NumerationState (List (ID × Nat))) (g : ID)
    (hg : g ∉ (es.filter (fun e => owned e.2)).map Prod.snd) :
    tableVector.read (es.foldl (numerationStep tableVector owned offset nd) s).M_numerationInterface g
      = tableVector.read s.M_numerationInterface g := by
  induction es generalizing s with
  | nil => rfl
  | cons e es ih =>
    rw [List.foldl_cons]
    by_cases h : owned e.2 = true
    · have hne : g ≠ e.2 := by
        intro hc
        apply hg
        simp [List.filter_cons, h, hc]
      have hrest : g ∉ (es.filter (fun e => owned e.2)).map Prod.snd := by
        intro hc
        apply hg
        simp only [List.filter_cons, h, if_true, List.map_cons, List.mem_cons]
        exact Or.inr hc
      rw [ih _ hrest]
      simp only [numerationStep, h, if_true]
      rw [tableVector_read_assign, if_neg hne]
    · have hrest : g ∉ (es.filter (fun e => owned e.2)).map Prod.snd := by
        simpa [List.filter_cons, h] using hg
      rw [ih _ hrest]
      simp [numerationStep, h]

/-- With pairwise different owned structure identifiers, the `j`-th owned pair reads back
`l + j + offset / dim` after the loop. -/
theorem numeration_read (owned : ID → Bool) (offset : Int) (nd : Nat)
    (es : List (ID × ID)) (s : NumerationState (List (ID × Nat)))
    (hnd : ((es.filter (fun e => owned e.2)).map Prod.snd).Nodup)
    (j : Nat) (hj : j < (es.filter (fun e => owned e.2)).length) :
    tableVector.read (es.foldl (numerationStep tableVector owned offset nd) s).M_numerationInterface
        ((es.filter (fun e => owned e.2)).get ⟨j, hj⟩).2
      = s.l + j + offset.toNat / nd := by
  induction es generalizing s j with
  | nil => simp at hj
  | cons e es ih =>
    rw [List.foldl_cons]
    by_cases h : owned e.2 = true
    · have hfil : (e :: es).filter (fun e => owned e.2)
          = e :: es.filter (fun e => owned e.2) := by simp [List.filter_cons, h]
      have hnd2 : (e.2 :: (es.filter (fun e => owned e.2)).map Prod.snd).Nodup := by
        simpa [hfil] using hnd
      have hnotin := (List.nodup_cons.mp hnd2).1
      have hnd3 := (List.nodup_cons.mp hnd2).2
      cases j with
      | zero =>
        have hget : ((e :: es).filter (fun e => owned e.2)).get ⟨0, hj⟩ = e := by
          simp [hfil]
        rw [hget, numeration_frame _ _ _ _ _ _ hnotin]
        simp only [numerationStep, h, if_true]
        rw [tableVector_read_assign]
        simp
      | succ j =>
        have hj2 : j < (es.filter (fun e => owned e.2)).length := by
          simp only [hfil, List.length_cons] at hj
          omega
        have hget : ((e :: es).filter (fun e => owned e.2)).get ⟨j + 1, hj⟩
            = (es.filter (fun e => owned e.2)).get ⟨j, hj2⟩ := by
          simp [hfil]
        rw [hget, ih _ hnd3 j hj2]
        simp only [numerationStep, h, if_true]
        omega
    · have hfil : (e :: es).filter (fun e => owned e.2)
          = es.filter (fun e => owned e.2) := by simp [List.filter_cons, h]
      have hj2 : j < (es.filter (fun e => owned e.2)).length := by
        simpa [hfil] using hj
      have hget : ((e :: es).filter (fun e => owned e.2)).get ⟨j, hj⟩
          = (es.filter (fun e => owned e.2)).get ⟨j, hj2⟩ := by
        simp [hfil]
      have hnd3 : ((es.filter (fun e => owned e.2)).map Prod.snd).Nodup := by
        simpa [hfil] using hnd
      rw [hget, ih _ hnd3 j hj2]
      simp [numerationStep, h]

/-! ### Offsets and counts over the ranks -/

theorem broadcast_getD (uniqueMaps : List (List ID)) (i : Nat) :
    (uniqueMaps.map (fun m => (NumMyElements m : Int))).getD i 0
      = ((NumMyElements (uniqueMaps.getD i []) : Nat) : Int) := by
  simp only [List.getD_eq_getElem?_getD, List.getElem?_map]
  cases uniqueMaps[i]? with
  | none => simp [NumMyElements]
  | some m => simp

/-- The offset of rank `pid`, as a natural number: the sum of the counts of the ranks
before it. -/
theorem rank_offset (uniqueMaps : List (List ID)) (pid : Nat) (hpid : pid < uniqueMaps.length) :
    ((offsetArray (uniqueMaps.map (fun m => (NumMyElements m : Int)))).getD pid 0).toNat
      = ∑ i ∈ Finset.range pid, NumMyElements (uniqueMaps.getD i []) := by
  rw [offsetArray_getD _ _ (by simpa using hpid)]
  simp only [broadcast_getD]
  rw [← Nat.cast_sum, Int.toNat_natCast]

theorem numGlobalElements_eq_sum (uniqueMaps : List (List ID)) :
    NumGlobalElements uniqueMaps
      = ∑ i ∈ Finset.range uniqueMaps.length, NumMyElements (uniqueMaps.getD i []) := by
  unfold NumGlobalElements
  induction uniqueMaps with
  | nil => simp
  | cons m ms ih =>
    rw [List.map_cons, List.sum_cons, ih, List.length_cons, Finset.sum_range_succ']
    simp [add_comm]

theorem sum_counts_of_owned (nd : Nat) (cnt n : Nat → Nat) (k : Nat)
    (h : ∀ r, r < k → cnt r = nd * n r) :
    ∑ i ∈ Finset.range k, cnt i = nd * ∑ i ∈ Finset.range k, n i := by
  rw [Finset.mul_sum]
  apply Finset.sum_congr rfl
  intro i hi
  exact h i (Finset.mem_range.mp hi)

/-- With every count equal to `dim` times the number of owned points, the offset divided by
`dim` is the number of points owned by the ranks before. -/
theorem rank_offset_div (nd : Nat) (hdim : 0 < nd) (uniqueMaps : List (List ID))
    (n : Nat → Nat) (pid : Nat) (hpid : pid < uniqueMaps.length)
    (hcount : ∀ r, r < pid → NumMyElements (uniqueMaps.getD r []) = nd * n r) :
    ((offsetArray (uniqueMaps.map (fun m => (NumMyElements m : Int)))).getD pid 0).toNat / nd
      = ∑ i ∈ Finset.range pid, n i := by
  rw [rank_offset _ _ hpid, sum_counts_of_owned nd _ n pid hcount,
    Nat.mul_div_cancel_left _ hdim]

theorem numGlobalElements_div (nd : Nat) (hdim : 0 < nd) (uniqueMaps : List (List ID))
    (n : Nat → Nat)
    (hcount : ∀ r, r < uniqueMaps.length → NumMyElements (uniqueMaps.getD r []) = nd * n r) :
    NumGlobalElements uniqueMaps / nd = ∑ i ∈ Finset.range uniqueMaps.length, n i := by
  rw [numGlobalElements_eq_sum, sum_counts_of_owned nd _ n _ hcount,
    Nat.mul_div_cancel_left _ hdim]

/-! ### The fields of constructInterfaceMap with the table vector -/

theorem constructInterfaceMap_table (nd : Nat) (uniqueMaps : List (List ID)) (pid : Nat)
    (loc : List (ID × ID)) :
    (constructInterfaceMap tableVector [] nd uniqueMaps pid loc).M_numerationInterface.reverse
      = ((loc.filter (fun e => ownedOn uniqueMaps pid e.2)).map Prod.snd).zip
          ((List.range' 0 (loc.filter (fun e => ownedOn uniqueMaps pid e.2)).length).map
            (fun l => l +
              ((offsetArray (uniqueMaps.map (fun m => (NumMyElements m : Int)))).getD
                pid 0).toNat / nd)) := by
  simp only [constructInterfaceMap, numeration_table]
  simp

theorem constructInterfaceMap_coupling {V : Type} (vec : NumerationVector V) (fresh : V)
    (nd : Nat) (uniqueMaps : List (List ID)) (pid : Nat) (loc : List (ID × ID)) :
    (constructInterfaceMap vec fresh nd uniqueMaps pid loc).couplingVector
      = (List.range nd).flatMap (fun dim =>
          (loc.filter (fun e => ownedOn uniqueMaps pid e.2)).map (fun e =>
            vec.read (constructInterfaceMap vec fresh nd uniqueMaps pid loc).M_numerationInterface
              e.2 + dim * (NumGlobalElements uniqueMaps / nd))) := by
  simp only [constructInterfaceMap, couplingLoop_eq]

theorem constructInterfaceMap_read (nd : Nat) (uniqueMaps : List (List ID)) (pid : Nat)
    (loc : List (ID × ID))
    (hinj : ((loc.filter (fun e => ownedOn uniqueMaps pid e.2)).map Prod.snd).Nodup)
    (j : Nat) (hj : j < (loc.filter (fun e => ownedOn uniqueMaps pid e.2)).length) :
    tableVector.read (constructInterfaceMap tableVector [] nd uniqueMaps pid loc).M_numerationInterface
        ((loc.filter (fun e => ownedOn uniqueMaps pid e.2)).get ⟨j, hj⟩).2
      = j + ((offsetArray (uniqueMaps.map (fun m => (NumMyElements m : Int)))).getD
                pid 0).toNat / nd := by
  have h := numeration_read (ownedOn uniqueMaps pid)
    ((offsetArray (uniqueMaps.map (fun m => (NumMyElements m : Int)))).getD pid 0) nd loc
    { M_numerationInterface := [], l := 0, cout := [] } hinj j hj
  simpa [constructInterfaceMap] using h

/-- C1: for every number of ranks `P ≥ 1` and every array `c` of `P` broadcast counts, the
shift loop, the assignment of zero and the accumulation loop leave the exclusive sums in
the array: the length is unchanged, entry `0` is `0`, every entry `k` with `0 < k < P` is
`c[0] + ... + c[k-1]`, and the result is the same whatever the count of the last rank. -/
theorem C1_offsets_are_exclusive_sums (c : List Int) (hP : 1 ≤ c.length) :
    (offsetArray c).length = c.length ∧
    (offsetArray c)[0]? = some 0 ∧
    (∀ k, 0 < k → k < c.length →
      (offsetArray c)[k]? = some (∑ i ∈ Finset.range k, c.getD i 0)) ∧
    ∀ x, offsetArray (c.dropLast ++ [x]) = offsetArray c := by
  have hlen : (offsetArray c).length = c.length := offsetArray_length c
  have hget : ∀ k, k < c.length →
      (offsetArray c)[k]? = some (∑ i ∈ Finset.range k, c.getD i 0) := by
    intro k hk
    have h1 := offsetArray_getD c k hk
    rw [List.getD_eq_getElem?_getD, List.getElem?_eq_getElem (by omega)] at h1
    rw [List.getElem?_eq_getElem (by omega)]
    simpa using h1
  refine ⟨hlen, ?_, fun k _ hk => hget k hk, fun x => offsetArray_last_count c x hP⟩
  simpa using hget 0 (by omega)

/-- C1 at three ranks with counts 3, 6 and 9: the offset of the last rank is 3 + 6, and the
count 9 of the last rank is not part of it. -/
theorem C1_offsets_are_exclusive_sums_witness :
    1 ≤ [(3 : Int), 6, 9].length ∧
    (offsetArray [3, 6, 9])[2]? = some (∑ i ∈ Finset.range 2, [(3 : Int), 6, 9].getD i 0) ∧
    offsetArray [3, 6, 9] = [0, 3, 9] :=
  ⟨by decide,
    (C1_offsets_are_exclusive_sums [3, 6, 9] (by decide)).2.2.1 2 (by decide) (by decide),
    by decide⟩

/-! ### C2 -/

/-- C3: on rank `pid`, when every rank before it counts `dim` unique-map elements per owned
interface point, the assignments made by the numbering loop, in the order they are made,
give the `j`-th owned structure identifier the id `offset + j`, `offset` being the number
of interface points owned by the ranks before `pid`; the ids assigned on the rank are the
interval that starts at `offset` and has as many elements as the rank owns points, the
counter `l` ends at that number, and nothing is written to standard output. -/
theorem C3_rank_ids_are_an_interval (nd : Nat) (uniqueMaps : List (List ID))
    (locDofMaps : List (List (ID × ID))) (pid : Nat)
    (hdim : 0 < nd) (hpid : pid < uniqueMaps.length)
    (hcount : ∀ r, r < pid → NumMyElements (uniqueMaps.getD r [])
      = nd * (ownedPairs uniqueMaps locDofMaps r).length) :
    (constructInterfaceMap tableVector [] nd uniqueMaps pid
        (locDofMaps.getD pid [])).M_numerationInterface.reverse
      = ((ownedPairs uniqueMaps locDofMaps pid).map Prod.snd).zip
          (List.range' (∑ r ∈ Finset.range pid, (ownedPairs uniqueMaps locDofMaps r).length)
            (ownedPairs uniqueMaps locDofMaps pid).length) ∧
    (constructInterfaceMap tableVector [] nd uniqueMaps pid
        (locDofMaps.getD pid [])).M_numerationInterface.reverse.map Prod.snd
      = List.range' (∑ r ∈ Finset.range pid, (ownedPairs uniqueMaps locDofMaps r).length)
          (ownedPairs uniqueMaps locDofMaps pid).length ∧
    (constructInterfaceMap tableVector [] nd uniqueMaps pid (locDofMaps.getD pid [])).l
      = (ownedPairs uniqueMaps locDofMaps pid).length ∧
    (constructInterfaceMap tableVector [] nd uniqueMaps pid (locDofMaps.getD pid [])).cout
      = [] := by
  have hoff := rank_offset_div nd hdim uniqueMaps
    (fun r => (ownedPairs uniqueMaps locDofMaps r).length) pid hpid hcount
  have htab := constructInterfaceMap_table nd uniqueMaps pid (locDofMaps.getD pid [])
  rw [hoff] at htab
  have hrange : ∀ o n : Nat, (List.range' 0 n).map (fun l => l + o) = List.range' o n := by
    intro o n
    rw [List.range'_eq_map_range o n]
    simp [List.range_eq_range', add_comm]
  rw [hrange] at htab
  have htab2 : (constructInterfaceMap tableVector [] nd uniqueMaps pid
        (locDofMaps.getD pid [])).M_numerationInterface.reverse
      = ((ownedPairs uniqueMaps locDofMaps pid).map Prod.snd).zip
          (List.range' (∑ r ∈ Finset.range pid, (ownedPairs uniqueMaps locDofMaps r).length)
            (ownedPairs uniqueMaps locDofMaps pid).length) := htab
  refine ⟨htab2, ?_, ?_, ?_⟩
  · rw [htab2, List.map_snd_zip]
    simp
  · simp [constructInterfaceMap, numeration_counter, ownedPairs]
  · simp [constructInterfaceMap, numeration_cout_table]

/-- C3 on the scenario with two ranks, two owned points each and three dimensions: the
second rank gives its structure identifiers 2 and 3 the ids 2 and 3, the first rank gives
its structure identifiers 0 and 1 the ids 0 and 1. -/
theorem C3_rank_ids_are_an_interval_witness :
    (0 < 3 ∧ 1 < scenarioUniqueMaps.length ∧
      ∀ r, r < 1 → NumMyElements (scenarioUniqueMaps.getD r [])
          = 3 * (ownedPairs scenarioUniqueMaps scenarioLocDofMaps r).length) ∧
    (constructInterfaceMap tableVector [] 3 scenarioUniqueMaps 1
        (scenarioLocDofMaps.getD 1 [])).M_numerationInterface.reverse = [(2, 2), (3, 3)] ∧
    (constructInterfaceMap tableVector [] 3 scenarioUniqueMaps 0
        (scenarioLocDofMaps.getD 0 [])).M_numerationInterface.reverse = [(0, 0), (1, 1)] :=
  ⟨⟨by decide, by decide, by decide⟩,
    (C3_rank_ids_are_an_interval 3 scenarioUniqueMaps scenarioLocDofMaps 1
      (by decide) (by decide) (by decide)).1.trans (by decide),
    (C3_rank_ids_are_an_interval 3 scenarioUniqueMaps scenarioLocDofMaps 0
      (by decide) (by decide) (by decide)).1.trans (by decide)⟩

/-! ### C4 -/

/-- C4: on rank `pid`, with an injective local map and every count equal to `dim` times the
number of owned points, `couplingVector` has length `dim * n` (`n` owned points on the
rank); `M_interface` is `NumGlobalElements / dim`, the total number of owned points; the
entry at position `d * n + j` is the id of the `j`-th owned point plus `d * M_interface`,
that id is `offset + j`, and the entry lies in the range from `d * M_interface` up to, but
not including, `(d + 1) * M_interface`. -/
theorem C4_couplingVector_layout (nd : Nat) (uniqueMaps : List (List ID))
    (locDofMaps : List (List (ID × ID))) (pid d j : Nat)
    (hdim : 0 < nd) (hpid : pid < uniqueMaps.length)
    (hinj : ((locDofMaps.getD pid []).map Prod.snd).Nodup)
    (hcount : ∀ r, r < uniqueMaps.length → NumMyElements (uniqueMaps.getD r [])
      = nd * (ownedPairs uniqueMaps locDofMaps r).length)
    (hd : d < nd) (hj : j < (ownedPairs uniqueMaps locDofMaps pid).length) :
    (constructInterfaceMap tableVector [] nd uniqueMaps pid
        (locDofMaps.getD pid [])).couplingVector.length
      = nd * (ownedPairs uniqueMaps locDofMaps pid).length ∧
    (constructInterfaceMap tableVector [] nd uniqueMaps pid (locDofMaps.getD pid [])).M_interface
      = NumGlobalElements uniqueMaps / nd ∧
    NumGlobalElements uniqueMaps / nd
      = ∑ r ∈ Finset.range uniqueMaps.length, (ownedPairs uniqueMaps locDofMaps r).length ∧
    (constructInterfaceMap tableVector [] nd uniqueMaps pid
        (locDofMaps.getD pid [])).couplingVector[d * (ownedPairs uniqueMaps locDofMaps pid).length + j]?
      = some (tableVector.read
          (constructInterfaceMap tableVector [] nd uniqueMaps pid
            (locDofMaps.getD pid [])).M_numerationInterface
          ((ownedPairs uniqueMaps locDofMaps pid).get ⟨j, hj⟩).2
        + d * (NumGlobalElements uniqueMaps / nd)) ∧
    tableVector.read
        (constructInterfaceMap tableVector [] nd uniqueMaps pid
          (locDofMaps.getD pid [])).M_numerationInterface
        ((ownedPairs uniqueMaps locDofMaps pid).get ⟨j, hj⟩).2
      = (∑ r ∈ Finset.range pid, (ownedPairs uniqueMaps locDofMaps r).length) + j ∧
    d * (NumGlobalElements uniqueMaps / nd)
      ≤ (∑ r ∈ Finset.range pid, (ownedPairs uniqueMaps locDofMaps r).length) + j
          + d * (NumGlobalElements uniqueMaps / nd) ∧
    (∑ r ∈ Finset.range pid, (ownedPairs uniqueMaps locDofMaps r).length) + j
        + d * (NumGlobalElements uniqueMaps / nd)
      < (d + 1) * (NumGlobalElements uniqueMaps / nd) := by
  have hinj2 : (((locDofMaps.getD pid []).filter
      (fun e => ownedOn uniqueMaps pid e.2)).map Prod.snd).Nodup :=
    List.Nodup.sublist (List.Sublist.map _ (List.filter_sublist _)) hinj
  have hoff := rank_offset_div nd hdim uniqueMaps
    (fun r => (ownedPairs uniqueMaps locDofMaps r).length) pid hpid
    (fun r hr => hcount r (by omega))
  have hN := numGlobalElements_div nd hdim uniqueMaps
    (fun r => (ownedPairs uniqueMaps locDofMaps r).length) hcount
  beta_reduce at hoff hN
  have hread := constructInterfaceMap_read nd uniqueMaps pid (locDofMaps.getD pid []) hinj2 j hj
  rw [hoff] at hread
  have hlt : (∑ r ∈ Finset.range pid, (ownedPairs uniqueMaps locDofMaps r).length) + j
      < NumGlobalElements uniqueMaps / nd := by
    rw [hN]
    have hsub : ∑ r ∈ Finset.range (pid + 1), (ownedPairs uniqueMaps locDofMaps r).length
        ≤ ∑ r ∈ Finset.range uniqueMaps.length, (ownedPairs uniqueMaps locDofMaps r).length :=
      Finset.sum_le_sum_of_subset (Finset.range_subset.mpr (by omega))
    rw [Finset.sum_range_succ] at hsub
    omega
  refine ⟨?_, rfl, hN, ?_, ?_, Nat.le_add_left _ _, ?_⟩
  · rw [constructInterfaceMap_coupling]
    exact length_flatMap_blocks _ _ _ (fun _ _ => by simp [ownedPairs])
  · rw [constructInterfaceMap_coupling,
      getElem?_flatMap_blocks _ (ownedPairs uniqueMaps locDofMaps pid).length nd d j
        (fun _ _ => by simp [ownedPairs]) hd hj]
    rw [List.getElem?_map]
    have hget : ((locDofMaps.getD pid []).filter (fun e => ownedOn uniqueMaps pid e.2))[j]?
        = some ((ownedPairs uniqueMaps locDofMaps pid).get ⟨j, hj⟩) := by
      rw [List.getElem?_eq_getElem (by simpa [ownedPairs] using hj)]
      simp [ownedPairs]
    rw [hget]
    rfl
  · rw [Nat.add_comm]
    exact hread
  · rw [Nat.add_mul, Nat.one_mul]
    omega

/-- C4 on the scenario, second rank, third dimension, second owned point: the entry at
position 2 * 2 + 1 of the six entries is 3 + 2 * 4 = 11, between 8 and 12. -/
theorem C4_couplingVector_layout_witness :
    (0 < 3 ∧ 1 < scenarioUniqueMaps.length ∧
      ((scenarioLocDofMaps.getD 1 []).map Prod.snd).Nodup ∧
      (∀ r, r < scenarioUniqueMaps.length → NumMyElements (scenarioUniqueMaps.getD r [])
          = 3 * (ownedPairs scenarioUniqueMaps scenarioLocDofMaps r).length) ∧
      2 < 3 ∧ 1 < (ownedPairs scenarioUniqueMaps scenarioLocDofMaps 1).length) ∧
    (constructInterfaceMap tableVector [] 3 scenarioUniqueMaps 1
        (scenarioLocDofMaps.getD 1 [])).couplingVector.length = 6 ∧
    NumGlobalElements scenarioUniqueMaps / 3 = 4 ∧
    (constructInterfaceMap tableVector [] 3 scenarioUniqueMaps 1
        (scenarioLocDofMaps.getD 1 [])).couplingVector[2
          * (ownedPairs scenarioUniqueMaps scenarioLocDofMaps 1).length + 1]? = some 11 :=
  ⟨⟨by decide, by decide, by decide, by decide, by decide, by decide⟩,
    (C4_couplingVector_layout 3 scenarioUniqueMaps scenarioLocDofMaps 1 2 1
      (by decide) (by decide) (by decide) (by decide) (by decide) (by decide)).1.trans
        (by decide),
    (C4_couplingVector_layout 3 scenarioUniqueMaps scenarioLocDofMaps 1 2 1
      (by decide) (by decide) (by decide) (by decide) (by decide) (by decide)).2.2.1.trans
        (by decide),
    (C4_couplingVector_layout 3 scenarioUniqueMaps scenarioLocDofMaps 1 2 1
      (by decide) (by decide) (by decide) (by decide) (by decide) (by decide)).2.2.2.1.trans
        (by decide)⟩

/-! ### C6 -/

/-- C6, as stated, fails: with two ranks whose local maps both hold the structure node 7,
owned by the second rank, the first rank owns no interface point, yet `createInterfaceMaps`
hands three fluid and three structure identifiers to its interface maps. -/
theorem C6_unowned_pairs_enter_the_interface_maps :
    ownedPairs [[], [7, 57, 107]] [[(5, 7)], [(6, 7)]] 0 = [] ∧
    (createInterfaceMaps 3 100 50 [(5, 7)]).M_fluidInterfaceMap = [5, 105, 205] ∧
    (createInterfaceMaps 3 100 50 [(5, 7)]).M_structureInterfaceMap = [7, 57, 107] := by
  decide

/-- C6, amended: with an empty local map `createInterfaceMaps` hands empty lists to the
fluid and to the structure interface map; on a rank where no pair passes the ownership
test, `constructInterfaceMap` leaves the numbering vector as created, the counter at zero,
standard output empty and `couplingVector` empty; the two lists of `createInterfaceMaps`
have `dim` entries per pair of the local map, owned or not. -/
theorem C6_rank_without_owned_points {V : Type} (vec : NumerationVector V) (fresh : V)
    (nd NF NS : Nat) (uniqueMaps : List (List ID)) (pid : Nat) (loc : List (ID × ID))
    (hnone : loc.filter (fun e => ownedOn uniqueMaps pid e.2) = []) :
    createInterfaceMaps nd NF NS []
      = { dofInterfaceFluid := [], M_fluidInterfaceMap := [], dofInterfaceSolid := [],
          M_structureInterfaceMap := [] } ∧
    (createInterfaceMaps nd NF NS loc).M_fluidInterfaceMap.length = nd * loc.length ∧
    (createInterfaceMaps nd NF NS loc).M_structureInterfaceMap.length = nd * loc.length ∧
    (constructInterfaceMap vec fresh nd uniqueMaps pid loc).M_numerationInterface = fresh ∧
    (constructInterfaceMap vec fresh nd uniqueMaps pid loc).l = 0 ∧
    (constructInterfaceMap vec fresh nd uniqueMaps pid loc).cout = [] ∧
    (constructInterfaceMap vec fresh nd uniqueMaps pid loc).couplingVector = [] := by
  refine ⟨?_, ?_, ?_, ?_, ?_, ?_, ?_⟩
  · have hnil : ∀ (N : Nat) (component : ID × ID → ID),
        dofInterfaceLoop nd N component [] = [] := by
      intro N component
      rw [dofInterfaceLoop_eq]
      exact List.flatMap_eq_nil_iff.mpr (fun _ _ => rfl)
    simp [createInterfaceMaps, hnil, newMapEpetra, pointerToDofs]
  · simp only [createInterfaceMaps, newMapEpetra_pointerToDofs, dofInterfaceLoop_eq]
    exact length_flatMap_blocks _ _ _ (fun _ _ => by simp)
  · simp only [createInterfaceMaps, newMapEpetra_pointerToDofs, dofInterfaceLoop_eq]
    exact length_flatMap_blocks _ _ _ (fun _ _ => by simp)
  · simp only [constructInterfaceMap]
    rw [numeration_none_owned _ _ _ _ _ _ hnone]
  · simp only [constructInterfaceMap]
    rw [numeration_none_owned _ _ _ _ _ _ hnone]
  · simp only [constructInterfaceMap]
    rw [numeration_none_owned _ _ _ _ _ _ hnone]
  · rw [constructInterfaceMap_coupling, hnone]
    simp

/-- C6, amended, on the first of two ranks whose local maps both hold the structure node 7,
owned by the second rank. -/
theorem C6_rank_without_owned_points_witness :
    ([((5 : ID), (7 : ID))].filter (fun e => ownedOn [[], [7, 57, 107]] 0 e.2) = []) ∧
    (constructInterfaceMap tableVector [] 3 [[], [7, 57, 107]] 0 [(5, 7)]).couplingVector = [] ∧
    (constructInterfaceMap tableVector [] 3 [[], [7, 57, 107]] 0 [(5, 7)]).l = 0 :=
  ⟨by decide,
    (C6_rank_without_owned_points tableVector [] 3 100 50 [[], [7, 57, 107]] 0 [(5, 7)]
      (by decide)).2.2.2.2.2.2,
    (C6_rank_without_owned_points tableVector [] 3 100 50 [[], [7, 57, 107]] 0 [(5, 7)]
      (by decide)).2.2.2.2.1⟩

/-! ### C7 -/

/-- C7: for a local interface map with `m` pairs `(f_j, s_j)` in iteration order,
`createInterfaceMaps` builds a fluid list and a structure list of length `dim * m`, handed
unchanged to the two map constructors, whose entry at position `d * m + j` is `f_j + d * NF`
and `s_j + d * NS`: equal positions hold the two sides of one pair in one dimension. -/
theorem C7_createInterfaceMaps_layout (nDimensions NF NS : Nat) (locDofMap : List (ID × ID))
    (d j : Nat) (hd : d < nDimensions) (hj : j < locDofMap.length) :
    let r := createInterfaceMaps nDimensions NF NS locDofMap
    r.M_fluidInterfaceMap = r.dofInterfaceFluid ∧
    r.M_structureInterfaceMap = r.dofInterfaceSolid ∧
    r.dofInterfaceFluid.length = nDimensions * locDofMap.length ∧
    r.dofInterfaceSolid.length = nDimensions * locDofMap.length ∧
    r.dofInterfaceFluid[d * locDofMap.length + j]? = some ((locDofMap.get ⟨j, hj⟩).1 + d * NF) ∧
    r.dofInterfaceSolid[d * locDofMap.length + j]? = some ((locDofMap.get ⟨j, hj⟩).2 + d * NS) := by
  simp only [createInterfaceMaps, newMapEpetra_pointerToDofs, dofInterfaceLoop_eq, true_and]
  refine ⟨?_, ?_, ?_, ?_⟩
  · exact length_flatMap_blocks _ _ _ (fun _ _ => by simp)
  · exact length_flatMap_blocks _ _ _ (fun _ _ => by simp)
  · rw [getElem?_flatMap_blocks _ locDofMap.length nDimensions d j (fun _ _ => by simp) hd hj]
    simp [List.getElem?_eq_getElem hj]
  · rw [getElem?_flatMap_blocks _ locDofMap.length nDimensions d j (fun _ _ => by simp) hd hj]
    simp [List.getElem?_eq_getElem hj]

/-- C7 on the local map {4 ↦ 7, 5 ↦ 9} with three dimensions, NF = 100 and NS = 50, at the
second pair in the third dimension. -/
theorem C7_createInterfaceMaps_layout_witness :
    (2 < 3 ∧ 1 < [((4 : ID), (7 : ID)), (5, 9)].length) ∧
    (createInterfaceMaps 3 100 50 [(4, 7), (5, 9)]).M_fluidInterfaceMap
      = (createInterfaceMaps 3 100 50 [(4, 7), (5, 9)]).dofInterfaceFluid ∧
    (createInterfaceMaps 3 100 50 [(4, 7), (5, 9)]).M_structureInterfaceMap
      = (createInterfaceMaps 3 100 50 [(4, 7), (5, 9)]).dofInterfaceSolid ∧
    (createInterfaceMaps 3 100 50 [(4, 7), (5, 9)]).dofInterfaceFluid.length = 3 * 2 ∧
    (createInterfaceMaps 3 100 50 [(4, 7), (5, 9)]).dofInterfaceSolid.length = 3 * 2 ∧
    (createInterfaceMaps 3 100 50 [(4, 7), (5, 9)]).dofInterfaceFluid[2 * 2 + 1]?
      = some (5 + 2 * 100) ∧
    (createInterfaceMaps 3 100 50 [(4, 7), (5, 9)]).dofInterfaceSolid[2 * 2 + 1]?
      = some (9 + 2 * 50) :=
  ⟨by decide,
    C7_createInterfaceMaps_layout 3 100 50 [(4, 7), (5, 9)] 2 1 (by decide) (by decide)⟩

/-! ### C8 -/

theorem range_block (a b : Nat) :
    List.range a ++ (List.range b).map (fun g => g + a) = List.range (a + b) := by
  rw [List.range_add]
  simp [add_comm]

/-- C8: `buildMonolithicMap` gives the ordered concatenation of the five block maps, in the
order velocity, pressure, structure displacement, multiplier, ALE: its size is the sum of
the five sizes, and the identifiers of every block follow those of the blocks before it,
moved by the sum of the sizes of the blocks before it; nothing is asked of the blocks, so
this holds with empty blocks too. With five contiguous blocks of sizes `nu`, `np`, `ns`,
`nl`, `na` the result is the contiguous map of size `nu + np + ns + nl + na`. -/
theorem C8_monolithic_map_is_the_ordered_concatenation
    (uMap pMap displacementMap lagrangeMap aleMap : MapEpetra) (nu np ns nl na : Nat) :
    (buildMonolithicMap uMap pMap displacementMap lagrangeMap aleMap).mapSize
      = uMap.mapSize + pMap.mapSize + displacementMap.mapSize + lagrangeMap.mapSize
          + aleMap.mapSize ∧
    (buildMonolithicMap uMap pMap displacementMap lagrangeMap aleMap).myGlobalElements
      = uMap.myGlobalElements
        ++ pMap.myGlobalElements.map (fun g => g + uMap.mapSize)
        ++ displacementMap.myGlobalElements.map (fun g => g + (uMap.mapSize + pMap.mapSize))
        ++ lagrangeMap.myGlobalElements.map
            (fun g => g + (uMap.mapSize + pMap.mapSize + displacementMap.mapSize))
        ++ aleMap.myGlobalElements.map
            (fun g => g + (uMap.mapSize + pMap.mapSize + displacementMap.mapSize
              + lagrangeMap.mapSize)) ∧
    buildMonolithicMap (MapEpetra.linear nu) (MapEpetra.linear np) (MapEpetra.linear ns)
        (MapEpetra.linear nl) (MapEpetra.linear na)
      = MapEpetra.linear (nu + np + ns + nl + na) := by
  refine ⟨rfl, rfl, ?_⟩
  simp only [buildMonolithicMap, MapEpetra.plusAssign, MapEpetra.linear, range_block]

/-! ### C9 -/

theorem subset_length {R : Type} [Zero R] (receiver vector : List R)
    (mapSize offset1 offset2 : Nat) :
    (subset receiver vector mapSize offset1 offset2).length = receiver.length := by
  simp [subset]

theorem subset_getD {R : Type} [Zero R] (receiver vector : List R)
    (mapSize offset1 offset2 g : Nat) :
    (subset receiver vector mapSize offset1 offset2).getD g 0 =
      if g < receiver.length then
        (if offset2 ≤ g ∧ g < offset2 + mapSize then vector.getD (g - offset2 + offset1) 0
         else receiver.getD g 0)
      else 0 := by
  unfold subset
  rw [List.getD_eq_getElem?_getD, List.getElem?_map]
  by_cases hg : g < receiver.length
  · rw [List.getElem?_range hg, if_pos hg]
    rfl
  · rw [List.getElem?_eq_none (by simpa using hg), if_neg hg]
    rfl

theorem replicate_zero_getD {R : Type} [Zero R] (n g : Nat) :
    (List.replicate n (0 : R)).getD g 0 = 0 := by
  rw [List.getD_eq_getElem?_getD, List.getElem?_replicate]
  by_cases hg : g < n
  · simp [hg]
  · simp [hg]

theorem rightHandSide_length {R Mat W PList : Type} [Zero R] (h : FSIState R Mat W PList) :
    (rightHandSide h).length = h.nu + h.np + h.ns + h.nl + h.na := by
  simp [rightHandSide, subset_length]

/-- The blocks of `rightHandSide`. -/
theorem rightHandSide_getD {R Mat W PList : Type} [Zero R] (h : FSIState R Mat W PList)
    (g : Nat) :
    (rightHandSide h).getD g 0 =
      if g < h.nu then h.M_rhsFluid.getD g 0
      else if g < h.nu + h.np then 0
      else if g < h.nu + h.np + h.ns then h.M_rhsStructure.getD (g - (h.nu + h.np)) 0
      else if g < h.nu + h.np + h.ns + h.nl then
        h.M_rhsCouplingVelocities.getD (g - (h.nu + h.np + h.ns)) 0
      else 0 := by
  simp only [rightHandSide, subset_getD, subset_length, List.length_replicate,
    replicate_zero_getD, Nat.add_zero, Nat.zero_le, true_and, Nat.zero_add]
  by_cases h1 : g < h.nu
  · have a1 : g < h.nu + h.np + h.ns + h.nl + h.na := by omega
    have a2 : ¬ (h.nu + h.np + h.ns ≤ g ∧ g < h.nu + h.np + h.ns + h.nl) := by omega
    have a3 : ¬ (h.nu + h.np ≤ g ∧ g < h.nu + h.np + h.ns) := by omega
    simp only [a1, a2, a3, h1, if_true, if_false]
    simp
  · by_cases h2 : g < h.nu + h.np
    · have a1 : g < h.nu + h.np + h.ns + h.nl + h.na := by omega
      have a2 : ¬ (h.nu + h.np + h.ns ≤ g ∧ g < h.nu + h.np + h.ns + h.nl) := by omega
      have a3 : ¬ (h.nu + h.np ≤ g ∧ g < h.nu + h.np + h.ns) := by omega
      simp only [a1, a2, a3, h1, h2, if_true, if_false]
    · by_cases h3 : g < h.nu + h.np + h.ns
      · have a1 : g < h.nu + h.np + h.ns + h.nl + h.na := by omega
        have a2 : ¬ (h.nu + h.np + h.ns ≤ g ∧ g < h.nu + h.np + h.ns + h.nl) := by omega
        have a3 : h.nu + h.np ≤ g ∧ g < h.nu + h.np + h.ns := by omega
        simp only [a1, a2, a3, h1, h2, h3, if_true, if_false]
        simp
      · by_cases h4 : g < h.nu + h.np + h.ns + h.nl
        · have a1 : g < h.nu + h.np + h.ns + h.nl + h.na := by omega
          have a2 : h.nu + h.np + h.ns ≤ g ∧ g < h.nu + h.np + h.ns + h.nl := by omega
          simp only [a1, a2, h1, h2, h3, h4, if_true, if_false]
          simp
        · have a2 : ¬ (h.nu + h.np + h.ns ≤ g ∧ g < h.nu + h.np + h.ns + h.nl) := by omega
          have a3 : ¬ (h.nu + h.np ≤ g ∧ g < h.nu + h.np + h.ns) := by omega
          simp only [a2, a3, h1, h2, h3, h4, if_false]
          simp

/-- C9: for every trial solution, the residual returned by `evalResidual` is, entry by
entry, the result of `Apply` on the solution minus `rightHandSide`. The operator is the
one `initializeApplyOperator` sets up from the fluid blocks re-assembled on the moved mesh;
`rightHandSide` has the length of the monolithic map, its velocity block is the fluid
right-hand side just taken from the fluid solver, its structure block the structure
right-hand side, its multiplier block the first entries of the coupling right-hand side,
its pressure and ALE blocks are zero. The content of the residual passed in plays no part:
the zero vector of the same length gives the same result. The structure and the coupling
right-hand sides are the ones found in the state. -/
theorem C9_evalResidual_is_operator_minus_rhs {R Mat W PList : Type} [Zero R] [Sub R]
    (E : External R Mat W PList) (h : FSIState R Mat W PList) (residual solution : List R)
    (iter_newton : Nat) :
    (evalResidual E h residual solution iter_newton).2
      = List.zipWith (fun a b => a - b)
          (E.apply (evalResidual E h residual solution iter_newton).1.M_applyOperator solution
            (List.replicate residual.length 0))
          (rightHandSide (evalResidual E h residual solution iter_newton).1) ∧
    (evalResidual E h residual solution iter_newton).1.M_applyOperator
      = operData E (evalResidual E h residual solution iter_newton).1 ∧
    (evalResidual E h residual solution iter_newton).1.world
      = E.applyBoundaryConditions
          (E.updateSystem (E.buildSystem (E.moveMesh h.world (meshDisplacement h solution)))
            h.M_beta_star h.M_rhs_velocity) h.M_time ∧
    (evalResidual E h residual solution iter_newton).1.M_rhsFluid
      = E.getRhs (evalResidual E h residual solution iter_newton).1.world ∧
    (evalResidual E h residual solution iter_newton).1.M_rhsStructure = h.M_rhsStructure ∧
    (evalResidual E h residual solution iter_newton).1.M_rhsCouplingVelocities
      = h.M_rhsCouplingVelocities ∧
    (rightHandSide (evalResidual E h residual solution iter_newton).1).length
      = h.nu + h.np + h.ns + h.nl + h.na ∧
    (∀ g, (rightHandSide (evalResidual E h residual solution iter_newton).1).getD g 0 =
      if g < h.nu then (evalResidual E h residual solution iter_newton).1.M_rhsFluid.getD g 0
      else if g < h.nu + h.np then 0
      else if g < h.nu + h.np + h.ns then h.M_rhsStructure.getD (g - (h.nu + h.np)) 0
      else if g < h.nu + h.np + h.ns + h.nl then
        h.M_rhsCouplingVelocities.getD (g - (h.nu + h.np + h.ns)) 0
      else 0) ∧
    evalResidual E h residual solution iter_newton
      = evalResidual E h (List.replicate residual.length 0) solution iter_newton := by
  have hzero : residual.map (fun _ => (0 : R)) = List.replicate residual.length 0 := by
    induction residual with
    | nil => rfl
    | cons x xs ih => simp [List.replicate_succ, ih]
  refine ⟨?_, rfl, rfl, rfl, rfl, rfl, ?_, ?_, ?_⟩
  · simp only [evalResidual, hzero]
  · exact rightHandSide_length _
  · intro g
    exact rightHandSide_getD _ g
  · simp only [evalResidual, hzero]
    simp

/-! ### C10 -/

/-- C10, as stated, fails: on the small instance, whose linear solver was configured with
the tolerance 1/1000000, `solveJac` called with `linearRelTol = 1/10` and with
`linearRelTol = 1/1000000` does the same thing, and the solver that runs `ApplyInverse`
still holds the configured tolerance, not 1/10. -/
theorem C10_linearRelTol_is_not_handed_to_the_solver :
    ((1 : ℚ) / 10 ≠ 1 / 1000000) ∧
    solveJac sampleExternal sampleState [0, 0, 0, 0, 0] [1, 2, 3, 4, 5] (1 / 10)
      = solveJac sampleExternal sampleState [0, 0, 0, 0, 0] [1, 2, 3, 4, 5] (1 / 1000000) ∧
    (solveJac sampleExternal sampleState [0, 0, 0, 0, 0] [1, 2, 3, 4, 5]
        (1 / 10)).1.M_invOper.parameterList = some (1 / 1000000) ∧
    (solveJac sampleExternal sampleState [0, 0, 0, 0, 0] [1, 2, 3, 4, 5]
        (1 / 10)).1.M_invOper.parameterList ≠ some (1 / 10) := by
  refine ⟨by norm_num, rfl, rfl, ?_⟩
  show some ((1 : ℚ) / 1000000) ≠ some (1 / 10)
  norm_num

/-- C10, amended: `solveJac` does not read `linearRelTol`. For every two values of it the
state after the call and the increment are the same; the linear solver keeps the parameter
list it was given at setup, gets the operator of `M_applyOperator` and the preconditioner
with the fluid blocks just set and the fluid approximation just updated, and the increment
is what `ApplyInverse` leaves for the residual passed in. -/
theorem C10_solveJac_runs_with_the_configured_solver {R Mat W PList : Type}
    (E : External R Mat W PList) (h : FSIState R Mat W PList) (increment residual : List R)
    (linearRelTol otherTol : R) :
    solveJac E h increment residual linearRelTol = solveJac E h increment residual otherTol ∧
    (solveJac E h increment residual linearRelTol).1.M_invOper.parameterList
      = h.M_invOper.parameterList ∧
    (solveJac E h increment residual linearRelTol).1.M_invOper.operator
      = some h.M_applyOperator ∧
    (solveJac E h increment residual linearRelTol).1.M_invOper.preconditioner
      = some (h.M_prec ++
          [PrecCall.setFluidBlocks (E.getF h.world) (E.getBtranspose h.world) (E.getB h.world),
            PrecCall.setDomainMap, PrecCall.setRangeMap,
            PrecCall.updateApproximatedFluidOperator]) ∧
    (solveJac E h increment residual linearRelTol).2
      = (E.applyInverse (solveJac E h increment residual linearRelTol).1.M_invOper
          residual increment).1 := by
  refine ⟨rfl, rfl, rfl, ?_, rfl⟩
  simp [solveJac]

/-! ### C15 -/

/-- C15: `initializeApplyOperator` sets the operator up with the table `operData`, in which
ten of the 25 blocks are assigned, in the block order velocity, pressure, structure,
multiplier, ALE: `F` at (0,0), the transposed divergence at (0,1), the divergence at (1,0),
the structure matrix at (2,2), the ALE matrix at (4,4), and every coupling operator at
(row of the target field, column of the source field): multiplier to fluid momentum at
(0,3), multiplier to structure momentum at (2,3), fluid velocity to multiplier at (3,0),
structure displacement to multiplier at (3,2), structure displacement to mesh displacement
at (4,2). The fifteen other blocks are unset. -/
theorem C15_operator_has_ten_blocks {R Mat W PList : Type} (E : External R Mat W PList)
    (h : FSIState R Mat W PList) :
    (initializeApplyOperator E h).M_applyOperator = operData E h ∧
    operData E h 0 0 = some (E.getF h.world) ∧
    operData E h 0 1 = some (E.getBtranspose h.world) ∧
    operData E h 1 0 = some (E.getB h.world) ∧
    operData E h 2 2 = some h.M_matrixStructure ∧
    operData E h 4 4 = some h.aleMatrix ∧
    operData E h 0 3 = some h.lambdaToFluidMomentum ∧
    operData E h 2 3 = some h.lambdaToStructureMomentum ∧
    operData E h 3 0 = some h.fluidVelocityToLambda ∧
    operData E h 3 2 = some h.structureDisplacementToLambda ∧
    operData E h 4 2 = some h.structureDisplacementToFluidDisplacement ∧
    ((List.range 5).flatMap (fun i => (List.range 5).map (fun j => (i, j)))).filter
        (fun ij => (operData E h ij.1 ij.2).isSome)
      = [(0, 0), (0, 1), (0, 3), (1, 0), (2, 2), (2, 3), (3, 0), (3, 2), (4, 2), (4, 4)] ∧
    (((List.range 5).flatMap (fun i => (List.range 5).map (fun j => (i, j)))).filter
        (fun ij => (operData E h ij.1 ij.2).isNone)).length = 15 := by
  refine ⟨rfl, rfl, rfl, rfl, rfl, rfl, rfl, rfl, rfl, rfl, rfl, ?_, ?_⟩
  · rfl
  · rfl

/-! ### C16 -/

/-- With a vector that gives back what was assigned, the numbering loop writes nothing to
standard output. -/
theorem numeration_cout_faithful {V : Type} (vec : NumerationVector V)
    (hvec : ∀ v g x, vec.read (vec.assign v g x) g = x) (owned : ID → Bool) (offset : Int)
    (nd : Nat) (es : List (ID × ID)) (s : NumerationState V) :
    (es.foldl (numerationStep vec owned offset nd) s).cout = s.cout := by
  induction es generalizing s with
  | nil => rfl
  | cons e es ih =>
    rw [List.foldl_cons, ih]
    by_cases h : owned e.2 = true
    · simp [numerationStep, h, hvec, expectedId_eq]
    · simp [numerationStep, h]

/-- C20: the test of line 394 cannot fail. For every counter `l` and every offset, the
stored value `l + offset / dim` equals `floor (l + offset / dim + 0.2)` (for an offset that
is not negative the quotient is the integer quotient); hence, with a numbering vector that
gives back what was assigned, the error line is never written: standard output stays
empty after `constructInterfaceMap`, and after every single step of the loop. -/
theorem C20_consistency_check_cannot_fail {V : Type} (vec : NumerationVector V) (fresh : V)
    (nd : Nat) (uniqueMaps : List (List ID)) (pid : Nat) (loc : List (ID × ID))
    (l : Nat) (offset : Int) (s : NumerationState V) (ITrow : ID × ID)
    (hoffset : 0 ≤ offset)
    (hvec : ∀ v g x, vec.read (vec.assign v g x) g = x) :
    expectedId l offset nd = ((l + offset.toNat / nd : Nat) : Int) ∧
    expectedId l offset nd = (l : Int) + offset / (nd : Int) ∧
    ((vec.read (vec.assign s.M_numerationInterface ITrow.2 (s.l + offset.toNat / nd))
        ITrow.2 : Nat) : Int) = expectedId s.l offset nd ∧
    (numerationStep vec (ownedOn uniqueMaps pid) offset nd s ITrow).cout = s.cout ∧
    (constructInterfaceMap vec fresh nd uniqueMaps pid loc).cout = [] := by
  refine ⟨expectedId_eq l offset nd, ?_, ?_, ?_, ?_⟩
  · rw [expectedId_eq]
    push_cast
    rw [Int.toNat_of_nonneg hoffset]
  · rw [hvec, expectedId_eq]
  · have h := numeration_cout_faithful vec hvec (ownedOn uniqueMaps pid) offset nd [ITrow] s
    simpa using h
  · simp only [constructInterfaceMap]
    exact numeration_cout_faithful vec hvec _ _ _ _ _

/-- C20 on the second rank of the scenario with two ranks, at the counter 1 and the offset
6: the stored value 1 + 6 / 3 = 3 is the expected one and nothing is printed. -/
theorem C20_consistency_check_cannot_fail_witness :
    ((0 : Int) ≤ 6 ∧
      ∀ (v : List (ID × Nat)) (g : ID) (x : Nat),
        tableVector.read (tableVector.assign v g x) g = x) ∧
    expectedId 1 6 3 = 3 ∧
    (constructInterfaceMap tableVector [] 3 scenarioUniqueMaps 1
        (scenarioLocDofMaps.getD 1 [])).cout = [] :=
  ⟨⟨by decide, fun v g x => by simp [tableVector_read_assign]⟩,
    (C20_consistency_check_cannot_fail tableVector [] 3 scenarioUniqueMaps 1
      (scenarioLocDofMaps.getD 1 []) 1 6 { M_numerationInterface := [], l := 0, cout := [] }
      (2, 2) (by decide) (fun v g x => by simp [tableVector_read_assign])).1.trans (by decide),
    (C20_consistency_check_cannot_fail tableVector [] 3 scenarioUniqueMaps 1
      (scenarioLocDofMaps.getD 1 []) 1 6 { M_numerationInterface := [], l := 0, cout := [] }
      (2, 2) (by decide) (fun v g x => by simp [tableVector_read_assign])).2.2.2.2⟩

/-! ### C19 -/

/-- Two lists of pairs in strictly ascending order of the first component that hold the
same pairs are the same list: the iteration order of a `std::map` is fixed by its content. -/
theorem sorted_pairs_unique (loc loc2 : List (ID × ID))
    (hs : loc.Pairwise (fun a b => a.1 < b.1)) (hs2 : loc2.Pairwise (fun a b => a.1 < b.1))
    (hmem : ∀ e, e ∈ loc ↔ e ∈ loc2) : loc = loc2 := by
  have hnd : loc.Nodup :=
    hs.imp (fun {a b} hab heq => by rw [heq] at hab; exact Nat.lt_irrefl _ hab)
  have hnd2 : loc2.Nodup :=
    hs2.imp (fun {a b} hab heq => by rw [heq] at hab; exact Nat.lt_irrefl _ hab)
  have hperm : loc.Perm loc2 := (List.perm_ext_iff_of_nodup hnd hnd2).mpr hmem
  haveI : IsAntisymm (ID × ID) (fun a b => a.1 < b.1) :=
    ⟨fun a b h1 h2 => absurd h1 (Nat.lt_asymm h2)⟩
  exact List.eq_of_perm_of_sorted hperm hs hs2

theorem numeration_congr {V : Type} (vec : NumerationVector V) (owned owned2 : ID → Bool)
    (offset : Int) (nd : Nat) (es : List (ID × ID)) (s : NumerationState V)
    (h : ∀ e ∈ es, owned e.2 = owned2 e.2) :
    es.foldl (numerationStep vec owned offset nd) s
      = es.foldl (numerationStep vec owned2 offset nd) s := by
  apply List.foldl_ext
  intro a b hb
  simp [numerationStep, h b hb]

/-- The result of `constructInterfaceMap` is fixed by the counts of the ranks, the
ownership of the structure identifiers of the local map, and the local map. -/
theorem constructInterfaceMap_congr {V : Type} (vec : NumerationVector V) (fresh : V)
    (nd : Nat) (uniqueMaps uniqueMaps2 : List (List ID)) (pid : Nat) (loc : List (ID × ID))
    (hcounts : uniqueMaps.map NumMyElements = uniqueMaps2.map NumMyElements)
    (hown : ∀ e ∈ loc, ownedOn uniqueMaps pid e.2 = ownedOn uniqueMaps2 pid e.2) :
    constructInterfaceMap vec fresh nd uniqueMaps pid loc
      = constructInterfaceMap vec fresh nd uniqueMaps2 pid loc := by
  have hb : uniqueMaps.map (fun m => (NumMyElements m : Int))
      = uniqueMaps2.map (fun m => (NumMyElements m : Int)) := by
    have := congrArg (List.map (fun n : Nat => (n : Int))) hcounts
    simpa [List.map_map] using this
  have hg : NumGlobalElements uniqueMaps = NumGlobalElements uniqueMaps2 := by
    unfold NumGlobalElements
    rw [hcounts]
  have hfil : loc.filter (fun e => ownedOn uniqueMaps pid e.2)
      = loc.filter (fun e => ownedOn uniqueMaps2 pid e.2) :=
    List.filter_congr hown
  simp only [constructInterfaceMap, couplingLoop_eq, hb, hg, hfil,
    numeration_congr vec _ _ _ _ loc _ hown]

/-- C19: the numbering is a function of the pairs of the local map, the ownership test and
the counts of the ranks. Two local maps with the same pairs are iterated in the same
(ascending) order, and then equal counts and equal ownership of the structure identifiers
of the map give the same result of `constructInterfaceMap`. The `i`-th and the `j`-th owned
pair get the ids `offset + i` and `offset + j`, so the pair with the smaller fluid
identifier gets the smaller id; and every per-dimension pass of `couplingVector` follows
the same order of the owned pairs. -/
theorem C19_numbering_is_deterministic_and_ordered (nd : Nat)
    (uniqueMaps uniqueMaps2 : List (List ID)) (pid : Nat) (loc loc2 : List (ID × ID))
    (i j : Nat)
    (hs : loc.Pairwise (fun a b => a.1 < b.1)) (hs2 : loc2.Pairwise (fun a b => a.1 < b.1))
    (hmem : ∀ e, e ∈ loc ↔ e ∈ loc2)
    (hcounts : uniqueMaps.map NumMyElements = uniqueMaps2.map NumMyElements)
    (hown : ∀ e ∈ loc, ownedOn uniqueMaps pid e.2 = ownedOn uniqueMaps2 pid e.2)
    (hi : i < (loc.filter (fun e => ownedOn uniqueMaps pid e.2)).length)
    (hj : j < (loc.filter (fun e => ownedOn uniqueMaps pid e.2)).length)
    (hij : ((loc.filter (fun e => ownedOn uniqueMaps pid e.2)).get ⟨i, hi⟩).1
      < ((loc.filter (fun e => ownedOn uniqueMaps pid e.2)).get ⟨j, hj⟩).1) :
    constructInterfaceMap tableVector [] nd uniqueMaps pid loc
      = constructInterfaceMap tableVector [] nd uniqueMaps2 pid loc2 ∧
    (constructInterfaceMap tableVector [] nd uniqueMaps pid loc).M_numerationInterface.reverse[i]?
      = some (((loc.filter (fun e => ownedOn uniqueMaps pid e.2)).get ⟨i, hi⟩).2,
          i + ((offsetArray (uniqueMaps.map (fun m => (NumMyElements m : Int)))).getD
                pid 0).toNat / nd) ∧
    (constructInterfaceMap tableVector [] nd uniqueMaps pid loc).M_numerationInterface.reverse[j]?
      = some (((loc.filter (fun e => ownedOn uniqueMaps pid e.2)).get ⟨j, hj⟩).2,
          j + ((offsetArray (uniqueMaps.map (fun m => (NumMyElements m : Int)))).getD
                pid 0).toNat / nd) ∧
    i + ((offsetArray (uniqueMaps.map (fun m => (NumMyElements m : Int)))).getD pid 0).toNat / nd
      < j + ((offsetArray (uniqueMaps.map (fun m => (NumMyElements m : Int)))).getD
                pid 0).toNat / nd ∧
    (constructInterfaceMap tableVector [] nd uniqueMaps pid loc).couplingVector
      = (List.range nd).flatMap (fun dim =>
          (loc.filter (fun e => ownedOn uniqueMaps pid e.2)).map (fun e =>
            tableVector.read
              (constructInterfaceMap tableVector [] nd uniqueMaps pid loc).M_numerationInterface
              e.2 + dim * (NumGlobalElements uniqueMaps / nd))) := by
  have hloc : loc = loc2 := sorted_pairs_unique loc loc2 hs hs2 hmem
  have hsorted : (loc.filter (fun e => ownedOn uniqueMaps pid e.2)).Pairwise
      (fun a b => a.1 < b.1) := hs.sublist (List.filter_sublist _)
  have hlt : i < j := by
    by_contra hc
    rcases Nat.lt_or_ge j i with hji | hji
    · have h2 : ((loc.filter (fun e => ownedOn uniqueMaps pid e.2)).get ⟨j, hj⟩).1
          < ((loc.filter (fun e => ownedOn uniqueMaps pid e.2)).get ⟨i, hi⟩).1 :=
        (List.pairwise_iff_getElem.mp hsorted) j i hj hi hji
      exact Nat.lt_asymm hij h2
    · have heq : i = j := by omega
      subst heq
      exact Nat.lt_irrefl _ hij
  have hentry : ∀ k (hk : k < (loc.filter (fun e => ownedOn uniqueMaps pid e.2)).length),
      (constructInterfaceMap tableVector [] nd uniqueMaps pid
          loc).M_numerationInterface.reverse[k]?
        = some (((loc.filter (fun e => ownedOn uniqueMaps pid e.2)).get ⟨k, hk⟩).2,
            k + ((offsetArray (uniqueMaps.map (fun m => (NumMyElements m : Int)))).getD
                  pid 0).toNat / nd) := by
    intro k hk
    rw [constructInterfaceMap_table, List.getElem?_eq_getElem (by simpa using hk)]
    simp
  refine ⟨?_, hentry i hi, hentry j hj, by omega, constructInterfaceMap_coupling _ _ _ _ _ _⟩
  rw [← hloc]
  exact constructInterfaceMap_congr tableVector [] nd uniqueMaps uniqueMaps2 pid loc hcounts hown

/-- C19 on the second rank of the scenario with two ranks: listing the owned identifiers of
the unique map in another order changes nothing, and the pair with the fluid identifier 2
gets the id 2, smaller than the id 3 of the pair with the fluid identifier 3. -/
theorem C19_numbering_is_deterministic_and_ordered_witness :
    ((scenarioLocDofMaps.getD 1 []).Pairwise (fun a b => a.1 < b.1) ∧
      scenarioUniqueMaps.map NumMyElements
        = [[(1 : ID), 0, 11, 10, 21, 20], [3, 2, 13, 12, 23, 22]].map NumMyElements ∧
      (∀ e ∈ scenarioLocDofMaps.getD 1 [], ownedOn scenarioUniqueMaps 1 e.2
        = ownedOn [[1, 0, 11, 10, 21, 20], [3, 2, 13, 12, 23, 22]] 1 e.2)) ∧
    constructInterfaceMap tableVector [] 3 scenarioUniqueMaps 1 (scenarioLocDofMaps.getD 1 [])
      = constructInterfaceMap tableVector [] 3
          [[1, 0, 11, 10, 21, 20], [3, 2, 13, 12, 23, 22]] 1 (scenarioLocDofMaps.getD 1 []) ∧
    (constructInterfaceMap tableVector [] 3 scenarioUniqueMaps 1
        (scenarioLocDofMaps.getD 1 [])).M_numerationInterface.reverse[0]? = some (2, 2) ∧
    (constructInterfaceMap tableVector [] 3 scenarioUniqueMaps 1
        (scenarioLocDofMaps.getD 1 [])).M_numerationInterface.reverse[1]? = some (3, 3) :=
  ⟨⟨by decide, by decide, by decide⟩,
    (C19_numbering_is_deterministic_and_ordered 3 scenarioUniqueMaps
      [[1, 0, 11, 10, 21, 20], [3, 2, 13, 12, 23, 22]] 1 (scenarioLocDofMaps.getD 1 [])
      (scenarioLocDofMaps.getD 1 []) 0 1 (by decide) (by decide) (fun _ => Iff.rfl)
      (by decide) (by decide) (by decide) (by decide) (by decide)).1,
    (C19_numbering_is_deterministic_and_ordered 3 scenarioUniqueMaps
      [[1, 0, 11, 10, 21, 20], [3, 2, 13, 12, 23, 22]] 1 (scenarioLocDofMaps.getD 1 [])
      (scenarioLocDofMaps.getD 1 []) 0 1 (by decide) (by decide) (fun _ => Iff.rfl)
      (by decide) (by decide) (by decide) (by decide) (by decide)).2.1.trans (by decide),
    (C19_numbering_is_deterministic_and_ordered 3 scenarioUniqueMaps
      [[1, 0, 11, 10, 21, 20], [3, 2, 13, 12, 23, 22]] 1 (scenarioLocDofMaps.getD 1 [])
      (scenarioLocDofMaps.getD 1 []) 0 1 (by decide) (by decide) (fun _ => Iff.rfl)
      (by decide) (by decide) (by decide) (by decide) (by decide)).2.2.1.trans (by decide)⟩

/-! ### C11 -/

/-- C11, as stated, fails: on the small instance, with a linear solver whose `ApplyInverse`
returns the failure code -1, `solveJac` gives its caller the same state and the same
increment as with a solver that returns 0 for success. -/
theorem C11_solver_failure_is_not_reported :
    (sampleFailingExternal.applyInverse
        (solveJac sampleFailingExternal sampleState [0, 0, 0, 0, 0] [1, 2, 3, 4, 5]
          (1 / 10)).1.M_invOper [1, 2, 3, 4, 5] [0, 0, 0, 0, 0]).2 = -1 ∧
    (sampleExternal.applyInverse
        (solveJac sampleExternal sampleState [0, 0, 0, 0, 0] [1, 2, 3, 4, 5]
          (1 / 10)).1.M_invOper [1, 2, 3, 4, 5] [0, 0, 0, 0, 0]).2 = 0 ∧
    solveJac sampleFailingExternal sampleState [0, 0, 0, 0, 0] [1, 2, 3, 4, 5] (1 / 10)
      = solveJac sampleExternal sampleState [0, 0, 0, 0, 0] [1, 2, 3, 4, 5] (1 / 10) ∧
    (solveJac sampleFailingExternal sampleState [0, 0, 0, 0, 0] [1, 2, 3, 4, 5] (1 / 10)).2
      = [1, 2, 3, 4, 5] :=
  ⟨rfl, rfl, rfl, rfl⟩

/-- C11, amended: `solveJac` drops the value returned by `ApplyInverse`. Whatever code the
linear solver returns, the state after the call and the increment handed back are the
same, and the increment is the one the solver left. -/
theorem C11_solveJac_drops_the_solver_code {R Mat W PList : Type}
    (E : External R Mat W PList) (h : FSIState R Mat W PList) (increment residual : List R)
    (linearRelTol : R) (code : InvOper Mat PList → List R → List R → Int) :
    solveJac
        { E with applyInverse := fun inv r x => ((E.applyInverse inv r x).1, code inv r x) }
        h increment residual linearRelTol
      = solveJac E h increment residual linearRelTol ∧
    (solveJac E h increment residual linearRelTol).2
      = (E.applyInverse (solveJac E h increment residual linearRelTol).1.M_invOper
          residual increment).1 :=
  ⟨rfl, rfl⟩

/-! ### C13 -/

theorem range_map_getD {R : Type} [Zero R] (l : List R) :
    (List.range l.length).map (fun g => l.getD g 0) = l := by
  apply List.ext_getElem
  · simp
  · intro g h1 h2
    rw [List.getElem_map, List.getElem_range, List.getD_eq_getElem _ _ h2]

theorem subset_whole_getD {R : Type} [Zero R] (v : List R) (g : Nat) :
    (subset (List.replicate v.length (0 : R)) v v.length 0 0).getD g 0 = v.getD g 0 := by
  rw [subset_getD]
  by_cases hg : g < v.length
  · simp [hg]
  · simp only [List.length_replicate, hg, if_false]
    rw [List.getD_eq_getElem?_getD, List.getElem?_eq_none (by omega)]
    rfl

/-- With both vectors uniquely owned one call is enough. -/
theorem structureToInterface_unique {R : Type} [Zero R] (fuel : Nat)
    (gamma v : VectorEpetra R) (hv : v.mapType = MapEpetraType.Unique)
    (hg : gamma.mapType = MapEpetraType.Unique) :
    structureToInterface (fuel + 1) gamma v
      = some { mapType := gamma.mapType
               values := (List.range gamma.values.length).map (fun g => v.values.getD g 0) } := by
  simp only [structureToInterface, hv, hg, reduceCtorEq, if_false, VectorEpetra.assign,
    VectorEpetra.onMap, List.length_replicate, subset_whole_getD]

/-- With a uniquely owned structure vector two nested calls are enough. -/
theorem structureToInterface_structure_unique {R : Type} [Zero R] (fuel : Nat)
    (gamma v : VectorEpetra R) (hv : v.mapType = MapEpetraType.Unique) :
    structureToInterface (fuel + 2) gamma v
      = some { mapType := gamma.mapType
               values := (List.range gamma.values.length).map (fun g => v.values.getD g 0) } := by
  by_cases hg : gamma.mapType = MapEpetraType.Repeated
  · rw [structureToInterface]
    simp only [hv, hg, reduceCtorEq, if_false, if_true]
    rw [structureToInterface_unique fuel _ v hv rfl]
    have hl := range_map_getD
      ((List.range gamma.values.length).map (fun g => v.values.getD g 0))
    simp only [List.length_map, List.length_range] at hl
    simp only [VectorEpetra.assign, VectorEpetra.onMap, List.length_replicate, hl, hg]
  · have hu : gamma.mapType = MapEpetraType.Unique := by
      cases hc : gamma.mapType with
      | Unique => rfl
      | Repeated => exact absurd hc hg
    exact structureToInterface_unique (fuel + 1) gamma v hv hu

/-- Three nested calls are enough for every combination of the two modes. -/
theorem structureToInterface_closed {R : Type} [Zero R] (fuel : Nat)
    (gamma v : VectorEpetra R) :
    structureToInterface (fuel + 3) gamma v
      = some { mapType := gamma.mapType
               values := (List.range gamma.values.length).map (fun g => v.values.getD g 0) } := by
  cases hv : v.mapType with
  | Unique => exact structureToInterface_structure_unique (fuel + 1) gamma v hv
  | Repeated =>
    rw [structureToInterface]
    simp only [hv, if_true]
    exact structureToInterface_structure_unique fuel gamma
      (v.withMapType MapEpetraType.Unique) rfl

/-- C13: `structureToInterface` is a pointwise injection. For every interface vector and
every structure vector, whichever of the two is replicated or uniquely owned, the call
returns; the interface vector keeps its mode and its length, and for every identifier `g`
of its map that the structure vector has too, its entry `g` is the entry `g` of the
structure vector, unchanged (identifiers the structure vector does not have read zero). -/
theorem C13_structureToInterface_is_pointwise {R : Type} [Zero R]
    (gamma v : VectorEpetra R) (g : Nat)
    (hg : g < gamma.values.length) (hgv : g < v.values.length) :
    ∃ result, structureToInterface 3 gamma v = some result ∧
      result.mapType = gamma.mapType ∧
      result.values.length = gamma.values.length ∧
      result.values = (List.range gamma.values.length).map (fun k => v.values.getD k 0) ∧
      result.values[g]? = v.values[g]? := by
  refine ⟨_, structureToInterface_closed 0 gamma v, rfl, by simp, rfl, ?_⟩
  simp only [List.getElem?_map, List.getElem?_range hg, Option.map_some']
  rw [List.getD_eq_getElem _ _ hgv, List.getElem?_eq_getElem hgv]

/-- C13 on a replicated interface vector with two identifiers and a replicated structure
vector with three: the interface vector takes the first two structure values. -/
theorem C13_structureToInterface_is_pointwise_witness :
    (1 < ({ mapType := MapEpetraType.Repeated, values := [0, 0] } : VectorEpetra Int).values.length ∧
      1 < ({ mapType := MapEpetraType.Repeated, values := [4, 5, 6] }
        : VectorEpetra Int).values.length) ∧
    (∃ result, structureToInterface 3
        ({ mapType := MapEpetraType.Repeated, values := [0, 0] } : VectorEpetra Int)
        { mapType := MapEpetraType.Repeated, values := [4, 5, 6] } = some result ∧
      result.mapType = MapEpetraType.Repeated ∧
      result.values.length = 2 ∧
      result.values = (List.range 2).map (fun k => ([4, 5, 6] : List Int).getD k 0) ∧
      result.values[1]? = ([4, 5, 6] : List Int)[1]?) ∧
    structureToInterface 3
        ({ mapType := MapEpetraType.Repeated, values := [0, 0] } : VectorEpetra Int)
        { mapType := MapEpetraType.Repeated, values := [4, 5, 6] }
      = some { mapType := MapEpetraType.Repeated, values := [4, 5] } :=
  ⟨⟨by decide, by decide⟩,
    C13_structureToInterface_is_pointwise
      ({ mapType := MapEpetraType.Repeated, values := [0, 0] } : VectorEpetra Int)
      { mapType := MapEpetraType.Repeated, values := [4, 5, 6] } 1 (by decide) (by decide),
    by decide⟩

/-! ### C14 -/

theorem nearestWithin_none {P D : Type} [LinearOrder D] (dist : P → P → D) (tolerance : D)
    (p : P) (cs : List (ID × P)) :
    nearestWithin dist tolerance p cs = none ↔ ∀ c ∈ cs, ¬ dist p c.2 ≤ tolerance := by
  induction cs with
  | nil => simp [nearestWithin]
  | cons c cs ih =>
    rw [nearestWithin]
    cases hrec : nearestWithin dist tolerance p cs with
    | none =>
      have hall := ih.mp hrec
      by_cases hc : dist p c.2 ≤ tolerance
      · simp [hc]
      · simp only [hc, if_false, true_iff]
        intro d hd
        rcases List.mem_cons.mp hd with h1 | h1
        · rw [h1]; exact hc
        · exact hall d h1
    | some b =>
      have hex : ¬ ∀ d ∈ cs, ¬ dist p d.2 ≤ tolerance := by
        intro hall
        rw [ih.mpr hall] at hrec
        exact Option.noConfusion hrec
      by_cases hc : dist p c.2 ≤ tolerance ∧ dist p c.2 ≤ dist p b.2
      · simp only [hc, and_self, if_true, false_iff, reduceCtorEq]
        intro hall
        exact hall c (List.mem_cons_self _ _) hc.1
      · simp only [hc, if_false, false_iff, reduceCtorEq]
        intro hall
        exact hex (fun d hd => hall d (List.mem_cons_of_mem _ hd))

theorem nearestWithin_some {P D : Type} [LinearOrder D] (dist : P → P → D) (tolerance : D)
    (p : P) (cs : List (ID × P)) (b : ID × P)
    (h : nearestWithin dist tolerance p cs = some b) :
    b ∈ cs ∧ dist p b.2 ≤ tolerance ∧
      ∀ c ∈ cs, dist p c.2 ≤ tolerance → dist p b.2 ≤ dist p c.2 := by
  induction cs generalizing b with
  | nil => simp [nearestWithin] at h
  | cons c cs ih =>
    rw [nearestWithin] at h
    cases hrec : nearestWithin dist tolerance p cs with
    | none =>
      rw [hrec] at h
      have hall := (nearestWithin_none dist tolerance p cs).mp hrec
      by_cases hc : dist p c.2 ≤ tolerance
      · simp only [hc, if_true, Option.some.injEq] at h
        subst h
        refine ⟨List.mem_cons_self _ _, hc, ?_⟩
        intro d hd hdt
        rcases List.mem_cons.mp hd with h1 | h1
        · rw [h1]
        · exact absurd hdt (hall d h1)
      · simp [hc] at h
    | some b0 =>
      rw [hrec] at h
      obtain ⟨hmem, htol, hmin⟩ := ih b0 hrec
      by_cases hc : dist p c.2 ≤ tolerance ∧ dist p c.2 ≤ dist p b0.2
      · simp only [hc, and_self, if_true, Option.some.injEq] at h
        subst h
        refine ⟨List.mem_cons_self _ _, hc.1, ?_⟩
        intro d hd hdt
        rcases List.mem_cons.mp hd with h1 | h1
        · rw [h1]
        · exact le_trans hc.2 (hmin d h1 hdt)
      · simp only [hc, if_false, Option.some.injEq] at h
        subst h
        refine ⟨List.mem_cons_of_mem _ hmem, htol, ?_⟩
        intro d hd hdt
        rcases List.mem_cons.mp hd with h1 | h1
        · rw [h1]
          rw [h1] at hdt
          have hnot : ¬ dist p c.2 ≤ dist p b0.2 := fun hle => hc ⟨hdt, hle⟩
          exact le_of_lt (lt_of_not_le hnot)
        · exact hmin d h1 hdt

/-- A fluid-side node without a structure-side node within the tolerance makes the matching
fail. -/
theorem matchInterface_error {P D : Type} [LinearOrder D] (dist : P → P → D) (tolerance : D)
    (structureNodes fluidNodes : List (ID × P)) (f : ID × P) (hf : f ∈ fluidNodes)
    (hfar : ∀ c ∈ structureNodes, ¬ dist f.2 c.2 ≤ tolerance) :
    matchInterface dist tolerance structureNodes fluidNodes = Except.error noPartnerMessage := by
  induction fluidNodes with
  | nil => simp at hf
  | cons f0 fs ih =>
    rw [matchInterface]
    cases hn : nearestWithin dist tolerance f0.2 structureNodes with
    | none => rfl
    | some s =>
      have hne : f ≠ f0 := by
        intro heq
        rw [← heq, (nearestWithin_none dist tolerance f.2 structureNodes).mpr hfar] at hn
        exact Option.noConfusion hn
      have hin : f ∈ fs := by
        rcases List.mem_cons.mp hf with h1 | h1
        · exact absurd h1 hne
        · exact h1
      simp only [ih hin]

/-- Every pair of a successful matching joins a fluid-side node with the nearest of the
structure-side nodes within the tolerance. -/
theorem matchInterface_ok {P D : Type} [LinearOrder D] (dist : P → P → D) (tolerance : D)
    (structureNodes fluidNodes : List (ID × P)) (m : List (ID × ID))
    (h : matchInterface dist tolerance structureNodes fluidNodes = Except.ok m) :
    ∀ e ∈ m, ∃ f ∈ fluidNodes, ∃ s ∈ structureNodes,
      e = (f.1, s.1) ∧ dist f.2 s.2 ≤ tolerance ∧
      ∀ c ∈ structureNodes, dist f.2 c.2 ≤ tolerance → dist f.2 s.2 ≤ dist f.2 c.2 := by
  induction fluidNodes generalizing m with
  | nil =>
    simp only [matchInterface, Except.ok.injEq] at h
    subst h
    simp
  | cons f0 fs ih =>
    rw [matchInterface] at h
    cases hn : nearestWithin dist tolerance f0.2 structureNodes with
    | none => simp [hn] at h
    | some s =>
      simp only [hn] at h
      cases hrec : matchInterface dist tolerance structureNodes fs with
      | error e0 => simp [hrec] at h
      | ok m0 =>
        simp only [hrec, Except.ok.injEq] at h
        subst h
        obtain ⟨hsmem, hstol, hsmin⟩ := nearestWithin_some dist tolerance f0.2 structureNodes s hn
        intro e he
        rcases List.mem_cons.mp he with h1 | h1
        · exact ⟨f0, List.mem_cons_self _ _, s, hsmem, h1, hstol, hsmin⟩
        · obtain ⟨f, hf, s2, hs2, rest⟩ := ih m0 hrec e h1
          exact ⟨f, List.mem_cons_of_mem _ hf, s2, hs2, rest⟩

/-- When every fluid-side node has a structure-side node within the tolerance the matching
succeeds and pairs every fluid-side node. -/
theorem matchInterface_total {P D : Type} [LinearOrder D] (dist : P → P → D) (tolerance : D)
    (structureNodes fluidNodes : List (ID × P))
    (hnear : ∀ f ∈ fluidNodes, ∃ c ∈ structureNodes, dist f.2 c.2 ≤ tolerance) :
    ∃ m, matchInterface dist tolerance structureNodes fluidNodes = Except.ok m ∧
      m.map Prod.fst = fluidNodes.map Prod.fst := by
  induction fluidNodes with
  | nil => exact ⟨[], rfl, rfl⟩
  | cons f0 fs ih =>
    obtain ⟨m0, hm0, hkeys⟩ := ih (fun f hf => hnear f (List.mem_cons_of_mem _ hf))
    obtain ⟨c, hc, hct⟩ := hnear f0 (List.mem_cons_self _ _)
    cases hn : nearestWithin dist tolerance f0.2 structureNodes with
    | none =>
      exact absurd hct ((nearestWithin_none dist tolerance f0.2 structureNodes).mp hn c hc)
    | some s =>
      refine ⟨(f0.1, s.1) :: m0, ?_, ?_⟩
      · rw [matchInterface]
        simp only [hn, hm0]
      · simp [hkeys]

/-- C14: when some fluid-side interface node has every structure-side interface node
farther away than the tolerance, `buildInterfaceMaps` fails with the report of the matcher
and builds no map; whenever it succeeds, every pair of the local interface map joins a
fluid-side node and a structure-side node at a distance of at most the tolerance; and it
does succeed when every fluid-side node has a structure-side node within the tolerance. -/
theorem C14_unmatched_node_fails_and_pairs_are_near {P D : Type} [LinearOrder D]
    (dist : P → P → D) (tolerance : D) (fluidNodes structureNodes : List (ID × P))
    (nd NF NS : Nat) (uniqueMaps : List (List ID)) (pid : Nat) (f : ID × P)
    (hf : f ∈ fluidNodes) (hfar : ∀ c ∈ structureNodes, tolerance < dist f.2 c.2) :
    buildInterfaceMaps dist tolerance fluidNodes structureNodes nd NF NS uniqueMaps pid
      = Except.error noPartnerMessage ∧
    (∀ otherNodes result,
      buildInterfaceMaps dist tolerance otherNodes structureNodes nd NF NS uniqueMaps pid
        = Except.ok result →
      ∀ e ∈ result.1, ∃ g ∈ otherNodes, ∃ s ∈ structureNodes,
        e = (g.1, s.1) ∧ dist g.2 s.2 ≤ tolerance) ∧
    (∀ otherNodes, (∀ g ∈ otherNodes, ∃ c ∈ structureNodes, dist g.2 c.2 ≤ tolerance) →
      ∃ result,
        buildInterfaceMaps dist tolerance otherNodes structureNodes nd NF NS uniqueMaps pid
          = Except.ok result ∧
        result.1.map Prod.fst = otherNodes.map Prod.fst) := by
  refine ⟨?_, ?_, ?_⟩
  · have h := matchInterface_error dist tolerance structureNodes fluidNodes f hf
      (fun c hc => not_le_of_lt (hfar c hc))
    simp only [buildInterfaceMaps, h]
  · intro otherNodes result hres e he
    unfold buildInterfaceMaps at hres
    cases hm : matchInterface dist tolerance structureNodes otherNodes with
    | error e0 => simp [hm] at hres
    | ok m =>
      simp only [hm, Except.ok.injEq] at hres
      subst hres
      obtain ⟨g, hg, s, hs, heq, htol, _⟩ :=
        matchInterface_ok dist tolerance structureNodes otherNodes m hm e he
      exact ⟨g, hg, s, hs, heq, htol⟩
  · intro otherNodes hnear
    obtain ⟨m, hm, hkeys⟩ := matchInterface_total dist tolerance structureNodes otherNodes hnear
    refine ⟨(m, createInterfaceMaps nd NF NS m,
      constructInterfaceMap tableVector [] nd uniqueMaps pid m), ?_, hkeys⟩
    simp only [buildInterfaceMaps, hm]

/-- C14 with the tolerance 0 and a structure node moved by 1/1000000 along the first axis:
the matching fails. -/
theorem C14_unmatched_node_fails_and_pairs_are_near_witness :
    (((0 : ID), ((0 : ℚ), (0 : ℚ), (0 : ℚ))) ∈ [((0 : ID), ((0 : ℚ), (0 : ℚ), (0 : ℚ)))] ∧
      ∀ c ∈ [((0 : ID), ((1 : ℚ) / 1000000, (0 : ℚ), (0 : ℚ)))],
        (0 : ℚ) < distance1 (0, 0, 0) c.2) ∧
    buildInterfaceMaps distance1 0 [(0, (0, 0, 0))] [(0, (1 / 1000000, 0, 0))] 3 10 10
        [[0, 10, 20]] 0
      = Except.error noPartnerMessage :=
  ⟨⟨List.mem_singleton.mpr rfl, fun c hc => by
      rw [List.mem_singleton.mp hc]
      norm_num [distance1]⟩,
    (C14_unmatched_node_fails_and_pairs_are_near distance1 0 [(0, (0, 0, 0))]
      [(0, (1 / 1000000, 0, 0))] 3 10 10 [[0, 10, 20]] 0 (0, (0, 0, 0))
      (List.mem_singleton.mpr rfl) (fun c hc => by
        rw [List.mem_singleton.mp hc]
        norm_num [distance1])).1⟩

/-! ### The callbacks and the time step: what they leave untouched -/

theorem runCallbacks_rhs {R Mat W PList : Type} [Zero R] [Sub R] (E : External R Mat W PList)
    (h : FSIState R Mat W PList) (calls : List (NewtonCall R)) :
    (runCallbacks E h calls).M_rhsStructure = h.M_rhsStructure ∧
    (runCallbacks E h calls).M_rhsCouplingVelocities = h.M_rhsCouplingVelocities := by
  unfold runCallbacks
  induction calls generalizing h with
  | nil => exact ⟨rfl, rfl⟩
  | cons c cs ih =>
    rw [List.foldl_cons]
    cases c with
    | evalResidual residual solution iter_newton =>
      exact ih (evalResidual E h residual solution iter_newton).1
    | solveJac increment residual linearRelTol =>
      exact ih (solveJac E h increment residual linearRelTol).1

theorem runCallbacks_fixed_blocks {R Mat W PList : Type} [Zero R] [Sub R]
    (E : External R Mat W PList) (h : FSIState R Mat W PList) (calls : List (NewtonCall R)) :
    (runCallbacks E h calls).M_prec.filter PrecCall.isFixedBlock
      = h.M_prec.filter PrecCall.isFixedBlock := by
  unfold runCallbacks
  induction calls generalizing h with
  | nil => rfl
  | cons c cs ih =>
    rw [List.foldl_cons]
    cases c with
    | evalResidual residual solution iter_newton =>
      exact ih (evalResidual E h residual solution iter_newton).1
    | solveJac increment residual linearRelTol =>
      rw [ih (solveJac E h increment residual linearRelTol).1]
      simp [solveJac, PrecCall.isFixedBlock]

theorem updateSystem_prec {R Mat W PList : Type} [LinearOrderedField R]
    (X : TimeExternal R Mat W PList) (s : TimeLoopState R Mat W PList) :
    (updateSystem X s).core.M_prec = s.core.M_prec := rfl

theorem timeStep_fixed_blocks {R Mat W PList : Type} [LinearOrderedField R]
    (X : TimeExternal R Mat W PList) (E : External R Mat W PList)
    (s : TimeLoopState R Mat W PList) :
    (timeStep X E s).core.M_prec.filter PrecCall.isFixedBlock
      = s.core.M_prec.filter PrecCall.isFixedBlock := by
  have h := runCallbacks_fixed_blocks E (updateSystem X s).core
    (X.newton (updateSystem X s).core
      (applyBCsolution X (updateSystem X s).core (updateSystem X s).M_solution)
      (updateSystem X s).M_absoluteTolerance (updateSystem X s).M_relativeTolerance
      (updateSystem X s).M_maxiterNonlinear (updateSystem X s).M_etaMax
      (updateSystem X s).M_nonLinearLineSearch (updateSystem X s).core.M_time).calls
  rw [updateSystem_prec] at h
  exact h

theorem timeSteps_fixed_blocks {R Mat W PList : Type} [LinearOrderedField R]
    (X : TimeExternal R Mat W PList) (E : External R Mat W PList) (n : Nat)
    (s : TimeLoopState R Mat W PList) :
    (timeSteps X E n s).core.M_prec.filter PrecCall.isFixedBlock
      = s.core.M_prec.filter PrecCall.isFixedBlock := by
  induction n generalizing s with
  | zero => rfl
  | succ n ih =>
    rw [timeSteps, ih]
    exact timeStep_fixed_blocks X E s

/-- When the time loop ends within the bound, it has made a number of turns that is at most
the bound. -/
theorem timeLoop_some {R Mat W PList : Type} [LinearOrderedField R]
    (X : TimeExternal R Mat W PList) (E : External R Mat W PList) (fuel : Nat)
    (s result : TimeLoopState R Mat W PList) (h : timeLoop X E fuel s = some result) :
    ∃ n, n ≤ fuel ∧ result = timeSteps X E n s := by
  induction fuel generalizing s with
  | zero =>
    rw [timeLoop] at h
    by_cases hc : s.core.M_time ≤ s.M_t_end + s.M_dt / 2
    · simp [hc] at h
    · simp only [hc, if_false, Option.some.injEq] at h
      exact ⟨0, Nat.le_refl _, h.symm⟩
  | succ fuel ih =>
    rw [timeLoop] at h
    by_cases hc : s.core.M_time ≤ s.M_t_end + s.M_dt / 2
    · simp only [hc, if_true] at h
      obtain ⟨n, hn, hres⟩ := ih (timeLoopBody X E s) h
      exact ⟨n + 1, Nat.succ_le_succ hn, hres⟩
    · simp only [hc, if_false, Option.some.injEq] at h
      exact ⟨0, Nat.zero_le _, h.symm⟩

/-! ### C12 -/

theorem runCallbacks_frame {R Mat W PList : Type} [Zero R] [Sub R] (E : External R Mat W PList)
    (h : FSIState R Mat W PList) (calls : List (NewtonCall R)) :
    (runCallbacks E h calls).M_time = h.M_time ∧
    (runCallbacks E h calls).nu = h.nu ∧
    (runCallbacks E h calls).np = h.np ∧
    (runCallbacks E h calls).ns = h.ns ∧
    (runCallbacks E h calls).nl = h.nl ∧
    (runCallbacks E h calls).na = h.na := by
  unfold runCallbacks
  induction calls generalizing h with
  | nil => exact ⟨rfl, rfl, rfl, rfl, rfl, rfl⟩
  | cons c cs ih =>
    rw [List.foldl_cons]
    cases c with
    | evalResidual residual solution iter_newton =>
      exact ih (evalResidual E h residual solution iter_newton).1
    | solveJac increment residual linearRelTol =>
      exact ih (solveJac E h increment residual linearRelTol).1

/-- C17, as stated, fails: on the small instance `evalResidual` leaves the structure
right-hand side 7 and the coupling right-hand side 9 of the state where they are, while a
re-assembly at that moment (`getRhsStructure`, `updateRhsCouplingVelocities`) would give
1 and 0. -/
theorem C17_evalResidual_does_not_reassemble :
    (evalResidual sampleExternal sampleState [0, 0, 0, 0, 0] [1, 2, 3, 4, 5] 0).1.M_rhsStructure
      = [7] ∧
    (evalResidual sampleExternal sampleState [0, 0, 0, 0, 0] [1, 2, 3, 4, 5]
        0).1.M_rhsCouplingVelocities = [9] ∧
    (getRhsStructure sampleTimeExternal
        { sampleTimeState with
          core := (evalResidual sampleExternal sampleState [0, 0, 0, 0, 0] [1, 2, 3, 4, 5]
            0).1 }).core.M_rhsStructure = [1] ∧
    (updateRhsCouplingVelocities sampleTimeExternal
        { sampleTimeState with
          core := (evalResidual sampleExternal sampleState [0, 0, 0, 0, 0] [1, 2, 3, 4, 5]
            0).1 }).core.M_rhsCouplingVelocities = [0] := by
  refine ⟨rfl, rfl, ?_, ?_⟩
  · simp [getRhsStructure, sampleTimeExternal, sampleTimeState, evalResidual,
      initializeApplyOperator, sampleState, vectorPlusAssign, List.range_succ]
  · simp [updateRhsCouplingVelocities, sampleTimeExternal, sampleTimeState, evalResidual,
      initializeApplyOperator, sampleState, vectorPlusAssign, structureToInterface,
      VectorEpetra.onMap, VectorEpetra.assign, subset]

/-- C17, amended: `evalResidual` neither re-assembles the structure right-hand side nor
recomputes the coupling right-hand side: it leaves both members as it finds them, as do
all the calls the Newton driver makes on the callbacks; only the fluid right-hand side is
taken anew from the fluid solver. The two members are written by `updateSystem`
(`getRhsStructure`, `updateRhsCouplingVelocities`), which the time loop calls once per time
step before it calls the driver, so every residual of the step is formed with them. -/
theorem C17_rhs_are_assembled_once_per_time_step {R Mat W PList : Type}
    [LinearOrderedField R] (X : TimeExternal R Mat W PList) (E : External R Mat W PList)
    (h : FSIState R Mat W PList) (s : TimeLoopState R Mat W PList)
    (residual solution : List R) (iter_newton : Nat) (calls : List (NewtonCall R)) :
    (evalResidual E h residual solution iter_newton).1.M_rhsStructure = h.M_rhsStructure ∧
    (evalResidual E h residual solution iter_newton).1.M_rhsCouplingVelocities
      = h.M_rhsCouplingVelocities ∧
    (evalResidual E h residual solution iter_newton).1.M_rhsFluid
      = E.getRhs (evalResidual E h residual solution iter_newton).1.world ∧
    (runCallbacks E h calls).M_rhsStructure = h.M_rhsStructure ∧
    (runCallbacks E h calls).M_rhsCouplingVelocities = h.M_rhsCouplingVelocities ∧
    (updateSystem X s).core.M_rhsStructure
      = X.bcManageRhs
          (vectorPlusAssign (List.replicate s.core.ns 0)
            ((X.massMatrixTimes (X.rhsContributionSecondDerivative
                (s.M_structureTimeAdvance ++ [TACall.updateRHSContribution s.M_dt]
                  ++ [TACall.updateRHSContribution s.M_dt]))).map
              (fun x => x / (X.coefficientSecondDerivative
                (s.M_structureTimeAdvance ++ [TACall.updateRHSContribution s.M_dt])
                  / (s.M_dt * s.M_dt)))))
          Field.solid Field.solid Field.solid Field.solid 1 s.core.M_time ∧
    (updateSystem X s).core.M_rhsCouplingVelocities
      = (vectorPlusAssign (List.replicate s.core.na 0)
          ((structureToInterface 3 (VectorEpetra.onMap s.core.nl MapEpetraType.Unique)
              { mapType := MapEpetraType.Unique
                values := X.rhsContributionFirstDerivative
                  (s.M_structureTimeAdvance ++ [TACall.updateRHSContribution s.M_dt]
                    ++ [TACall.updateRHSContribution s.M_dt]) }).getD
            (VectorEpetra.onMap s.core.nl MapEpetraType.Unique)).values).map
          (fun x => x * (-1)) ∧
    (timeStep X E s).core.M_rhsStructure = (updateSystem X s).core.M_rhsStructure ∧
    (timeStep X E s).core.M_rhsCouplingVelocities
      = (updateSystem X s).core.M_rhsCouplingVelocities := by
  have hrun := runCallbacks_rhs E (updateSystem X s).core
    (X.newton (updateSystem X s).core
      (applyBCsolution X (updateSystem X s).core (updateSystem X s).M_solution)
      (updateSystem X s).M_absoluteTolerance (updateSystem X s).M_relativeTolerance
      (updateSystem X s).M_maxiterNonlinear (updateSystem X s).M_etaMax
      (updateSystem X s).M_nonLinearLineSearch (updateSystem X s).core.M_time).calls
  exact ⟨rfl, rfl, rfl, (runCallbacks_rhs E h calls).1, (runCallbacks_rhs E h calls).2,
    rfl, rfl, hrun.1, hrun.2⟩

/-! ### C18 -/

/-- C18: a call of `solveJac` makes four calls on the preconditioner, `setFluidBlocks`,
`setDomainMap`, `setRangeMap` and one `updateApproximatedFluidOperator`; none of them sets
or approximates the structure block, the geometry block or the coupling blocks, and
`evalResidual` makes no call on the preconditioner. `solveFSIproblem` sets and approximates
the structure block, sets and approximates the geometry block and sets the coupling blocks
once each before the time loop; after any number of turns of the loop, and at the end of
`solveFSIproblem`, the calls of this kind are still the ones found before plus these. -/
theorem C18_fixed_blocks_are_set_once {R Mat W PList : Type} [LinearOrderedField R]
    (X : TimeExternal R Mat W PList) (E : External R Mat W PList)
    (h : FSIState R Mat W PList) (s : TimeLoopState R Mat W PList)
    (increment residual solution : List R) (linearRelTol : R) (iter_newton n : Nat) :
    (solveJac E h increment residual linearRelTol).1.M_prec
      = h.M_prec ++
          [PrecCall.setFluidBlocks (E.getF h.world) (E.getBtranspose h.world) (E.getB h.world),
            PrecCall.setDomainMap, PrecCall.setRangeMap,
            PrecCall.updateApproximatedFluidOperator] ∧
    (solveJac E h increment residual linearRelTol).1.M_prec
      = h.M_prec ++ solveJacPrecCalls E h.world ∧
    (solveJacPrecCalls E h.world).filter PrecCall.isFixedBlock = [] ∧
    (evalResidual E h residual solution iter_newton).1.M_prec = h.M_prec ∧
    (solveFSIproblemStart X s).core.M_prec
      = s.core.M_prec ++
          [PrecCall.setStructureBlock (X.matrixStructure (s.M_t_zero + s.M_dt)),
            PrecCall.updateApproximatedStructureMomentumOperator,
            PrecCall.setGeometryBlock (X.aleApplyBoundaryConditions s.core.aleMatrix),
            PrecCall.updateApproximatedGeometryOperator,
            PrecCall.setCouplingBlocks s.core.lambdaToFluidMomentum
              s.core.lambdaToStructureMomentum s.core.structureDisplacementToLambda
              s.core.fluidVelocityToLambda s.core.structureDisplacementToFluidDisplacement,
            PrecCall.setMonolithicMap] ∧
    (timeSteps X E n (solveFSIproblemStart X s)).core.M_prec.filter PrecCall.isFixedBlock
      = s.core.M_prec.filter PrecCall.isFixedBlock ++
          [PrecCall.setStructureBlock (X.matrixStructure (s.M_t_zero + s.M_dt)),
            PrecCall.updateApproximatedStructureMomentumOperator,
            PrecCall.setGeometryBlock (X.aleApplyBoundaryConditions s.core.aleMatrix),
            PrecCall.updateApproximatedGeometryOperator,
            PrecCall.setCouplingBlocks s.core.lambdaToFluidMomentum
              s.core.lambdaToStructureMomentum s.core.structureDisplacementToLambda
              s.core.fluidVelocityToLambda s.core.structureDisplacementToFluidDisplacement,
            PrecCall.setMonolithicMap] ∧
    (∀ fuel result, solveFSIproblem X E fuel s = some result →
      result.core.M_prec.filter PrecCall.isFixedBlock
        = s.core.M_prec.filter PrecCall.isFixedBlock ++
            [PrecCall.setStructureBlock (X.matrixStructure (s.M_t_zero + s.M_dt)),
              PrecCall.updateApproximatedStructureMomentumOperator,
              PrecCall.setGeometryBlock (X.aleApplyBoundaryConditions s.core.aleMatrix),
              PrecCall.updateApproximatedGeometryOperator,
              PrecCall.setCouplingBlocks s.core.lambdaToFluidMomentum
                s.core.lambdaToStructureMomentum s.core.structureDisplacementToLambda
                s.core.fluidVelocityToLambda s.core.structureDisplacementToFluidDisplacement,
              PrecCall.setMonolithicMap]) := by
  have hstart : (solveFSIproblemStart X s).core.M_prec.filter PrecCall.isFixedBlock
      = s.core.M_prec.filter PrecCall.isFixedBlock ++
          [PrecCall.setStructureBlock (X.matrixStructure (s.M_t_zero + s.M_dt)),
            PrecCall.updateApproximatedStructureMomentumOperator,
            PrecCall.setGeometryBlock (X.aleApplyBoundaryConditions s.core.aleMatrix),
            PrecCall.updateApproximatedGeometryOperator,
            PrecCall.setCouplingBlocks s.core.lambdaToFluidMomentum
              s.core.lambdaToStructureMomentum s.core.structureDisplacementToLambda
              s.core.fluidVelocityToLambda s.core.structureDisplacementToFluidDisplacement,
            PrecCall.setMonolithicMap] := by
    simp [solveFSIproblemStart, PrecCall.isFixedBlock]
  refine ⟨?_, ?_, rfl, rfl, rfl, ?_, ?_⟩
  · simp [solveJac]
  · simp [solveJac, solveJacPrecCalls]
  · rw [timeSteps_fixed_blocks, hstart]
  · intro fuel result hres
    unfold solveFSIproblem at hres
    cases hloop : timeLoop X E fuel (solveFSIproblemStart X s) with
    | none => simp [hloop] at hres
    | some s1 =>
      simp only [hloop, Option.map_some', Option.some.injEq] at hres
      obtain ⟨k, _, hk⟩ := timeLoop_some X E fuel _ s1 hloop
      rw [← hres]
      show s1.core.M_prec.filter PrecCall.isFixedBlock = _
      rw [hk, timeSteps_fixed_blocks, hstart]

theorem timeLoopBody_time {R Mat W PList : Type} [LinearOrderedField R]
    (X : TimeExternal R Mat W PList) (E : External R Mat W PList)
    (s : TimeLoopState R Mat W PList) :
    (timeLoopBody X E s).core.M_time = s.core.M_time + s.M_dt ∧
    (timeLoopBody X E s).M_dt = s.M_dt ∧
    (timeLoopBody X E s).M_t_end = s.M_t_end := by
  have hf := runCallbacks_frame E (updateSystem X s).core
    (X.newton (updateSystem X s).core
      (applyBCsolution X (updateSystem X s).core (updateSystem X s).M_solution)
      (updateSystem X s).M_absoluteTolerance (updateSystem X s).M_relativeTolerance
      (updateSystem X s).M_maxiterNonlinear (updateSystem X s).M_etaMax
      (updateSystem X s).M_nonLinearLineSearch (updateSystem X s).core.M_time).calls
  refine ⟨?_, rfl, rfl⟩
  show (runCallbacks E (updateSystem X s).core _).M_time + s.M_dt = s.core.M_time + s.M_dt
  rw [hf.1]
  rfl

theorem timeLoop_turn {R Mat W PList : Type} [LinearOrderedField R]
    (X : TimeExternal R Mat W PList) (E : External R Mat W PList) (fuel : Nat)
    (s : TimeLoopState R Mat W PList) (hc : s.core.M_time ≤ s.M_t_end + s.M_dt / 2) :
    timeLoop X E (fuel + 1) s = timeLoop X E fuel (timeLoopBody X E s) := by
  rw [timeLoop, if_pos hc]

theorem timeLoop_stop {R Mat W PList : Type} [LinearOrderedField R]
    (X : TimeExternal R Mat W PList) (E : External R Mat W PList) (fuel : Nat)
    (s : TimeLoopState R Mat W PList) (hc : ¬ s.core.M_time ≤ s.M_t_end + s.M_dt / 2) :
    timeLoop X E fuel s = some s := by
  cases fuel with
  | zero => rw [timeLoop, if_neg hc]
  | succ fuel => rw [timeLoop, if_neg hc]

/-- On the small instance (time step 1 from time 0 to time 2) the time loop makes two turns
and ends. -/
theorem sample_timeLoop :
    timeLoop sampleTimeExternal sampleExternal 2
        (solveFSIproblemStart sampleTimeExternal sampleTimeState)
      = some (timeSteps sampleTimeExternal sampleExternal 2
          (solveFSIproblemStart sampleTimeExternal sampleTimeState)) := by
  have t0 : (solveFSIproblemStart sampleTimeExternal sampleTimeState).core.M_time = 0 + 1 := rfl
  have d0 : (solveFSIproblemStart sampleTimeExternal sampleTimeState).M_dt = 1 := rfl
  have e0 : (solveFSIproblemStart sampleTimeExternal sampleTimeState).M_t_end = 2 := rfl
  obtain ⟨t1, d1, e1⟩ := timeLoopBody_time sampleTimeExternal sampleExternal
    (solveFSIproblemStart sampleTimeExternal sampleTimeState)
  obtain ⟨t2, d2, e2⟩ := timeLoopBody_time sampleTimeExternal sampleExternal
    (timeLoopBody sampleTimeExternal sampleExternal
      (solveFSIproblemStart sampleTimeExternal sampleTimeState))
  rw [timeLoop_turn _ _ _ _ (by rw [t0, d0, e0]; norm_num),
    timeLoop_turn _ _ _ _ (by rw [t1, d1, e1, t0, d0, e0]; norm_num),
    timeLoop_stop _ _ _ _ (by rw [t2, d2, e2, t1, d1, e1, t0, d0, e0]; norm_num)]
  rfl

/-- C18 on the small instance: `solveFSIproblem` ends after two time steps, in which the
driver calls `solveJac` twice, and the calls on the preconditioner that concern the
structure, geometry and coupling blocks are the six of the start. -/
theorem C18_fixed_blocks_are_set_once_witness :
    ∃ result, solveFSIproblem sampleTimeExternal sampleExternal 2 sampleTimeState = some result ∧
      result.core.M_prec.filter PrecCall.isFixedBlock
        = [PrecCall.setStructureBlock 11,
            PrecCall.updateApproximatedStructureMomentumOperator,
            PrecCall.setGeometryBlock 12,
            PrecCall.updateApproximatedGeometryOperator,
            PrecCall.setCouplingBlocks 3 4 5 6 7,
            PrecCall.setMonolithicMap] := by
  have hret : ∃ result,
      solveFSIproblem sampleTimeExternal sampleExternal 2 sampleTimeState = some result := by
    unfold solveFSIproblem
    rw [sample_timeLoop]
    exact ⟨_, rfl⟩
  obtain ⟨result, hres⟩ := hret
  exact ⟨result, hres,
    (C18_fixed_blocks_are_set_once sampleTimeExternal sampleExternal sampleState
      sampleTimeState [] [] [] 0 0 0).2.2.2.2.2.2 2 result hres⟩

/-! ## The inflow function -/

theorem inflowFunction_eq {R : Type} [LinearOrderedField R] (t x y z : R) :
    inflowFunction t x y z 0 = 1 / 10 * min (t / (3 / 20)) 1 := by
  unfold inflowFunction
  by_cases ht : t < 3 / 20
  · have h1 : t / (3 / 20) ≤ 1 := by
      rw [div_le_one (by norm_num)]; exact le_of_lt ht
    have h2 : ¬ (t ≥ 3 / 20) := not_le.mpr ht
    norm_num [ht, h2, min_eq_left h1]
    ring
  · have h1 : 1 ≤ t / (3 / 20) := by
      rw [one_le_div (by norm_num)]; exact not_lt.mp ht
    have h2 : t ≥ 3 / 20 := not_lt.mp ht
    norm_num [ht, h2, min_eq_right h1]

/-- C27: over exact arithmetic `inflowFunction (t, x, y, z, i)` is `0.1 * min (t / 0.15, 1)`
for the component 0 and 0 for every other component. The two branches of the ramp agree at
`t = 0.15`, where the value is 0.1; from there on the value stays 0.1; the value does not
decrease when `t` grows, and it does not depend on the position. -/
theorem C27_inflow_is_a_linear_ramp_capped_at_one_tenth {R : Type} [LinearOrderedField R]
    (t x y z : R) (i : ID) :
    inflowFunction t x y z i = (if i = 0 then 0.1 * min (t / 0.15) 1 else 0)
    ∧ inflowFunction (0.15 : R) x y z 0 = 0.1
    ∧ (1 * (0.1 : R) * 0.15 / 0.15 = 1 * 0.1)
    ∧ (0.15 ≤ t → inflowFunction t x y z 0 = 0.1)
    ∧ (∀ t2 : R, t ≤ t2 → inflowFunction t x y z i ≤ inflowFunction t2 x y z i)
    ∧ (∀ x2 y2 z2 : R, inflowFunction t x2 y2 z2 i = inflowFunction t x y z i) := by
  have hother : ∀ (s a b c : R), i ≠ 0 → inflowFunction s a b c i = 0 := by
    intro s a b c hi
    simp [inflowFunction, hi]
  refine ⟨?_, ?_, ?_, ?_, ?_, ?_⟩
  · by_cases hi : i = 0
    · subst hi
      rw [inflowFunction_eq, if_pos rfl]
      norm_num
    · rw [hother _ _ _ _ hi, if_neg hi]
  · rw [inflowFunction_eq]
    norm_num
  · norm_num
  · intro ht
    rw [inflowFunction_eq]
    have h1 : 1 ≤ t / (3 / 20) := by
      rw [one_le_div (by norm_num)]; norm_num at ht; exact ht
    rw [min_eq_right h1]
    norm_num
  · intro t2 ht
    by_cases hi : i = 0
    · subst hi
      rw [inflowFunction_eq, inflowFunction_eq]
      have h3 : t / (3 / 20) ≤ t2 / (3 / 20) := by
        apply div_le_div_of_nonneg_right ht (by norm_num)
      exact mul_le_mul_of_nonneg_left (min_le_min h3 le_rfl) (by norm_num)
    · rw [hother _ _ _ _ hi, hother _ _ _ _ hi]
  · intro x2 y2 z2
    rfl

theorem C27_inflow_is_a_linear_ramp_capped_at_one_tenth_witness :
    inflowFunction (3 / 10 : ℚ) 1 2 3 0 = 0.1
    ∧ inflowFunction (3 / 40 : ℚ) 1 2 3 0 ≤ inflowFunction (3 / 10 : ℚ) 1 2 3 0 :=
  ⟨(C27_inflow_is_a_linear_ramp_capped_at_one_tenth (3 / 10 : ℚ) 1 2 3 0).2.2.2.1
      (by norm_num),
    (C27_inflow_is_a_linear_ramp_capped_at_one_tenth (3 / 40 : ℚ) 1 2 3 0).2.2.2.2.1
      (3 / 10) (by norm_num)⟩

/-! ## The nesting of `structureToInterface` -/

theorem structureToInterfaceCalls_eq {R : Type} [Zero R] (fuel : Nat)
    (gamma v : VectorEpetra R) :
    structureToInterfaceCalls (fuel + 3) gamma v
      = (if v.mapType = MapEpetraType.Repeated
          then [(gamma.mapType, MapEpetraType.Repeated)] else [])
        ++ (if gamma.mapType = MapEpetraType.Repeated
          then [(MapEpetraType.Repeated, MapEpetraType.Unique)] else [])
        ++ [(MapEpetraType.Unique, MapEpetraType.Unique)] := by
  rcases gamma with ⟨gm, gv⟩
  rcases v with ⟨vm, vv⟩
  cases gm <;> cases vm <;>
    simp [structureToInterfaceCalls, VectorEpetra.withMapType, VectorEpetra.onMap]

/-- C26: `structureToInterface` returns for every combination of the modes of its two
arguments. With a replicated structure vector the call makes one nested call, on the same
interface vector and a uniquely owned copy of the structure vector; otherwise, with a
replicated interface vector, it makes one nested call, on a uniquely owned interface vector
and the same structure vector. The calls one call leads to are at most three (the nesting
is at most two deep), the last of them runs with both vectors uniquely owned and makes no
call, and with both vectors replicated two calls are not enough. -/
theorem C26_structureToInterface_nests_at_most_twice {R : Type} [Zero R] (fuel : Nat)
    (gamma v : VectorEpetra R) :
    (∃ result, structureToInterface (fuel + 3) gamma v = some result)
    ∧ (v.mapType = MapEpetraType.Repeated →
        structureToInterface (fuel + 1) gamma v
          = structureToInterface fuel gamma (v.withMapType MapEpetraType.Unique)
        ∧ (v.withMapType MapEpetraType.Unique).mapType = MapEpetraType.Unique)
    ∧ (v.mapType = MapEpetraType.Unique → gamma.mapType = MapEpetraType.Repeated →
        structureToInterface (fuel + 1) gamma v
          = (structureToInterface fuel
              (VectorEpetra.onMap gamma.values.length MapEpetraType.Unique) v).map
              (fun filled => gamma.assign filled)
        ∧ (VectorEpetra.onMap gamma.values.length MapEpetraType.Unique :
            VectorEpetra R).mapType = MapEpetraType.Unique)
    ∧ (v.mapType = MapEpetraType.Unique → gamma.mapType = MapEpetraType.Unique →
        structureToInterfaceCalls (fuel + 1) gamma v
          = [(MapEpetraType.Unique, MapEpetraType.Unique)]
        ∧ ∃ result, structureToInterface (fuel + 1) gamma v = some result)
    ∧ structureToInterfaceCalls (fuel + 3) gamma v
      = (if v.mapType = MapEpetraType.Repeated
          then [(gamma.mapType, MapEpetraType.Repeated)] else [])
        ++ (if gamma.mapType = MapEpetraType.Repeated
          then [(MapEpetraType.Repeated, MapEpetraType.Unique)] else [])
        ++ [(MapEpetraType.Unique, MapEpetraType.Unique)]
    ∧ (structureToInterfaceCalls (fuel + 3) gamma v).length ≤ 3
    ∧ (structureToInterfaceCalls (fuel + 3) gamma v).getLast?
      = some (MapEpetraType.Unique, MapEpetraType.Unique)
    ∧ (v.mapType = MapEpetraType.Repeated → gamma.mapType = MapEpetraType.Repeated →
        structureToInterface 2 gamma v = none) := by
  refine ⟨⟨_, structureToInterface_closed fuel gamma v⟩, ?_, ?_, ?_,
    structureToInterfaceCalls_eq fuel gamma v, ?_, ?_, ?_⟩
  · intro hv
    refine ⟨?_, rfl⟩
    rw [structureToInterface]
    simp only [hv, if_true]
  · intro hv hg
    refine ⟨?_, rfl⟩
    rw [structureToInterface]
    simp only [hv, hg, reduceCtorEq, if_false, if_true]
    cases structureToInterface fuel
      (VectorEpetra.onMap gamma.values.length MapEpetraType.Unique) v <;> rfl
  · intro hv hg
    refine ⟨?_, _, structureToInterface_unique fuel gamma v hv hg⟩
    rw [structureToInterfaceCalls]
    simp only [hv, hg, reduceCtorEq, if_false]
  · rw [structureToInterfaceCalls_eq]
    by_cases hv : v.mapType = MapEpetraType.Repeated <;>
      by_cases hg : gamma.mapType = MapEpetraType.Repeated <;> simp [hv, hg]
  · rw [structureToInterfaceCalls_eq]
    simp
  · intro hv hg
    simp [structureToInterface, hv, hg, VectorEpetra.withMapType, VectorEpetra.onMap]

/-- C26 on a replicated interface vector and a replicated structure vector: three calls,
the second with a uniquely owned structure vector, the third with both uniquely owned. -/
theorem C26_structureToInterface_nests_at_most_twice_witness :
    structureToInterface 1
        ({ mapType := MapEpetraType.Repeated, values := [0, 0] } : VectorEpetra Int)
        { mapType := MapEpetraType.Repeated, values := [4, 5, 6] }
      = structureToInterface 0
        ({ mapType := MapEpetraType.Repeated, values := [0, 0] } : VectorEpetra Int)
        { mapType := MapEpetraType.Unique, values := [4, 5, 6] }
    ∧ structureToInterface 2
        ({ mapType := MapEpetraType.Repeated, values := [0, 0] } : VectorEpetra Int)
        { mapType := MapEpetraType.Repeated, values := [4, 5, 6] } = none
    ∧ structureToInterfaceCalls 3
        ({ mapType := MapEpetraType.Repeated, values := [0, 0] } : VectorEpetra Int)
        { mapType := MapEpetraType.Repeated, values := [4, 5, 6] }
      = [(MapEpetraType.Repeated, MapEpetraType.Repeated),
          (MapEpetraType.Repeated, MapEpetraType.Unique),
          (MapEpetraType.Unique, MapEpetraType.Unique)] :=
  ⟨((C26_structureToInterface_nests_at_most_twice 0
      ({ mapType := MapEpetraType.Repeated, values := [0, 0] } : VectorEpetra Int)
      { mapType := MapEpetraType.Repeated, values := [4, 5, 6] }).2.1 rfl).1,
    (C26_structureToInterface_nests_at_most_twice 0
      ({ mapType := MapEpetraType.Repeated, values := [0, 0] } : VectorEpetra Int)
      { mapType := MapEpetraType.Repeated, values := [4, 5, 6] }).2.2.2.2.2.2.2 rfl rfl,
    by decide⟩

/-! ## The frame of `applyBCsolution` -/

theorem ext_getD_zero {R : Type} [Zero R] (a b : List R) (hl : a.length = b.length)
    (h : ∀ g, a.getD g 0 = b.getD g 0) : a = b := by
  apply List.ext_getElem hl
  intro n h1 h2
  have hn := h n
  rw [List.getD_eq_getElem _ _ h1, List.getD_eq_getElem _ _ h2] at hn
  exact hn

theorem getD_beyond {R : Type} [Zero R] (a : List R) (g : Nat) (hg : ¬ g < a.length) :
    a.getD g 0 = 0 := by
  rw [List.getD_eq_getElem?_getD, List.getElem?_eq_none (by omega)]
  rfl

/-- The block of `mapSize` entries taken out of a vector at an offset. -/
theorem block_getD {R : Type} [Zero R] (v : List R) (mapSize offset g : Nat) :
    (subset (List.replicate mapSize 0) v mapSize offset 0).getD g 0
      = if g < mapSize then v.getD (g + offset) 0 else 0 := by
  rw [subset_getD, List.length_replicate]
  by_cases hg : g < mapSize
  · have h2 : 0 ≤ g ∧ g < 0 + mapSize := ⟨Nat.zero_le _, by omega⟩
    rw [if_pos hg, if_pos hg, if_pos h2, Nat.sub_zero]
  · rw [if_neg hg, if_neg hg]

theorem block_congr {R : Type} [Zero R] (a b : List R) (mapSize offset : Nat)
    (h : ∀ k, k < mapSize → a.getD (k + offset) 0 = b.getD (k + offset) 0) :
    subset (List.replicate mapSize 0) a mapSize offset 0
      = subset (List.replicate mapSize 0) b mapSize offset 0 := by
  apply ext_getD_zero
  · rw [subset_length, subset_length]
  · intro g
    rw [block_getD, block_getD]
    by_cases hg : g < mapSize
    · rw [if_pos hg, if_pos hg, h g hg]
    · rw [if_neg hg, if_neg hg]

/-- The entries of a vector after three blocks were written into it, the first at the
offset 0. -/
theorem three_writes_getD {R : Type} [Zero R] (v b1 b2 b3 : List R)
    (n1 n2 n3 o2 o3 g : Nat) :
    (subset (subset (subset v b1 n1 0 0) b2 n2 0 o2) b3 n3 0 o3).getD g 0
      = if g < v.length then
          (if o3 ≤ g ∧ g < o3 + n3 then b3.getD (g - o3) 0
           else if o2 ≤ g ∧ g < o2 + n2 then b2.getD (g - o2) 0
           else if g < n1 then b1.getD g 0
           else v.getD g 0)
        else 0 := by
  simp only [subset_getD, subset_length, Nat.add_zero, Nat.zero_add, Nat.sub_zero,
    Nat.zero_le, true_and]
  by_cases hg : g < v.length
  · simp only [hg, if_true]
  · simp only [hg, if_false]

theorem applyBCsolution_getD {R Mat W PList : Type} [LinearOrderedField R]
    (X : TimeExternal R Mat W PList) (h : FSIState R Mat W PList) (solution : List R)
    (g : Nat) :
    (applyBCsolution X h solution).getD g 0
      = if g < solution.length then
          (if h.nu + h.np + h.ns + h.nl ≤ g ∧ g < h.nu + h.np + h.ns + h.nl + h.na then
            (X.bcManageRhs
              (subset (List.replicate h.na 0) solution h.na (h.nu + h.np + h.ns + h.nl) 0)
              Field.ale Field.ale Field.ale Field.ale 1 h.M_time).getD
              (g - (h.nu + h.np + h.ns + h.nl)) 0
           else if h.nu + h.np ≤ g ∧ g < h.nu + h.np + h.ns then
            (X.bcManageRhs (subset (List.replicate h.ns 0) solution h.ns (h.nu + h.np) 0)
              Field.solid Field.solid Field.solid Field.solid 1 h.M_time).getD
              (g - (h.nu + h.np)) 0
           else if g < h.nu then
            (X.bcManageRhs (subset (List.replicate h.nu 0) solution h.nu 0 0)
              Field.fluid Field.fluid Field.fluid Field.fluid 1 h.M_time).getD g 0
           else solution.getD g 0)
        else 0 := by
  unfold applyBCsolution
  exact three_writes_getD _ _ _ _ _ _ _ _ _ _

/-- C21: `applyBCsolution` keeps the length of the monolithic solution, the pressure block
and the multiplier block, and every entry outside the velocity, structure-displacement and
mesh-displacement blocks. On a solution that has the five blocks, each of the three treated
blocks holds afterwards what the boundary-condition routine made of the block read at the
same offset. When the boundary-condition routine leaves every vector as it is,
`applyBCsolution` leaves the whole solution as it is. -/
theorem C21_applyBCsolution_touches_three_blocks {R Mat W PList : Type}
    [LinearOrderedField R] (X : TimeExternal R Mat W PList) (h : FSIState R Mat W PList)
    (solution : List R) :
    (applyBCsolution X h solution).length = solution.length
    ∧ subset (List.replicate h.np 0) (applyBCsolution X h solution) h.np h.nu 0
        = subset (List.replicate h.np 0) solution h.np h.nu 0
    ∧ subset (List.replicate h.nl 0) (applyBCsolution X h solution) h.nl
          (h.nu + h.np + h.ns) 0
        = subset (List.replicate h.nl 0) solution h.nl (h.nu + h.np + h.ns) 0
    ∧ (∀ g, ¬ g < h.nu → ¬ (h.nu + h.np ≤ g ∧ g < h.nu + h.np + h.ns) →
        ¬ (h.nu + h.np + h.ns + h.nl ≤ g ∧ g < h.nu + h.np + h.ns + h.nl + h.na) →
        (applyBCsolution X h solution).getD g 0 = solution.getD g 0)
    ∧ (h.nu + h.np + h.ns + h.nl + h.na ≤ solution.length →
        subset (List.replicate h.nu 0) (applyBCsolution X h solution) h.nu 0 0
          = subset (List.replicate h.nu 0)
              (X.bcManageRhs (subset (List.replicate h.nu 0) solution h.nu 0 0)
                Field.fluid Field.fluid Field.fluid Field.fluid 1 h.M_time) h.nu 0 0
        ∧ subset (List.replicate h.ns 0) (applyBCsolution X h solution) h.ns
            (h.nu + h.np) 0
          = subset (List.replicate h.ns 0)
              (X.bcManageRhs (subset (List.replicate h.ns 0) solution h.ns (h.nu + h.np) 0)
                Field.solid Field.solid Field.solid Field.solid 1 h.M_time) h.ns 0 0
        ∧ subset (List.replicate h.na 0) (applyBCsolution X h solution) h.na
            (h.nu + h.np + h.ns + h.nl) 0
          = subset (List.replicate h.na 0)
              (X.bcManageRhs
                (subset (List.replicate h.na 0) solution h.na (h.nu + h.np + h.ns + h.nl) 0)
                Field.ale Field.ale Field.ale Field.ale 1 h.M_time) h.na 0 0)
    ∧ ((∀ v mesh dof bc feBd coefficient time,
          X.bcManageRhs v mesh dof bc feBd coefficient time = v) →
        applyBCsolution X h solution = solution) := by
  have hlen : (applyBCsolution X h solution).length = solution.length := by
    unfold applyBCsolution
    rw [subset_length, subset_length, subset_length]
  have hout : ∀ g, ¬ g < h.nu → ¬ (h.nu + h.np ≤ g ∧ g < h.nu + h.np + h.ns) →
      ¬ (h.nu + h.np + h.ns + h.nl ≤ g ∧ g < h.nu + h.np + h.ns + h.nl + h.na) →
      (applyBCsolution X h solution).getD g 0 = solution.getD g 0 := by
    intro g h1 h2 h3
    rw [applyBCsolution_getD, if_neg h3, if_neg h2, if_neg h1]
    by_cases hg : g < solution.length
    · rw [if_pos hg]
    · rw [if_neg hg, getD_beyond _ _ hg]
  refine ⟨hlen, ?_, ?_, hout, ?_, ?_⟩
  · apply block_congr
    intro k hk
    exact hout _ (by omega) (by omega) (by omega)
  · apply block_congr
    intro k hk
    exact hout _ (by omega) (by omega) (by omega)
  · intro htotal
    refine ⟨?_, ?_, ?_⟩
    · apply ext_getD_zero
      · rw [subset_length, subset_length]
      · intro g
        rw [block_getD, block_getD]
        by_cases hg : g < h.nu
        · rw [if_pos hg, if_pos hg, applyBCsolution_getD, if_pos (by omega),
            if_neg (by omega), if_neg (by omega), if_pos (by omega)]
        · rw [if_neg hg, if_neg hg]
    · apply ext_getD_zero
      · rw [subset_length, subset_length]
      · intro g
        rw [block_getD, block_getD]
        by_cases hg : g < h.ns
        · rw [if_pos hg, if_pos hg, applyBCsolution_getD, if_pos (by omega),
            if_neg (by omega), if_pos (by omega), Nat.add_sub_cancel, Nat.add_zero]
        · rw [if_neg hg, if_neg hg]
    · apply ext_getD_zero
      · rw [subset_length, subset_length]
      · intro g
        rw [block_getD, block_getD]
        by_cases hg : g < h.na
        · rw [if_pos hg, if_pos hg, applyBCsolution_getD, if_pos (by omega),
            if_pos (by omega), Nat.add_sub_cancel, Nat.add_zero]
        · rw [if_neg hg, if_neg hg]
  · intro hid
    apply ext_getD_zero _ _ hlen
    intro g
    rw [applyBCsolution_getD, hid, hid, hid]
    by_cases hg : g < solution.length
    · rw [if_pos hg]
      by_cases h3 : h.nu + h.np + h.ns + h.nl ≤ g ∧ g < h.nu + h.np + h.ns + h.nl + h.na
      · rw [if_pos h3, block_getD, if_pos (by omega), Nat.sub_add_cancel h3.1]
      · rw [if_neg h3]
        by_cases h2 : h.nu + h.np ≤ g ∧ g < h.nu + h.np + h.ns
        · rw [if_pos h2, block_getD, if_pos (by omega), Nat.sub_add_cancel h2.1]
        · rw [if_neg h2]
          by_cases h1 : g < h.nu
          · rw [if_pos h1, block_getD, if_pos h1, Nat.add_zero]
          · rw [if_neg h1]
    · rw [if_neg hg, getD_beyond _ _ hg]

/-- C21 on the small instance, whose boundary-condition routine leaves a vector as it is:
the solution 1, 2, 3, 4, 5 comes back unchanged. -/
theorem C21_applyBCsolution_touches_three_blocks_witness :
    (∀ (v : List ℚ) (mesh dof bc feBd : Field) (coefficient time : ℚ),
        sampleTimeExternal.bcManageRhs v mesh dof bc feBd coefficient time = v)
    ∧ applyBCsolution sampleTimeExternal sampleState [1, 2, 3, 4, 5] = [1, 2, 3, 4, 5] :=
  ⟨fun _ _ _ _ _ _ _ => rfl,
    (C21_applyBCsolution_touches_three_blocks sampleTimeExternal sampleState
      [1, 2, 3, 4, 5]).2.2.2.2.2 (fun _ _ _ _ _ _ _ => rfl)⟩

/-! ## `applyBCresidual` against `applyBCsolution` -/

/-- C22: `applyBCsolution` treats each block with the mesh, the table of unknowns, the
boundary conditions and the boundary element of the block's own field and the coefficient
1. `applyBCresidual` does the same with the coefficient 0 for the structure and the mesh
displacement blocks and for every entry from the pressure block on, but not for the
velocity block: with a boundary-condition routine that writes 1, 2 or 3 for the fluid, the
structure or the ALE mesh, the velocity entry of the residual becomes 2 (structure mesh),
where the treatment with the own fields gives 1. -/
theorem C22_residual_velocity_block_uses_the_structure_mesh :
    (∀ (X : TimeExternal ℚ Nat Nat ℚ) (h : FSIState ℚ Nat Nat ℚ) (v : List ℚ),
      applyBCsolution X h v = applyBC_spec X h 1 v)
    ∧ (∀ (X : TimeExternal ℚ Nat Nat ℚ) (h : FSIState ℚ Nat Nat ℚ) (residual : List ℚ)
        (g : Nat),
      (applyBCresidual X h residual).getD (h.nu + g) 0
        = (applyBC_spec X h 0 residual).getD (h.nu + g) 0)
    ∧ applyBCresidual meshProbeTimeExternal sampleState [0, 0, 0, 0, 0] = [2, 0, 2, 0, 3]
    ∧ applyBC_spec meshProbeTimeExternal sampleState 0 [0, 0, 0, 0, 0] = [1, 0, 2, 0, 3]
    ∧ applyBCsolution meshProbeTimeExternal sampleState [0, 0, 0, 0, 0]
      = [1, 0, 2, 0, 3] := by
  refine ⟨fun _ _ _ => rfl, ?_, ?_, ?_, ?_⟩
  · intro X h residual g
    unfold applyBCresidual applyBC_spec
    simp only []
    rw [three_writes_getD, three_writes_getD]
    have hg : ¬ h.nu + g < h.nu := by omega
    simp only [hg, if_false]
  · simp [applyBCresidual, meshProbeTimeExternal, sampleState, subset, List.range_succ]
  · simp [applyBC_spec, meshProbeTimeExternal, sampleState, subset, List.range_succ]
  · simp [applyBCsolution, meshProbeTimeExternal, sampleState, subset, List.range_succ]

/-! ## The tolerances of the Newton driver -/

/-- C23: `setup` stores the value of the key `newton/reltol` in `M_absoluteTolerance` and
the value of the key `newton/abstol` in `M_relativeTolerance`, and `solveFSIproblem` hands
`M_absoluteTolerance` to the Newton driver as the absolute tolerance and
`M_relativeTolerance` as the relative one. With 1/1000000 under `newton/abstol` and 1/1000
under `newton/reltol` the driver is handed the absolute tolerance 1/1000 and the relative
tolerance 1/1000000. -/
theorem C23_driver_gets_the_tolerances_swapped :
    (∀ (datafile : GetPot ℚ) (s : TimeLoopState ℚ Nat Nat ℚ),
      (setupNewtonData datafile s).M_absoluteTolerance
          = datafile.getReal "newton/reltol" (1 / 10000)
        ∧ (setupNewtonData datafile s).M_relativeTolerance
          = datafile.getReal "newton/abstol" (1 / 10000))
    ∧ (∀ (X : TimeExternal ℚ Nat Nat ℚ) (E : External ℚ Nat Nat ℚ)
        (s : TimeLoopState ℚ Nat Nat ℚ),
      (timeStep X E s).M_solution
        = (X.newton (updateSystem X s).core
            (applyBCsolution X (updateSystem X s).core (updateSystem X s).M_solution)
            s.M_absoluteTolerance s.M_relativeTolerance s.M_maxiterNonlinear s.M_etaMax
            s.M_nonLinearLineSearch (updateSystem X s).core.M_time).solution)
    ∧ sampleDatafile.getReal "newton/abstol" (1 / 10000) = 1 / 1000000
    ∧ sampleDatafile.getReal "newton/reltol" (1 / 10000) = 1 / 1000
    ∧ (timeStep toleranceProbeTimeExternal sampleExternal
        (setupNewtonData sampleDatafile sampleTimeState)).M_solution
      = [1 / 1000, 1 / 1000000] := by
  refine ⟨fun _ _ => ⟨rfl, rfl⟩, fun _ _ _ => rfl, ?_, ?_, ?_⟩
  · simp [GetPot.getReal, sampleDatafile]
  · simp [GetPot.getReal, sampleDatafile]
  · have h : (timeStep toleranceProbeTimeExternal sampleExternal
        (setupNewtonData sampleDatafile sampleTimeState)).M_solution
        = [sampleDatafile.getReal "newton/reltol" (1 / 10000),
            sampleDatafile.getReal "newton/abstol" (1 / 10000)] := rfl
    rw [h]
    simp [GetPot.getReal, sampleDatafile]

/-! ## The exporters -/

/-- C24: built without HDF5, `instantiateExporter` creates the VTK exporter for every data
file, and `setupExporters` goes through. Built with HDF5, it creates an exporter for the
types `hdf5` and `vtk` only: with no type in the data file (the default `ensight`), or with
the type `ensight` or `none`, the pointer stays as it was, unset after the constructor, and
`setupExporters` dereferences it. -/
theorem C24_with_HDF5_the_default_type_leaves_the_exporter_unset :
    (∀ (datafile : GetPot ℚ) (exporter : Option Exporter),
      instantiateExporter false datafile exporter = some Exporter.ExporterVTK)
    ∧ (∀ (datafile : GetPot ℚ) (M_t_zero : ℚ),
      setupExporters false datafile none none M_t_zero
        = some { exporterFluid := Exporter.ExporterVTK
                 exporterStructure := Exporter.ExporterVTK
                 M_exporterFluid := [ExporterCall.postProcess M_t_zero]
                 M_exporterStructure := [ExporterCall.postProcess M_t_zero] })
    ∧ instantiateExporter true (exporterDatafile (some "hdf5")) none
      = some Exporter.ExporterHDF5
    ∧ instantiateExporter true (exporterDatafile (some "vtk")) none
      = some Exporter.ExporterVTK
    ∧ (exporterDatafile none).getString "exporter/type" "ensight" = "ensight"
    ∧ instantiateExporter true (exporterDatafile none) none = none
    ∧ instantiateExporter true (exporterDatafile (some "ensight")) none = none
    ∧ instantiateExporter true (exporterDatafile (some "none")) none = none
    ∧ setupExporters true (exporterDatafile none) none none 0 = none := by
  refine ⟨fun _ _ => rfl, fun _ _ => rfl, ?_, ?_, ?_, ?_, ?_, ?_, ?_⟩ <;>
    simp [setupExporters, instantiateExporter, exporterDatafile, GetPot.getString]

/-! ## The number of turns of the time loop -/

theorem loopTurns_count {R : Type} [LinearOrderedField R] (tFinal dt : R) (n : Nat) :
    ∀ (fuel : Nat) (time : R), n ≤ fuel → ¬ time + n * dt ≤ tFinal + dt / 2 →
      (∀ k : Nat, k < n → time + k * dt ≤ tFinal + dt / 2) →
      loopTurns tFinal dt fuel time = some n := by
  induction n with
  | zero =>
    intro fuel time _ hstop _
    have hc : ¬ time ≤ tFinal + dt / 2 := by
      simpa using hstop
    cases fuel with
    | zero => rw [loopTurns, if_neg hc]
    | succ fuel => rw [loopTurns, if_neg hc]
  | succ n ih =>
    intro fuel time hfuel hstop hgo
    cases fuel with
    | zero => omega
    | succ fuel =>
      have hc : time ≤ tFinal + dt / 2 := by
        simpa using hgo 0 (Nat.succ_pos n)
      rw [loopTurns, if_pos hc, ih fuel (time + dt) (by omega)]
      · rfl
      · intro hle
        apply hstop
        have he : time + ((n + 1 : Nat) : R) * dt = time + dt + (n : R) * dt := by
          push_cast
          ring
        rw [he]
        exact hle
      · intro k hk
        have hk1 := hgo (k + 1) (by omega)
        have he : time + ((k + 1 : Nat) : R) * dt = time + dt + (k : R) * dt := by
          push_cast
          ring
        rw [he] at hk1
        exact hk1

theorem loopTurns_zero_step {R : Type} [LinearOrderedField R] (tFinal : R) (fuel : Nat) :
    ∀ time : R, time ≤ tFinal → loopTurns tFinal 0 fuel time = none := by
  induction fuel with
  | zero =>
    intro time h
    rw [loopTurns, if_pos (by simpa using h)]
  | succ fuel ih =>
    intro time h
    rw [loopTurns, if_pos (by simpa using h), ih (time + 0) (by simpa using h)]
    rfl

/-- The time loop of `solveFSIproblem` makes the turns its header counts. -/
theorem timeLoop_eq_loopTurns {R Mat W PList : Type} [LinearOrderedField R]
    (X : TimeExternal R Mat W PList) (E : External R Mat W PList) (fuel : Nat) :
    ∀ s : TimeLoopState R Mat W PList,
      timeLoop X E fuel s
        = (loopTurns s.M_t_end s.M_dt fuel s.core.M_time).map (fun n => timeSteps X E n s) := by
  induction fuel with
  | zero =>
    intro s
    rw [timeLoop, loopTurns]
    by_cases hc : s.core.M_time ≤ s.M_t_end + s.M_dt / 2
    · rw [if_pos hc, if_pos hc]; rfl
    · rw [if_neg hc, if_neg hc]; rfl
  | succ fuel ih =>
    intro s
    rw [timeLoop, loopTurns]
    by_cases hc : s.core.M_time ≤ s.M_t_end + s.M_dt / 2
    · rw [if_pos hc, if_pos hc, ih]
      obtain ⟨ht, hd, he⟩ := timeLoopBody_time X E s
      rw [ht, hd, he, Option.map_map]
      rfl
    · rw [if_neg hc, if_neg hc]; rfl

theorem timeSteps_time {R Mat W PList : Type} [LinearOrderedField R]
    (X : TimeExternal R Mat W PList) (E : External R Mat W PList) (n : Nat) :
    ∀ s : TimeLoopState R Mat W PList,
      (timeSteps X E n s).core.M_time = s.core.M_time + n * s.M_dt := by
  induction n with
  | zero =>
    intro s
    simp [timeSteps]
  | succ n ih =>
    intro s
    obtain ⟨ht, hd, _⟩ := timeLoopBody_time X E s
    rw [timeSteps, ih, ht, hd]
    push_cast
    ring

/-- The number of turns for a positive time step. -/
theorem loopTurns_floor {R : Type} [LinearOrderedField R] [FloorRing R]
    (tZero tFinal dt : R) (hdt : 0 < dt) (fuel : Nat)
    (hfuel : (Int.floor ((tFinal - tZero) / dt + 1 / 2)).toNat ≤ fuel) :
    loopTurns tFinal dt fuel (tZero + dt)
      = some (Int.floor ((tFinal - tZero) / dt + 1 / 2)).toNat := by
  apply loopTurns_count _ _ _ _ _ hfuel
  · intro hle
    have h1 : (tFinal - tZero) / dt + 1 / 2
        < ((Int.floor ((tFinal - tZero) / dt + 1 / 2) : Int) : R) + 1 :=
      Int.lt_floor_add_one _
    have h2 : ((Int.floor ((tFinal - tZero) / dt + 1 / 2) : Int) : R)
        ≤ (((Int.floor ((tFinal - tZero) / dt + 1 / 2)).toNat : Nat) : R) := by
      have h3 := Int.self_le_toNat (Int.floor ((tFinal - tZero) / dt + 1 / 2))
      exact_mod_cast h3
    generalize (((Int.floor ((tFinal - tZero) / dt + 1 / 2)).toNat : Nat) : R) = c at h2 hle
    have h5 : (tFinal - tZero) / dt < c + 1 / 2 := by linarith
    rw [div_lt_iff₀ hdt] at h5
    have h6 : (c + 1 / 2) * dt = c * dt + dt / 2 := by ring
    linarith
  · intro k hk
    have h1 : ((k : Int) + 1) ≤ Int.floor ((tFinal - tZero) / dt + 1 / 2) := by
      have := Int.lt_toNat.mp hk
      omega
    have h2 : (((k : Int) + 1 : Int) : R) ≤ (tFinal - tZero) / dt + 1 / 2 :=
      Int.le_floor.mp h1
    push_cast at h2
    have h3 : (k : R) + 1 / 2 ≤ (tFinal - tZero) / dt := by linarith
    rw [le_div_iff₀ hdt] at h3
    have h4 : ((k : R) + 1 / 2) * dt = k * dt + dt / 2 := by ring
    linarith

theorem floor_of_multiple {R : Type} [LinearOrderedField R] [FloorRing R]
    (tZero tFinal dt : R) (hdt : 0 < dt) (m : Nat) (hm : tFinal - tZero = m * dt) :
    (Int.floor ((tFinal - tZero) / dt + 1 / 2)).toNat = m := by
  have h1 : (tFinal - tZero) / dt = m := by
    rw [hm, mul_div_assoc, div_self (ne_of_gt hdt), mul_one]
  have h2 : Int.floor ((tFinal - tZero) / dt + 1 / 2) = (m : Int) := by
    rw [Int.floor_eq_iff, h1]
    constructor
    · push_cast
      linarith
    · push_cast
      linarith
  rw [h2, Int.toNat_natCast]

/-- C25: over exact arithmetic, with a positive time step the time loop of
`solveFSIproblem` (start at `M_t_zero + M_dt`, go on while `M_time <= M_t_end + M_dt / 2`,
advance by `M_dt`) ends after exactly `max (0, floor ((M_t_end - M_t_zero) / M_dt + 1/2))`
turns, and so does the loop with the same header in `NavierStokes::run`. When
`M_t_end - M_t_zero` is `m` time steps the loop makes `m` turns, the last of them at the
time `M_t_end`. With the time step 0 and `M_t_zero <= M_t_end` the loop does not end,
whatever the bound on the number of turns. -/
theorem C25_time_loop_makes_the_rounded_number_of_steps {R Mat W PList : Type}
    [LinearOrderedField R] [FloorRing R]
    (X : TimeExternal R Mat W PList) (E : External R Mat W PList)
    (s : TimeLoopState R Mat W PList) (fuel : Nat) :
    (0 < s.M_dt →
      (Int.floor ((s.M_t_end - s.M_t_zero) / s.M_dt + 1 / 2)).toNat ≤ fuel →
      loopTurns s.M_t_end s.M_dt fuel (s.M_t_zero + s.M_dt)
        = some (Int.floor ((s.M_t_end - s.M_t_zero) / s.M_dt + 1 / 2)).toNat
      ∧ timeLoop X E fuel (solveFSIproblemStart X s)
        = some (timeSteps X E (Int.floor ((s.M_t_end - s.M_t_zero) / s.M_dt + 1 / 2)).toNat
            (solveFSIproblemStart X s)))
    ∧ (∀ m : Nat, 0 < s.M_dt → s.M_t_end - s.M_t_zero = (m + 1 : Nat) * s.M_dt →
      (Int.floor ((s.M_t_end - s.M_t_zero) / s.M_dt + 1 / 2)).toNat = m + 1
      ∧ (timeSteps X E m (solveFSIproblemStart X s)).core.M_time = s.M_t_end)
    ∧ (0 < s.M_dt → s.M_t_end - s.M_t_zero = 0 →
      (Int.floor ((s.M_t_end - s.M_t_zero) / s.M_dt + 1 / 2)).toNat = 0)
    ∧ (s.M_dt = 0 → s.M_t_zero ≤ s.M_t_end →
      loopTurns s.M_t_end s.M_dt fuel (s.M_t_zero + s.M_dt) = none
      ∧ timeLoop X E fuel (solveFSIproblemStart X s) = none) := by
  have hstart : timeLoop X E fuel (solveFSIproblemStart X s)
      = (loopTurns s.M_t_end s.M_dt fuel (s.M_t_zero + s.M_dt)).map
          (fun n => timeSteps X E n (solveFSIproblemStart X s)) :=
    timeLoop_eq_loopTurns X E fuel (solveFSIproblemStart X s)
  refine ⟨?_, ?_, ?_, ?_⟩
  · intro hdt hfuel
    have hl := loopTurns_floor s.M_t_zero s.M_t_end s.M_dt hdt fuel hfuel
    refine ⟨hl, ?_⟩
    rw [hstart, hl]
    rfl
  · intro m hdt hm
    refine ⟨floor_of_multiple s.M_t_zero s.M_t_end s.M_dt hdt (m + 1) hm, ?_⟩
    rw [timeSteps_time]
    show s.M_t_zero + s.M_dt + (m : R) * s.M_dt = s.M_t_end
    push_cast at hm
    linarith
  · intro hdt hm
    exact floor_of_multiple s.M_t_zero s.M_t_end s.M_dt hdt 0 (by simpa using hm)
  · intro hdt hle
    have hl : loopTurns s.M_t_end s.M_dt fuel (s.M_t_zero + s.M_dt) = none := by
      rw [hdt]
      exact loopTurns_zero_step s.M_t_end fuel _ (by simpa using hle)
    refine ⟨hl, ?_⟩
    rw [hstart, hl]
    rfl

/-- C25 on the small instance (time step 1 from time 0 to time 2): the loop ends after two
turns; with the time step 0 instead, five turns do not end it. -/
theorem C25_time_loop_makes_the_rounded_number_of_steps_witness :
    (0 : ℚ) < sampleTimeState.M_dt
    ∧ (Int.floor ((sampleTimeState.M_t_end - sampleTimeState.M_t_zero) / sampleTimeState.M_dt
        + 1 / 2)).toNat = 2
    ∧ timeLoop sampleTimeExternal sampleExternal 2
        (solveFSIproblemStart sampleTimeExternal sampleTimeState)
      = some (timeSteps sampleTimeExternal sampleExternal 2
          (solveFSIproblemStart sampleTimeExternal sampleTimeState))
    ∧ timeLoop sampleTimeExternal sampleExternal 5
        (solveFSIproblemStart sampleTimeExternal { sampleTimeState with M_dt := 0 })
      = none := by
  have hdt : (0 : ℚ) < sampleTimeState.M_dt := by
    show (0 : ℚ) < 1
    norm_num
  have hN : (Int.floor ((sampleTimeState.M_t_end - sampleTimeState.M_t_zero)
      / sampleTimeState.M_dt + 1 / 2)).toNat = 2 :=
    floor_of_multiple (0 : ℚ) 2 1 (by norm_num) 2 (by norm_num)
  have h := ((C25_time_loop_makes_the_rounded_number_of_steps sampleTimeExternal
    sampleExternal sampleTimeState 2).1 hdt (le_of_eq hN)).2
  rw [hN] at h
  have hz := ((C25_time_loop_makes_the_rounded_number_of_steps sampleTimeExternal
    sampleExternal { sampleTimeState with M_dt := 0 } 5).2.2.2 rfl
      (by show (0 : ℚ) ≤ 2; norm_num)).2
  exact ⟨hdt, hN, h, hz⟩

end FSIHandler
